import Mathlib

/-!
termchat: chat protocol and connection lifecycle

A shallow embedding of the Go packages `pkg/protocol`, `internal/session` and
`internal/network`.

* A Go string is a sequence of bytes (`gostring`).  Every string that comes out
  of the decoder, a literal or `fmt` is valid UTF-8, and such a string is held
  as a Lean string, the text it encodes: `Message` is the struct with texts,
  `RawMessage` the struct with any bytes.  The encoder is the one place where
  bytes that are not UTF-8 are changed (`json.appendString`); `json.EncodeRaw`
  is the encoder on any Go message and agrees with `json.Encode` on texts.
* `int64` is `Int` with the 64-bit range made explicit,
  `time.Now().UnixMilli()` is a reading of a clock that the environment
  supplies.
* `encoding/json` is modelled at the level of JSON values: a frame is an object
  with named members, the struct tags of `protocol.Message` decide which
  members are written and read.
* A `net.Conn` is a record of the frames still to be read, the frames written
  so far, and whether either side has closed it.  A read on an open stream with
  nothing to read yet does not return: the call is `pending`.
* The mutexes are not modelled: every operation below runs to completion (or to
  a blocking read) before the next one starts.
-/

set_option autoImplicit false

/-! ## Go's `int64` -/

def minInt64 : Int := -9223372036854775808
def maxInt64 : Int := 9223372036854775807

/-- The values of Go's `int64`. -/
abbrev int64 := { n : Int // minInt64 ≤ n ∧ n ≤ maxInt64 }

def int64.zero : int64 := ⟨0, by decide⟩

instance : Inhabited int64 := ⟨int64.zero⟩

/-! ## Go strings and unicode/utf8 -/

/-- A Go `string`: any sequence of bytes. -/
abbrev gostring := List (Fin 256)

namespace utf8

/-- `byte(n)`: the low eight bits. -/
def toByte (n : Nat) : Fin 256 := ⟨n % 256, Nat.mod_lt n (by decide)⟩

def RuneError : Nat := 0xFFFD

/-- The three bytes of a rune from U+0800 to U+FFFF. -/
def encode3 (r : Nat) : gostring :=
  [toByte (0xE0 + r / 4096), toByte (0x80 + r / 64 % 64), toByte (0x80 + r % 64)]

/-- `utf8.AppendRune(nil, r)` for a rune that is not negative: the bit
operations are written as sums, the operands having no bit in common. -/
def AppendRune (r : Nat) : gostring :=
  if r ≤ 0x7F then [toByte r]
  else if r ≤ 0x7FF then [toByte (0xC0 + r / 64), toByte (0x80 + r % 64)]
  else if r > 0x10FFFF ∨ (0xD800 ≤ r ∧ r ≤ 0xDFFF) then encode3 RuneError
  else if r ≤ 0xFFFF then encode3 r
  else
    [toByte (0xF0 + r / 262144), toByte (0x80 + r / 4096 % 64), toByte (0x80 + r / 64 % 64),
     toByte (0x80 + r % 64)]

/-- The table `first` together with `acceptRanges`, for a first byte that is
not ASCII: the size of the sequence that the byte starts and the range of the
second byte, `none` for a byte that starts no sequence. -/
def first (b : Nat) : Option (Nat × Nat × Nat) :=
  if b < 0xC2 then none
  else if b ≤ 0xDF then some (2, 0x80, 0xBF)
  else if b = 0xE0 then some (3, 0xA0, 0xBF)
  else if b ≤ 0xEC then some (3, 0x80, 0xBF)
  else if b = 0xED then some (3, 0x80, 0x9F)
  else if b ≤ 0xEF then some (3, 0x80, 0xBF)
  else if b = 0xF0 then some (4, 0x90, 0xBF)
  else if b ≤ 0xF3 then some (4, 0x80, 0xBF)
  else if b = 0xF4 then some (4, 0x80, 0x8F)
  else none

/-- `utf8.DecodeRuneInString(s)`: the first rune of `s` and its size in bytes;
`(RuneError, 1)` when `s` does not start with a valid sequence, `(RuneError, 0)`
when `s` is empty. -/
def DecodeRuneInString (s : gostring) : Nat × Nat :=
  match s with
  | [] => (RuneError, 0)
  | s0 :: rest =>
    if s0.val < 0x80 then (s0.val, 1)
    else
      match first s0.val with
      | none => (RuneError, 1)
      | some (sz, lo, hi) =>
        if s.length < sz then (RuneError, 1)
        else
          match rest with
          | [] => (RuneError, 1)
          | s1 :: rest1 =>
            if s1.val < lo ∨ hi < s1.val then (RuneError, 1)
            else if sz ≤ 2 then (s0.val % 32 * 64 + s1.val % 64, 2)
            else
              match rest1 with
              | [] => (RuneError, 1)
              | s2 :: rest2 =>
                if s2.val < 0x80 ∨ 0xBF < s2.val then (RuneError, 1)
                else if sz ≤ 3 then
                  (s0.val % 16 * 4096 + s1.val % 64 * 64 + s2.val % 64, 3)
                else
                  match rest2 with
                  | [] => (RuneError, 1)
                  | s3 :: _ =>
                    if s3.val < 0x80 ∨ 0xBF < s3.val then (RuneError, 1)
                    else
                      (s0.val % 8 * 262144 + s1.val % 64 * 4096 + s2.val % 64 * 64
                        + s3.val % 64, 4)

/-- The bytes of a text: the UTF-8 encoding of its characters, one after the
other. -/
def ofString (t : String) : gostring := t.data.flatMap (fun c => AppendRune c.toNat)

end utf8

/-! ## pkg/protocol/types.go -/

namespace protocol

abbrev MessageType := String

def MessageTypeHello : MessageType := "hello"
def MessageTypeWelcome : MessageType := "welcome"
def MessageTypeReady : MessageType := "ready"
def MessageTypeText : MessageType := "text"
def MessageTypePing : MessageType := "ping"
def MessageTypePong : MessageType := "pong"
def MessageTypeLeave : MessageType := "leave"
def MessageTypeError : MessageType := "error"

/-- The struct `Message` with its three strings held as texts (valid UTF-8);
the Go field `Type` is called `Kind` here. -/
structure Message where
  Kind : MessageType
  Content : String
  SessionID : String
  Timestamp : int64
  deriving DecidableEq, Repr, Inhabited

/-- `NewMessage(msgType, content)`; `now` is `time.Now().UnixMilli()`. -/
def NewMessage (now : int64) (msgType : MessageType) (content : String) : Message :=
  { Kind := msgType, Content := content, SessionID := "", Timestamp := now }

/-- `NewHandshakeMessage(msgType, sessionID)`; `now` is `time.Now().UnixMilli()`. -/
def NewHandshakeMessage (now : int64) (msgType : MessageType) (sessionID : String) : Message :=
  { Kind := msgType, Content := "", SessionID := sessionID, Timestamp := now }

/-- The struct `Message` as Go holds it, its three strings being sequences of
bytes; a `Message` is one whose strings are texts. -/
structure RawMessage where
  Kind : gostring
  Content : gostring
  SessionID : gostring
  Timestamp : int64
  deriving DecidableEq, Repr

/-- The Go value of a message whose strings are texts. -/
def Message.raw (m : Message) : RawMessage :=
  { Kind := utf8.ofString m.Kind, Content := utf8.ofString m.Content,
    SessionID := utf8.ofString m.SessionID, Timestamp := m.Timestamp }

end protocol

/-! ## encoding/json, as used through the struct tags of `Message` -/

namespace json

open protocol

/-- The value of one member of a JSON object, as far as decoding into a
`Message` can tell values apart: `int` is an integer literal of any size,
`other` is any other value (a boolean, a number with a fraction or exponent,
an array, an object). -/
inductive Value where
  | null
  | str (s : String)
  | int (n : Int)
  | other
  deriving DecidableEq, Repr, Inhabited

/-- One item read from the stream by `json.Decoder`: a JSON object, the value
`null`, any other JSON value (`nonObject`), or bytes that are not JSON at all
(`malformed`). -/
inductive Frame where
  | object (members : List (String × Value))
  | null
  | nonObject
  | malformed
  deriving DecidableEq, Repr, Inhabited

/-- Case folding of one rune of a member name: `encoding/json` matches member
names to field names up to Unicode simple case folding, which on the letters of
the four tags is ASCII case plus the long s (U+017F) and the Kelvin sign
(U+212A). -/
def foldRune (c : Char) : Char :=
  if c = Char.ofNat 0x17F then 's'
  else if c = Char.ofNat 0x212A then 'k'
  else c.toLower

def foldName (name : String) : String := String.mk (name.data.map foldRune)

/-- The state of `Unmarshal` while it walks the members: the struct being
filled and whether a type error has been recorded. -/
structure Partial where
  msg : Message
  failed : Bool
  deriving DecidableEq, Repr

/-- Store a JSON value into a `string` field: a `null` leaves the field as it
is, a value that is not a string leaves it too and records the error. -/
def setString (p : Partial) (v : Value) (set : Message → String → Message) : Partial :=
  match v with
  | .null => p
  | .str s => { p with msg := set p.msg s }
  | .int _ => { p with failed := true }
  | .other => { p with failed := true }

/-- Store a JSON value into an `int64` field: only an integer literal within
the range of `int64` is accepted. -/
def setInt64 (p : Partial) (v : Value) (set : Message → int64 → Message) : Partial :=
  match v with
  | .null => p
  | .int n =>
    if h : minInt64 ≤ n ∧ n ≤ maxInt64 then { p with msg := set p.msg ⟨n, h⟩ }
    else { p with failed := true }
  | .str _ => { p with failed := true }
  | .other => { p with failed := true }

/-- Store one member into the struct; a member whose name matches no field is
skipped. -/
def setMember (p : Partial) (name : String) (v : Value) : Partial :=
  if foldName name = "type" then
    setString p v (fun m s => { m with Kind := s })
  else if foldName name = "content" then
    setString p v (fun m s => { m with Content := s })
  else if foldName name = "session_id" then
    setString p v (fun m s => { m with SessionID := s })
  else if foldName name = "timestamp" then
    setInt64 p v (fun m n => { m with Timestamp := n })
  else p

/-- The zero value of `Message`, what `var msg protocol.Message` declares. -/
def zeroMessage : Message :=
  { Kind := "", Content := "", SessionID := "", Timestamp := int64.zero }

def unmarshalMembers (members : List (String × Value)) : Partial :=
  members.foldl (fun p kv => setMember p kv.1 kv.2) { msg := zeroMessage, failed := false }

/-- `decoder.Decode(&msg)` on one frame, `msg` being a fresh zero `Message`:
`some m` when it returns a nil error, `none` when it returns an error. -/
def Decode (f : Frame) : Option Message :=
  match f with
  | .object members =>
    let p := unmarshalMembers members
    if p.failed then none else some p.msg
  | .null => some zeroMessage
  | .nonObject => none
  | .malformed => none

/-- A member that names a field of `Message` and whose value cannot be stored
in it: a number or a compound value for one of the three strings, anything but
an integer literal within the range of `int64` (or `null`) for the timestamp.
Which string a string member holds plays no part. -/
def mistyped (name : String) (v : Value) : Bool :=
  if foldName name = "type" ∨ foldName name = "content" ∨ foldName name = "session_id" then
    match v with
    | .null => false
    | .str _ => false
    | .int _ => true
    | .other => true
  else if foldName name = "timestamp" then
    match v with
    | .null => false
    | .int n => decide (¬ (minInt64 ≤ n ∧ n ≤ maxInt64))
    | .str _ => true
    | .other => true
  else false

/-- The members `json.Marshal` writes for a `Message`: `type` and `timestamp`
always, `content` and `session_id` unless empty (`omitempty`). -/
def Marshal (m : Message) : List (String × Value) :=
  [("type", Value.str m.Kind)]
    ++ (if m.Content = "" then [] else [("content", Value.str m.Content)])
    ++ (if m.SessionID = "" then [] else [("session_id", Value.str m.SessionID)])
    ++ [("timestamp", Value.int m.Timestamp.val)]

/-- `encoder.Encode(msg)` for a message whose strings are texts: the frame put
on the stream. -/
def Encode (m : Message) : Frame := Frame.object (Marshal m)

/-- The loop of `appendString` over the bytes not yet written, giving the
characters of the string that the JSON text written denotes: an ASCII byte is
itself (escaped or not), a byte that starts no valid sequence is written as the
escape of U+FFFD, a valid sequence is its rune.  Every turn takes at least one
byte, `fuel` bounds the turns. -/
def appendString.go : Nat → gostring → List Char
  | 0, _ => []
  | _ + 1, [] => []
  | fuel + 1, b :: rest =>
    if b.val < 0x80 then Char.ofNat b.val :: appendString.go fuel rest
    else if (utf8.DecodeRuneInString ((b :: rest).take 4)).1 = utf8.RuneError ∧
        (utf8.DecodeRuneInString ((b :: rest).take 4)).2 = 1 then
      Char.ofNat utf8.RuneError :: appendString.go fuel rest
    else
      Char.ofNat (utf8.DecodeRuneInString ((b :: rest).take 4)).1 ::
        appendString.go fuel ((b :: rest).drop (utf8.DecodeRuneInString ((b :: rest).take 4)).2)

/-- The string value that the encoder puts on the wire for a Go string. -/
def appendString (s : gostring) : String := String.mk (appendString.go s.length s)

/-- The message of the texts that the encoder writes for the strings of a
message as Go holds it. -/
def asText (m : RawMessage) : Message :=
  { Kind := appendString m.Kind, Content := appendString m.Content,
    SessionID := appendString m.SessionID, Timestamp := m.Timestamp }

/-- The members `json.Marshal` writes for a message as Go holds it; `omitempty`
looks at the length of the Go string. -/
def MarshalRaw (m : RawMessage) : List (String × Value) :=
  [("type", Value.str (appendString m.Kind))]
    ++ (if m.Content = [] then [] else [("content", Value.str (appendString m.Content))])
    ++ (if m.SessionID = [] then [] else [("session_id", Value.str (appendString m.SessionID))])
    ++ [("timestamp", Value.int m.Timestamp.val)]

/-- `encoder.Encode(msg)` on a message as Go holds it. -/
def EncodeRaw (m : RawMessage) : Frame := Frame.object (MarshalRaw m)

/-- `decoder.Decode(&msg)`, the message being given as Go holds it: the bytes
of a decoded string are the UTF-8 encoding of the text. -/
def DecodeRaw (f : Frame) : Option RawMessage := (Decode f).map Message.raw

end json

/-! ## internal/session/session.go -/

namespace session

open protocol

inductive State where
  | StateCreated
  | StateWaiting
  | StateActive
  | StateEnded
  deriving DecidableEq, Repr, Inhabited

structure Session where
  ID : String
  StartTime : int64
  Messages : List Message
  State : State
  deriving DecidableEq, Repr

/-- `AddMessage(msg)`; `now` is `time.Now().UnixMilli()`. -/
def Session.AddMessage (s : Session) (now : int64) (msg : Message) : Session :=
  { s with Messages := s.Messages ++ [{ msg with Timestamp := now }] }

def Session.GetMessages (s : Session) : List Message := [] ++ s.Messages

def Session.SetState (s : Session) (state : session.State) : Session :=
  { s with State := state }

def Session.GetState (s : Session) : session.State := s.State

def adjectives : List String :=
  ["cosmic", "mystic", "stellar", "quantum",
   "cyber", "neon", "turbo", "ultra",
   "alpha", "omega", "shadow", "ghost",
   "plasma", "lunar", "solar", "astral"]

def nouns : List String :=
  ["phoenix", "dragon", "tiger", "eagle",
   "shark", "wolf", "bear", "fox",
   "turtle", "falcon", "raven", "nebula",
   "comet", "meteor", "galaxy", "nova"]

/-- `GenerateSessionID()`; `a`, `b` and `n` are what the three calls of
`rand.Intn` return, and `%d` is the decimal rendering. -/
def GenerateSessionID (a : Fin 16) (b : Fin 16) (n : Fin 10000) : String :=
  adjectives.getD a.val "" ++ "-" ++ nouns.getD b.val "" ++ "-" ++ toString n.val

/-- `New()`; `a`, `b`, `n` are the outcomes of the random source and `now` is
`time.Now()`. -/
def New (a : Fin 16) (b : Fin 16) (n : Fin 10000) (now : int64) : Session :=
  { ID := GenerateSessionID a b n, StartTime := now, Messages := [], State := .StateCreated }

end session

/-! ## strings.Split and strconv.Atoi, as `ParseConnectionString` uses them -/

namespace strings

/-- The parts of a text between the occurrences of `sep`; there is one part
more than there are occurrences. -/
def splitList (sep : Char) : List Char → List (List Char)
  | [] => [[]]
  | c :: cs =>
    if c = sep then [] :: splitList sep cs
    else
      match splitList sep cs with
      | [] => [[c]]
      | part :: parts => (c :: part) :: parts

/-- `strings.Split(s, sep)` for a separator of one ASCII character. -/
def Split (s : String) (sep : Char) : List String :=
  (splitList sep s.data).map String.mk

/-- The characters before the first `sep`. -/
def before (sep : Char) (cs : List Char) : List Char := cs.takeWhile (fun c => c != sep)

/-- The characters after the first `sep`. -/
def after (sep : Char) (cs : List Char) : List Char :=
  (cs.dropWhile (fun c => c != sep)).drop 1

end strings

namespace strconv

/-- The value of a run of ASCII digits read from the left, `acc` being the
value of the digits read before; `none` when a character is not a digit. -/
def parseDigits : List Char → Nat → Option Nat
  | [], acc => some acc
  | c :: cs, acc =>
    if c.isDigit then parseDigits cs (acc * 10 + (c.toNat - 48)) else none

/-- The value of a non-empty run of ASCII digits. -/
def parseUint (cs : List Char) : Option Nat :=
  match cs with
  | [] => none
  | c :: rest => parseDigits (c :: rest) 0

/-- `strconv.Atoi(s)` where `int` has 64 bits: an optional sign followed by at
least one decimal digit, of a value that `int` holds; `none` when it returns
an error. -/
def Atoi (s : String) : Option Int :=
  match s.data with
  | [] => none
  | c :: rest =>
    if c = '-' then
      match parseUint rest with
      | some n => if minInt64 ≤ -(n : Int) then some (-(n : Int)) else none
      | none => none
    else if c = '+' then
      match parseUint rest with
      | some n => if (n : Int) ≤ maxInt64 then some (n : Int) else none
      | none => none
    else
      match parseUint (c :: rest) with
      | some n => if (n : Int) ≤ maxInt64 then some (n : Int) else none
      | none => none

end strconv

/-! ## The environment of an endpoint: streams, clock, callbacks -/

namespace network

open protocol session

/-- A Go `error` value: one produced by the library (a failed read, decode or
write) or one built with `fmt.Errorf`, whose text is kept. -/
inductive Error where
  | io
  | text (msg : String)
  deriving DecidableEq, Repr, Inhabited

/-- How a call ended: it returned a value, it has not returned (it is blocked
in a read), or it dereferenced a nil encoder or decoder. -/
inductive Call (α : Type) where
  | ret (a : α)
  | pending
  | panic
  deriving DecidableEq, Repr

/-- The outcome of one `decoder.Decode`. -/
inductive Recv where
  | msg (m : Message)
  | err
  | pending
  | panic
  deriving DecidableEq, Repr

/-- The outcome of one `encoder.Encode`. -/
inductive Sent where
  | ok
  | err
  | panic
  deriving DecidableEq, Repr

/-- A `net.Conn` seen from one endpoint.  `incoming` are the frames the peer
has written and this side has not read yet, `peerClosed` says that the stream
ends after them, `written` are the frames this side has written, `writeFail`
tells for the coming writes which of them fail (none once it is used up), and
`closed` that this side has called `Close`. -/
structure Conn where
  incoming : List json.Frame
  peerClosed : Bool
  written : List Message
  writeFail : List Bool
  closed : Bool
  deriving DecidableEq, Repr

abbrev ConnId := Nat

/-- A callback invocation. -/
inductive Event where
  | connect
  | disconnect
  | message (m : Message)
  deriving DecidableEq, Repr

/-- What an endpoint runs in: the streams it holds references to, the clock
(`clock n` is the value of the n-th reading of `time.Now().UnixMilli()`), the
number of readings made, the callbacks invoked so far, and whether the
`net.Listener` and the SSH client the endpoint made have been closed. -/
structure Env where
  conns : ConnId → Conn
  clock : Nat → int64
  ticks : Nat
  events : List Event
  listenerClosed : Bool
  sshClosed : Bool

def Conn.Close (c : Conn) : Conn := { c with closed := true }

def Env.setConn (e : Env) (id : ConnId) (c : Conn) : Env :=
  { e with conns := Function.update e.conns id c }

/-- A reading of `time.Now().UnixMilli()`. -/
def Env.now (e : Env) : int64 × Env :=
  (e.clock e.ticks, { e with ticks := e.ticks + 1 })

def Env.emit (e : Env) (ev : Event) : Env :=
  { e with events := e.events ++ [ev] }

/-- `decoder.Decode(&msg)` with `msg` a fresh zero `Message`, through a
possibly nil `*json.Decoder`: a nil decoder panics, a stream this side has
closed gives an error, an open stream with nothing to read blocks (or gives an
error when the peer has closed it), and otherwise the next frame is consumed
and decoded. -/
def Env.Decode (e : Env) (decoder : Option ConnId) : Recv × Env :=
  match decoder with
  | none => (.panic, e)
  | some id =>
    if (e.conns id).closed then (.err, e)
    else
      match (e.conns id).incoming with
      | [] => (if (e.conns id).peerClosed then .err else .pending, e)
      | f :: rest =>
        (match json.Decode f with
          | some m => .msg m
          | none => .err,
         e.setConn id { e.conns id with incoming := rest })

/-- `encoder.Encode(msg)` through a possibly nil `*json.Encoder`: a nil encoder
panics, a stream this side has closed gives an error, and otherwise the write
fails or succeeds as `writeFail` tells. -/
def Env.Encode (e : Env) (encoder : Option ConnId) (m : Message) : Sent × Env :=
  match encoder with
  | none => (.panic, e)
  | some id =>
    if (e.conns id).closed then (.err, e)
    else
      match (e.conns id).writeFail with
      | true :: rest => (.err, e.setConn id { e.conns id with writeFail := rest })
      | false :: rest =>
        (.ok, e.setConn id { e.conns id with written := (e.conns id).written ++ [m],
                                             writeFail := rest })
      | [] => (.ok, e.setConn id { e.conns id with written := (e.conns id).written ++ [m] })

def Env.Close (e : Env) (id : ConnId) : Env := e.setConn id (e.conns id).Close

/-! ## internal/network/server.go -/

structure Server where
  session : Session
  listener : Bool
  conn : Option ConnId
  encoder : Option ConnId
  decoder : Option ConnId
  onMessage : Bool
  onConnect : Bool
  onDisconnect : Bool
  deriving DecidableEq, Repr

/-- A listener together with its environment. -/
structure ServerWorld where
  srv : Server
  env : Env

def NewServer (sess : Session) : Server :=
  { session := sess, listener := false, conn := none, encoder := none, decoder := none,
    onMessage := false, onConnect := false, onDisconnect := false }

def Server.SetCallbacks (s : Server) (onMessage onConnect onDisconnect : Bool) : Server :=
  { s with onMessage := onMessage, onConnect := onConnect, onDisconnect := onDisconnect }

/-- `Start(port)`; `listenOk` is whether `net.Listen` succeeded. -/
def Server.Start (w : ServerWorld) (listenOk : Bool) : Option Error × ServerWorld :=
  if listenOk then
    (none, { srv := { w.srv with listener := true,
                                 session := w.srv.session.SetState .StateWaiting },
             env := { w.env with listenerClosed := false } })
  else (some (.text "failed to listen"), w)

/-- One turn of the loop of `acceptConnections`: `accepted` is what
`listener.Accept()` returned (`none` for an error).  The Boolean tells whether
`go s.handleConnection()` was started. -/
def Server.acceptConnections (w : ServerWorld) (accepted : Option ConnId) : Bool × ServerWorld :=
  match accepted with
  | none => (false, w)
  | some conn =>
    if w.srv.conn ≠ none then
      (false, { w with env := w.env.Close conn })
    else
      (true, { w with srv := { w.srv with conn := some conn, encoder := some conn,
                                          decoder := some conn } })

def Server.SendMessage (w : ServerWorld) (msg : Message) : Option Error × ServerWorld :=
  match w.srv.encoder with
  | none => (some (.text "not connected"), w)
  | some id =>
    match w.env.Encode (some id) msg with
    | (.ok, e) => (none, { w with env := e })
    | (_, e) => (some .io, { w with env := e })

/-- `sendError(errMsg)`: the Boolean is `false` when the nil encoder is
dereferenced. -/
def Server.sendError (w : ServerWorld) (errMsg : String) : Bool × ServerWorld :=
  let msg := NewMessage w.env.now.1 MessageTypeError errMsg
  match w.env.now.2.Encode w.srv.encoder msg with
  | (.panic, e) => (false, { w with env := e })
  | (_, e) => (true, { w with env := e })

def Server.performHandshake (w : ServerWorld) : Call (Option Error) × ServerWorld :=
  match w.env.Decode w.srv.decoder with
  | (.panic, e) => (.panic, { w with env := e })
  | (.pending, e) => (.pending, { w with env := e })
  | (.err, e) => (.ret (some .io), { w with env := e })
  | (.msg hello, e) =>
    let w1 : ServerWorld := { w with env := e }
    if hello.Kind ≠ MessageTypeHello then
      match Server.sendError w1 "Expected HELLO message" with
      | (false, w2) => (.panic, w2)
      | (true, w2) =>
        (.ret (some (.text ("invalid handshake: expected HELLO, got " ++ hello.Kind))), w2)
    else if hello.SessionID ≠ w1.srv.session.ID then
      match Server.sendError w1 "Session ID mismatch" with
      | (false, w2) => (.panic, w2)
      | (true, w2) =>
        (.ret (some (.text ("session ID mismatch: expected " ++ w1.srv.session.ID
          ++ ", got " ++ hello.SessionID))), w2)
    else
      let welcome := NewHandshakeMessage w1.env.now.1 MessageTypeWelcome w1.srv.session.ID
      match w1.env.now.2.Encode w1.srv.encoder welcome with
      | (.panic, e2) => (.panic, { w1 with env := e2 })
      | (.err, e2) => (.ret (some .io), { w1 with env := e2 })
      | (.ok, e2) =>
        match e2.Decode w1.srv.decoder with
        | (.panic, e3) => (.panic, { w1 with env := e3 })
        | (.pending, e3) => (.pending, { w1 with env := e3 })
        | (.err, e3) => (.ret (some .io), { w1 with env := e3 })
        | (.msg ready, e3) =>
          if ready.Kind ≠ MessageTypeReady then
            (.ret (some (.text ("invalid handshake: expected READY, got " ++ ready.Kind))),
              { w1 with env := e3 })
          else (.ret none, { w1 with env := e3 })

/-- The deferred function of `handleConnection`. -/
def Server.handleConnection.deferred (w : ServerWorld) : ServerWorld :=
  let w1 : ServerWorld :=
    match w.srv.conn with
    | some id => { srv := { w.srv with conn := none }, env := w.env.Close id }
    | none => w
  if w1.srv.onDisconnect then { w1 with env := w1.env.emit .disconnect } else w1

/-- The body of the `for` loop of `handleConnection` once a frame has been
decoded into `msg`; the Boolean tells whether the loop goes on (`false` is the
`return` of the Leave case). -/
def Server.handleConnection.body (w : ServerWorld) (msg : Message) : Bool × ServerWorld :=
  let w1 : ServerWorld :=
    { srv := { w.srv with session := w.srv.session.AddMessage w.env.now.1 msg },
      env := w.env.now.2 }
  let w2 : ServerWorld :=
    if w1.srv.onMessage then { w1 with env := w1.env.emit (.message msg) } else w1
  if msg.Kind = MessageTypePing then
    (true, (Server.SendMessage { w2 with env := w2.env.now.2 }
              (NewMessage w2.env.now.1 MessageTypePong "")).2)
  else if msg.Kind = MessageTypeLeave then (false, w2)
  else (true, w2)

/-- The `for` loop of `handleConnection`, run for at most `fuel` turns. -/
def Server.handleConnection.loop : Nat → ServerWorld → Call Unit × ServerWorld
  | 0, w => (.pending, w)
  | fuel + 1, w =>
    match w.env.Decode w.srv.decoder with
    | (.panic, e) => (.panic, { w with env := e })
    | (.pending, e) => (.pending, { w with env := e })
    | (.err, e) => (.ret (), { w with env := e })
    | (.msg msg, e) =>
      match Server.handleConnection.body { w with env := e } msg with
      | (true, w1) => Server.handleConnection.loop fuel w1
      | (false, w1) => (.ret (), w1)

/-- The number of loop turns that the frames now readable can feed, plus the
one that meets the end of them. -/
def Env.turns (e : Env) (decoder : Option ConnId) : Nat :=
  match decoder with
  | none => 1
  | some id => (e.conns id).incoming.length + 1

def Server.handleConnection (w : ServerWorld) : Call Unit × ServerWorld :=
  match Server.performHandshake w with
  | (.panic, w1) => (.panic, Server.handleConnection.deferred w1)
  | (.pending, w1) => (.pending, w1)
  | (.ret (some _), w1) => (.ret (), Server.handleConnection.deferred w1)
  | (.ret none, w1) =>
    let w2 : ServerWorld :=
      { w1 with srv := { w1.srv with session := w1.srv.session.SetState .StateActive } }
    let w3 : ServerWorld :=
      if w2.srv.onConnect then { w2 with env := w2.env.emit .connect } else w2
    match Server.handleConnection.loop (w3.env.turns w3.srv.decoder) w3 with
    | (.pending, w4) => (.pending, w4)
    | (r, w4) => (r, Server.handleConnection.deferred w4)

def Server.Stop (w : ServerWorld) : ServerWorld :=
  let w1 : ServerWorld :=
    match w.srv.conn with
    | some id =>
      let e1 : Env :=
        match w.srv.encoder with
        | some enc =>
          (w.env.now.2.Encode (some enc)
            (NewMessage w.env.now.1 MessageTypeLeave "Host disconnected")).2
        | none => w.env
      { srv := { w.srv with conn := none }, env := e1.Close id }
    | none => w
  let w2 : ServerWorld :=
    if w1.srv.listener then
      { srv := { w1.srv with listener := false }, env := { w1.env with listenerClosed := true } }
    else w1
  { w2 with srv := { w2.srv with session := w2.srv.session.SetState .StateEnded } }

/-! ## internal/network/client.go -/

structure Client where
  session : Session
  conn : Option ConnId
  encoder : Option ConnId
  decoder : Option ConnId
  sshClient : Bool
  onMessage : Bool
  onConnect : Bool
  onDisconnect : Bool
  deriving DecidableEq, Repr

/-- A joiner together with its environment. -/
structure ClientWorld where
  cli : Client
  env : Env

def NewClient (sess : Session) : Client :=
  { session := sess, conn := none, encoder := none, decoder := none, sshClient := false,
    onMessage := false, onConnect := false, onDisconnect := false }

def Client.SetCallbacks (c : Client) (onMessage onConnect onDisconnect : Bool) : Client :=
  { c with onMessage := onMessage, onConnect := onConnect, onDisconnect := onDisconnect }

structure ConnectionInfo where
  User : String
  Host : String
  SessionID : String
  Port : Int
  deriving DecidableEq, Repr

/-- The port of `ParseConnectionString`: 9999 unless there is a third part,
which `strconv.Atoi` must then read as a number from 1 to 65535. -/
def ParseConnectionString.port (parts : List String) : Except Error Int :=
  if parts.length = 3 then
    match strconv.Atoi (parts.getD 2 "") with
    | none => .error (.text ("invalid port number: " ++ parts.getD 2 ""))
    | some customPort =>
      if customPort < 1 ∨ customPort > 65535 then
        .error (.text "port must be between 1 and 65535")
      else .ok customPort
  else .ok 9999

/-- The user and host of `ParseConnectionString`: the first part must split at
`@` into exactly two parts, neither of them empty. -/
def ParseConnectionString.userHost (userHost sessionID : String) (port : Int) :
    Except Error ConnectionInfo :=
  let uhParts := strings.Split userHost '@'
  if uhParts.length ≠ 2 then .error (.text "invalid user@host format")
  else
    let user := uhParts.getD 0 ""
    let host := uhParts.getD 1 ""
    if user = "" then .error (.text "user cannot be empty")
    else if host = "" then .error (.text "host cannot be empty")
    else .ok { User := user, Host := host, SessionID := sessionID, Port := port }

def ParseConnectionString (connStr : String) : Except Error ConnectionInfo :=
  let parts := strings.Split connStr ':'
  if parts.length < 2 ∨ parts.length > 3 then
    .error (.text "invalid format, expected user@host:session-id or user@host:session-id:port")
  else
    let userHost := parts.getD 0 ""
    let sessionID := parts.getD 1 ""
    match ParseConnectionString.port parts with
    | .error err => .error err
    | .ok port => ParseConnectionString.userHost userHost sessionID port

def Client.SendMessage (w : ClientWorld) (msg : Message) : Option Error × ClientWorld :=
  match w.cli.encoder with
  | none => (some (.text "not connected"), w)
  | some id =>
    match w.env.Encode (some id) msg with
    | (.ok, e) => (none, { w with env := e })
    | (_, e) => (some .io, { w with env := e })

def Client.performHandshake (w : ClientWorld) : Call (Option Error) × ClientWorld :=
  let hello := NewHandshakeMessage w.env.now.1 MessageTypeHello w.cli.session.ID
  match w.env.now.2.Encode w.cli.encoder hello with
  | (.panic, e) => (.panic, { w with env := e })
  | (.err, e) => (.ret (some .io), { w with env := e })
  | (.ok, e) =>
    match e.Decode w.cli.decoder with
    | (.panic, e1) => (.panic, { w with env := e1 })
    | (.pending, e1) => (.pending, { w with env := e1 })
    | (.err, e1) => (.ret (some .io), { w with env := e1 })
    | (.msg welcome, e1) =>
      if welcome.Kind = MessageTypeError then
        (.ret (some (.text ("server error: " ++ welcome.Content))), { w with env := e1 })
      else if welcome.Kind ≠ MessageTypeWelcome then
        (.ret (some (.text ("invalid handshake: expected WELCOME, got " ++ welcome.Kind))),
          { w with env := e1 })
      else
        let ready := NewMessage e1.now.1 MessageTypeReady ""
        match e1.now.2.Encode w.cli.encoder ready with
        | (.panic, e2) => (.panic, { w with env := e2 })
        | (.err, e2) => (.ret (some .io), { w with env := e2 })
        | (.ok, e2) => (.ret none, { w with env := e2 })

/-- `ConnectLocal(addr, sessionID)`; `dialed` is what `net.Dial` returned
(`none` for an error).  When it returns a nil error it has started
`go c.handleConnection()`. -/
def Client.ConnectLocal (w : ClientWorld) (dialed : Option ConnId) (sessionID : String) :
    Call (Option Error) × ClientWorld :=
  match dialed with
  | none => (.ret (some (.text "failed to connect")), w)
  | some conn =>
    let w1 : ClientWorld :=
      { w with cli := { w.cli with conn := some conn, encoder := some conn, decoder := some conn,
                                   session := { w.cli.session with ID := sessionID } } }
    match Client.performHandshake w1 with
    | (.panic, w2) => (.panic, w2)
    | (.pending, w2) => (.pending, w2)
    | (.ret (some err), w2) => (.ret (some err), { w2 with env := w2.env.Close conn })
    | (.ret none, w2) =>
      let w3 : ClientWorld :=
        { w2 with cli := { w2.cli with session := w2.cli.session.SetState .StateActive } }
      let w4 : ClientWorld :=
        if w3.cli.onConnect then { w3 with env := w3.env.emit .connect } else w3
      (.ret none, w4)

/-- `ConnectViaSSH(connInfo)`; `sshDialed` is whether `ssh.Dial` succeeded and
`dialed` what `sshClient.Dial` returned.  When it returns a nil error it has
started `go c.handleConnection()`. -/
def Client.ConnectViaSSH (w : ClientWorld) (sshDialed : Bool) (dialed : Option ConnId)
    (sessionID : String) : Call (Option Error) × ClientWorld :=
  if !sshDialed then (.ret (some (.text "SSH connection failed")), w)
  else
    let w0 : ClientWorld :=
      { cli := { w.cli with sshClient := true }, env := { w.env with sshClosed := false } }
    match dialed with
    | none =>
      (.ret (some (.text "failed to connect through SSH tunnel")),
        { w0 with env := { w0.env with sshClosed := true } })
    | some conn =>
      let w1 : ClientWorld :=
        { w0 with cli := { w0.cli with conn := some conn, encoder := some conn,
                                       decoder := some conn,
                                       session := { w0.cli.session with ID := sessionID } } }
      match Client.performHandshake w1 with
      | (.panic, w2) => (.panic, w2)
      | (.pending, w2) => (.pending, w2)
      | (.ret (some err), w2) =>
        (.ret (some err), { w2 with env := { w2.env.Close conn with sshClosed := true } })
      | (.ret none, w2) =>
        let w3 : ClientWorld :=
          { w2 with cli := { w2.cli with session := w2.cli.session.SetState .StateActive } }
        let w4 : ClientWorld :=
          if w3.cli.onConnect then { w3 with env := w3.env.emit .connect } else w3
        (.ret none, w4)

/-- The deferred function of `handleConnection`. -/
def Client.handleConnection.deferred (w : ClientWorld) : ClientWorld :=
  let w1 : ClientWorld :=
    match w.cli.conn with
    | some id => { cli := { w.cli with conn := none }, env := w.env.Close id }
    | none => w
  let w2 : ClientWorld :=
    if w1.cli.sshClient then
      { cli := { w1.cli with sshClient := false }, env := { w1.env with sshClosed := true } }
    else w1
  if w2.cli.onDisconnect then { w2 with env := w2.env.emit .disconnect } else w2

/-- The body of the `for` loop of `handleConnection` once a frame has been
decoded into `msg`; the Boolean tells whether the loop goes on (`false` is the
`return` of the Leave case). -/
def Client.handleConnection.body (w : ClientWorld) (msg : Message) : Bool × ClientWorld :=
  let w1 : ClientWorld :=
    { cli := { w.cli with session := w.cli.session.AddMessage w.env.now.1 msg },
      env := w.env.now.2 }
  let w2 : ClientWorld :=
    if w1.cli.onMessage then { w1 with env := w1.env.emit (.message msg) } else w1
  if msg.Kind = MessageTypePing then
    (true, (Client.SendMessage { w2 with env := w2.env.now.2 }
              (NewMessage w2.env.now.1 MessageTypePong "")).2)
  else if msg.Kind = MessageTypeLeave then (false, w2)
  else (true, w2)

/-- The `for` loop of `handleConnection`, run for at most `fuel` turns. -/
def Client.handleConnection.loop : Nat → ClientWorld → Call Unit × ClientWorld
  | 0, w => (.pending, w)
  | fuel + 1, w =>
    match w.env.Decode w.cli.decoder with
    | (.panic, e) => (.panic, { w with env := e })
    | (.pending, e) => (.pending, { w with env := e })
    | (.err, e) => (.ret (), { w with env := e })
    | (.msg msg, e) =>
      match Client.handleConnection.body { w with env := e } msg with
      | (true, w1) => Client.handleConnection.loop fuel w1
      | (false, w1) => (.ret (), w1)

def Client.handleConnection (w : ClientWorld) : Call Unit × ClientWorld :=
  match Client.handleConnection.loop (w.env.turns w.cli.decoder) w with
  | (.pending, w1) => (.pending, w1)
  | (r, w1) => (r, Client.handleConnection.deferred w1)

def Client.Stop (w : ClientWorld) : ClientWorld :=
  let w1 : ClientWorld :=
    match w.cli.conn with
    | some id =>
      let e1 : Env :=
        match w.cli.encoder with
        | some enc =>
          (w.env.now.2.Encode (some enc)
            (NewMessage w.env.now.1 MessageTypeLeave "Peer disconnected")).2
        | none => w.env
      { cli := { w.cli with conn := none }, env := e1.Close id }
    | none => w
  let w2 : ClientWorld :=
    if w1.cli.sshClient then
      { cli := { w1.cli with sshClient := false }, env := { w1.env with sshClosed := true } }
    else w1
  { w2 with cli := { w2.cli with session := w2.cli.session.SetState .StateEnded } }

end network

/-! ## Vocabulary of the statements -/

namespace network

open protocol session

/-- The frames a receive loop takes in from the frames readable on its stream:
those before the first frame that does not decode, cut after the first
Leave. -/
def delivered : List json.Frame → List Message
  | [] => []
  | f :: fs =>
    match json.Decode f with
    | none => []
    | some m => if m.Kind = MessageTypeLeave then [m] else m :: delivered fs

/-- The copies of the delivered frames that the loop appends to the Session:
each carries the clock reading made when it was appended.  The loop reads the
clock once per frame and once more for the Pong that answers a Ping; `t` is the
number of readings made before. -/
def logged (clock : Nat → int64) : Nat → List Message → List Message
  | _, [] => []
  | t, m :: ms =>
    { m with Timestamp := clock t }
      :: logged clock (if m.Kind = MessageTypePing then t + 2 else t + 1) ms

/-- The Pongs the loop writes for the delivered frames, one for each Ping. -/
def pongs (clock : Nat → int64) : Nat → List Message → List Message
  | _, [] => []
  | t, m :: ms =>
    if m.Kind = MessageTypePing then
      NewMessage (clock (t + 1)) MessageTypePong "" :: pongs clock (t + 2) ms
    else pongs clock (t + 1) ms

/-- `AddMessage` called once for each entry of `calls`, in turn: an entry is
the clock reading of the call and the message passed. -/
def addAll (s : Session) : List (int64 × Message) → Session
  | [] => s
  | c :: rest => addAll (s.AddMessage c.1 c.2) rest

/-- A text that `strconv.Atoi` reads as a number from 1 to 65535. -/
def isPort (t : String) : Prop :=
  ∃ p : Int, strconv.Atoi t = some p ∧ 1 ≤ p ∧ p ≤ 65535

/-- The inputs C18 lists: no `:` or more than two of them; a part before the
first `:` that does not hold exactly one `@`; nothing before that `@` (the
user) or nothing after it (the host); a third part, the text after the second
`:`, that is not a port. -/
def malformedConnString (s : String) : Prop :=
  s.data.count ':' = 0 ∨ 2 < s.data.count ':' ∨
  (strings.before ':' s.data).count '@' ≠ 1 ∨
  strings.before '@' (strings.before ':' s.data) = [] ∨
  strings.after '@' (strings.before ':' s.data) = [] ∨
  (s.data.count ':' = 2 ∧ ¬ isPort (String.mk (strings.after ':' (strings.after ':' s.data))))

/-- The frames an endpoint makes and writes by itself: a Hello, Welcome, Ready
or Pong with empty content, an Error with a content that is not empty, or the
Leave of `Stop` with its fixed content. -/
def ownFrame (m : Message) : Prop :=
  (m.Kind = MessageTypeHello ∧ m.Content = "") ∨
  (m.Kind = MessageTypeWelcome ∧ m.Content = "") ∨
  (m.Kind = MessageTypeReady ∧ m.Content = "") ∨
  (m.Kind = MessageTypePong ∧ m.Content = "") ∨
  (m.Kind = MessageTypeError ∧ m.Content ≠ "") ∨
  (m.Kind = MessageTypeLeave ∧
    (m.Content = "Host disconnected" ∨ m.Content = "Peer disconnected"))

/-- From the streams `c` to the streams `c2` nothing that was written has
changed, and every frame written since satisfies `P`. -/
def Grows (P : Message → Prop) (c c2 : ConnId → Conn) : Prop :=
  ∀ id, ∃ added, (c2 id).written = (c id).written ++ added ∧ ∀ m ∈ added, P m

/-- The eight kinds of the protocol. -/
def knownKinds : List MessageType :=
  [MessageTypeHello, MessageTypeWelcome, MessageTypeReady, MessageTypeText,
   MessageTypePing, MessageTypePong, MessageTypeLeave, MessageTypeError]

/-- The listener's encoder and decoder are on stream `id`, which this side has
not closed and on which no write fails. -/
def ServerWorld.reliableOn (w : ServerWorld) (id : ConnId) : Prop :=
  w.srv.encoder = some id ∧ w.srv.decoder = some id ∧
    (w.env.conns id).closed = false ∧ (w.env.conns id).writeFail = []

/-- The joiner's encoder and decoder are on stream `id`, which this side has
not closed and on which no write fails. -/
def ClientWorld.reliableOn (w : ClientWorld) (id : ConnId) : Prop :=
  w.cli.encoder = some id ∧ w.cli.decoder = some id ∧
    (w.env.conns id).closed = false ∧ (w.env.conns id).writeFail = []

/-- A stream end on which nothing has been written or closed by this side and
on which no write fails. -/
def Conn.fresh (incoming : List json.Frame) (peerClosed : Bool) : Conn :=
  { incoming := incoming, peerClosed := peerClosed, written := [], writeFail := [],
    closed := false }

/-- What the peer of a stream end gets to read on a reliable ordered stream:
the frames written on this end, encoded, in the order written. -/
def Conn.wire (c : Conn) : List json.Frame := c.written.map json.Encode

/-- The joiner `J` dials and runs `ConnectLocal` with target id `jid` on a
stream whose own end is `c`. -/
def join (J : ClientWorld) (jid : String) (c : Conn) : Call (Option Error) × ClientWorld :=
  Client.ConnectLocal { J with env := J.env.setConn 0 c } (some 0) jid

/-- The listener `L` accepts a stream whose own end is `c`; when the accept
loop starts `handleConnection`, that runs. -/
def listen (L : ServerWorld) (c : Conn) : Call Unit × ServerWorld :=
  match Server.acceptConnections { L with env := L.env.setConn 0 c } (some 0) with
  | (true, w) => Server.handleConnection w
  | (false, w) => (.ret (), w)

/-- A joiner and a listener at the two ends of one stream. -/
structure Link where
  joiner : Call (Option Error) × ClientWorld
  listener : Call Unit × ServerWorld

/-- The two endpoints are sequential and deterministic and a read blocks until
the peer has written, so how far each side gets is found by running it on what
the peer has written so far.  `Link.step` runs the joiner on the frames `sent`
by the listener (`closed`: the listener has closed its end) and then the
listener on what the joiner has written by then. -/
def Link.step (J : ClientWorld) (jid : String) (L : ServerWorld) (sent : List Message)
    (closed : Bool) : Link :=
  let j := join J jid (Conn.fresh (sent.map json.Encode) closed)
  { joiner := j
    listener := listen L (Conn.fresh (j.2.env.conns 0).wire (j.2.env.conns 0).closed) }

/-- The exchange between joiner and listener after `n + 1` such steps, the
first of them with nothing sent by the listener yet. -/
def exchange (J : ClientWorld) (jid : String) (L : ServerWorld) : Nat → Link
  | 0 => Link.step J jid L [] false
  | n + 1 =>
    Link.step J jid L ((exchange J jid L n).listener.2.env.conns 0).written
      ((exchange J jid L n).listener.2.env.conns 0).closed

/-- The part of `Server.handleConnection` that follows `onConnect`: the
receive loop, and the deferred function once the loop has stopped. -/
def Server.handleConnection.steady (w : ServerWorld) : Call Unit × ServerWorld :=
  match Server.handleConnection.loop (w.env.turns w.srv.decoder) w with
  | (.pending, w1) => (.pending, w1)
  | (r, w1) => (r, Server.handleConnection.deferred w1)

/-- Frames written by the peer arrive on stream `id` of the listener;
`closed` tells whether the peer has closed the stream after them. -/
def ServerWorld.receive (w : ServerWorld) (id : ConnId) (frames : List json.Frame)
    (closed : Bool) : ServerWorld :=
  { w with
    env := w.env.setConn id
      { w.env.conns id with incoming := (w.env.conns id).incoming ++ frames,
                            peerClosed := closed } }

/-- Frames written by the peer arrive on stream `id` of the joiner. -/
def ClientWorld.receive (w : ClientWorld) (id : ConnId) (frames : List json.Frame)
    (closed : Bool) : ClientWorld :=
  { w with
    env := w.env.setConn id
      { w.env.conns id with incoming := (w.env.conns id).incoming ++ frames,
                            peerClosed := closed } }

/-! ### Concrete endpoints, for the instances of the theorems -/

def sampleClock : Nat → int64 := fun _ => int64.zero

/-- An environment at its start, all of whose streams have `c` as own end. -/
def sampleEnv (c : Conn) : Env :=
  { conns := fun _ => c, clock := sampleClock, ticks := 0, events := [],
    listenerClosed := false, sshClosed := false }

def sampleSession (id : String) : Session :=
  { ID := id, StartTime := int64.zero, Messages := [], State := .StateCreated }

/-- Four frames: a Ping, a Text, a Leave, and a Text after the Leave. -/
def sampleFrames : List json.Frame :=
  [json.Encode (NewMessage int64.zero MessageTypePing ""),
   json.Encode (NewMessage int64.zero MessageTypeText "hi"),
   json.Encode (NewMessage int64.zero MessageTypeLeave "bye"),
   json.Encode (NewMessage int64.zero MessageTypeText "late")]

/-- A listener for session `id` with its three callbacks set, after `Start`. -/
def sampleServer (id : String) (c : Conn) : ServerWorld :=
  (Server.Start
    { srv := (NewServer (sampleSession id)).SetCallbacks true true true, env := sampleEnv c }
    true).2

/-- The same listener once its accept loop has attached stream 0. -/
def sampleListener (id : String) (c : Conn) : ServerWorld :=
  (Server.acceptConnections (sampleServer id c) (some 0)).2

/-- A joiner with its three callbacks set that has not dialled yet. -/
def sampleClient (id : String) (c : Conn) : ClientWorld :=
  { cli := (NewClient (sampleSession id)).SetCallbacks true true true, env := sampleEnv c }

/-- The same joiner once `ConnectLocal` has dialled stream 0 and set its target
id, about to run its handshake. -/
def sampleJoiner (id : String) (c : Conn) : ClientWorld :=
  { cli := { (sampleClient id c).cli with conn := some 0, encoder := some 0, decoder := some 0 },
    env := sampleEnv c }

/-- A Text message whose content is the two bytes FF FE, which are not UTF-8. -/
def sampleRaw : RawMessage :=
  { Kind := utf8.ofString MessageTypeText, Content := [0xFF, 0xFE], SessionID := [],
    Timestamp := int64.zero }

/-- A joiner and a listener for session `nova-42` after their handshakes: both
Active, the listener in its receive loop. -/
def sampleLink : Link :=
  exchange (sampleClient "" (Conn.fresh [] false)) "nova-42"
    (sampleServer "nova-42" (Conn.fresh [] false)) 1

end network

/-! ## Sequences of endpoint operations -/

namespace session

/-- The place of a state in the order Created < Waiting < Active < Ended. -/
def State.rank : session.State → Nat
  | .StateCreated => 0
  | .StateWaiting => 1
  | .StateActive => 2
  | .StateEnded => 3

end session

namespace network
open protocol session

/-- What can be done with a listener: `Start`, a turn of the accept loop
together with the `handleConnection` it starts, the receive loop taken up again
when more frames are there, `SendMessage`, frames arriving, `Stop`. -/
inductive ServerOp where
  | start (listenOk : Bool)
  | serve (accepted : Option ConnId)
  | steady
  | send (m : Message)
  | receive (id : ConnId) (frames : List json.Frame) (closed : Bool)
  | stop

def ServerOp.run (op : ServerOp) (w : ServerWorld) : ServerWorld :=
  match op with
  | .start listenOk => (Server.Start w listenOk).2
  | .serve accepted =>
    if (Server.acceptConnections w accepted).1 then
      (Server.handleConnection (Server.acceptConnections w accepted).2).2
    else (Server.acceptConnections w accepted).2
  | .steady => (Server.handleConnection.steady w).2
  | .send m => (Server.SendMessage w m).2
  | .receive id frames closed => w.receive id frames closed
  | .stop => Server.Stop w

/-- The discipline of the caller: `Start` only on a Session that is Created or
Waiting, and no stream served once the Session is Ended. -/
def ServerOp.allowed (op : ServerOp) (st : session.State) : Prop :=
  match op with
  | .start _ => st = .StateCreated ∨ st = .StateWaiting
  | .serve _ => st ≠ .StateEnded
  | .steady => True
  | .send _ => True
  | .receive _ _ _ => True
  | .stop => True

def ServerOp.runAll : List ServerOp → ServerWorld → ServerWorld
  | [], w => w
  | op :: ops, w => ServerOp.runAll ops (op.run w)

def ServerOp.allowedAll : List ServerOp → ServerWorld → Prop
  | [], _ => True
  | op :: ops, w => op.allowed w.srv.session.State ∧ ServerOp.allowedAll ops (op.run w)

/-- What can be done with a joiner: `ConnectLocal`, `ConnectViaSSH`,
`handleConnection` (started, or taken up again when more frames are there),
`SendMessage`, frames arriving, `Stop`. -/
inductive ClientOp where
  | connectLocal (dialed : Option ConnId) (sessionID : String)
  | connectViaSSH (sshDialed : Bool) (dialed : Option ConnId) (sessionID : String)
  | handle
  | send (m : Message)
  | receive (id : ConnId) (frames : List json.Frame) (closed : Bool)
  | stop

def ClientOp.run (op : ClientOp) (w : ClientWorld) : ClientWorld :=
  match op with
  | .connectLocal dialed sessionID => (Client.ConnectLocal w dialed sessionID).2
  | .connectViaSSH sshDialed dialed sessionID =>
    (Client.ConnectViaSSH w sshDialed dialed sessionID).2
  | .handle => (Client.handleConnection w).2
  | .send m => (Client.SendMessage w m).2
  | .receive id frames closed => w.receive id frames closed
  | .stop => Client.Stop w

/-- The discipline of the caller: no connect once the Session is Ended. -/
def ClientOp.allowed (op : ClientOp) (st : session.State) : Prop :=
  match op with
  | .connectLocal _ _ => st ≠ .StateEnded
  | .connectViaSSH _ _ _ => st ≠ .StateEnded
  | .handle => True
  | .send _ => True
  | .receive _ _ _ => True
  | .stop => True

def ClientOp.runAll : List ClientOp → ClientWorld → ClientWorld
  | [], w => w
  | op :: ops, w => ClientOp.runAll ops (op.run w)

def ClientOp.allowedAll : List ClientOp → ClientWorld → Prop
  | [], _ => True
  | op :: ops, w => op.allowed w.cli.session.State ∧ ClientOp.allowedAll ops (op.run w)

end network

/-! ## Lemmas on the JSON layer -/

namespace json

open protocol

theorem foldName_type : foldName "type" = "type" := by decide

theorem foldName_content : foldName "content" = "content" := by decide

theorem foldName_session_id : foldName "session_id" = "session_id" := by decide

theorem foldName_timestamp : foldName "timestamp" = "timestamp" := by decide

theorem setMember_failed (p : Partial) (name : String) (v : Value) :
    (setMember p name v).failed = (p.failed || mistyped name v) := by
  unfold setMember mistyped
  by_cases h1 : foldName name = "type"
  · cases v <;> simp [h1, setString]
  · by_cases h2 : foldName name = "content"
    · cases v <;> simp [h1, h2, setString]
    · by_cases h3 : foldName name = "session_id"
      · cases v <;> simp [h1, h2, h3, setString]
      · by_cases h4 : foldName name = "timestamp"
        · cases v with
          | int n =>
            by_cases hn : minInt64 ≤ n ∧ n ≤ maxInt64 <;> simp [h1, h2, h3, h4, setInt64, hn]
          | null => simp [h1, h2, h3, h4, setInt64]
          | str s => simp [h1, h2, h3, h4, setInt64]
          | other => simp [h1, h2, h3, h4, setInt64]
        · simp [h1, h2, h3, h4]

theorem foldl_setMember_failed : ∀ (members : List (String × Value)) (p : Partial),
    (members.foldl (fun p kv => setMember p kv.1 kv.2) p).failed =
      (p.failed || members.any (fun kv => mistyped kv.1 kv.2))
  | [], p => by simp
  | kv :: members, p => by
    rw [List.foldl_cons, foldl_setMember_failed members, setMember_failed, List.any_cons,
      Bool.or_assoc]

/-- An object fails to decode exactly when one of its members is mistyped. -/
theorem Decode_object_eq_none (members : List (String × Value)) :
    Decode (Frame.object members) = none ↔ ∃ kv ∈ members, mistyped kv.1 kv.2 = true := by
  simp only [Decode, unmarshalMembers, foldl_setMember_failed, Bool.false_or]
  by_cases h : members.any (fun kv => mistyped kv.1 kv.2) = true
  · have h2 := List.any_eq_true.mp h
    simp only [h, if_true, true_iff]
    exact h2
  · have h2 : ¬ ∃ kv ∈ members, mistyped kv.1 kv.2 = true := fun hx => h (List.any_eq_true.mpr hx)
    simp only [h, if_false, h2, iff_false]
    exact fun hx => nomatch hx

/-- Decoding the frame that `Encode` makes gives the message back. -/
theorem Decode_Encode (m : Message) : Decode (Encode m) = some m := by
  obtain ⟨k, c, sid, ⟨t, ht⟩⟩ := m
  by_cases hc : c = "" <;> by_cases hs : sid = "" <;>
    simp [Decode, Encode, Marshal, unmarshalMembers, setMember, setString, setInt64,
      foldName_type, foldName_content, foldName_session_id, foldName_timestamp, zeroMessage,
      hc, hs, ht]

end json

namespace network

open protocol session

@[simp] theorem Env.setConn_conns_same (e : Env) (id : ConnId) (c : Conn) :
    (e.setConn id c).conns id = c := by
  simp [Env.setConn]

@[simp] theorem Env.setConn_clock (e : Env) (id : ConnId) (c : Conn) :
    (e.setConn id c).clock = e.clock := rfl

@[simp] theorem Env.setConn_ticks (e : Env) (id : ConnId) (c : Conn) :
    (e.setConn id c).ticks = e.ticks := rfl

@[simp] theorem Env.setConn_events (e : Env) (id : ConnId) (c : Conn) :
    (e.setConn id c).events = e.events := rfl

@[simp] theorem Env.now_fst (e : Env) : e.now.1 = e.clock e.ticks := rfl

@[simp] theorem Env.now_snd_conns (e : Env) : e.now.2.conns = e.conns := rfl

@[simp] theorem Env.now_snd_clock (e : Env) : e.now.2.clock = e.clock := rfl

@[simp] theorem Env.now_snd_ticks (e : Env) : e.now.2.ticks = e.ticks + 1 := rfl

@[simp] theorem Env.now_snd_events (e : Env) : e.now.2.events = e.events := rfl

/-! ## The listener's handshake -/

/-- C2. Listener handshake rejection: when the first frame decodes to a message
that is not a Hello, or to a Hello whose sessionId is not the listener's id,
`Server.performHandshake` returns an error having written exactly one frame, an
Error whose content is a non-empty reason (and no Welcome); `handleConnection`
then returns with the Session as it was (so still Waiting), the connection
slot nil and the stream closed, nothing more written, and the next stream the
accept loop gets is attached and handed to `handleConnection`. -/
theorem Server.handshake_rejects (w : ServerWorld) (id : ConnId) (f : json.Frame)
    (rest : List json.Frame) (first : Message)
    (hconn : w.srv.conn = some id) (hrel : w.reliableOn id)
    (hin : (w.env.conns id).incoming = f :: rest) (hdec : json.Decode f = some first)
    (hbad : first.Kind ≠ MessageTypeHello ∨ first.SessionID ≠ w.srv.session.ID) :
    ∃ reason : String, reason ≠ "" ∧
      (∃ err, (Server.performHandshake w).1 = .ret (some err)) ∧
      ((Server.performHandshake w).2.env.conns id).written =
        (w.env.conns id).written
          ++ [NewMessage (w.env.clock w.env.ticks) MessageTypeError reason] ∧
      (Server.handleConnection w).1 = .ret () ∧
      (Server.handleConnection w).2.srv.session = w.srv.session ∧
      (Server.handleConnection w).2.srv.conn = none ∧
      ((Server.handleConnection w).2.env.conns id).closed = true ∧
      ((Server.handleConnection w).2.env.conns id).written =
        (w.env.conns id).written
          ++ [NewMessage (w.env.clock w.env.ticks) MessageTypeError reason] ∧
      ∀ next : ConnId,
        (Server.acceptConnections (Server.handleConnection w).2 (some next)).1 = true ∧
        (Server.acceptConnections (Server.handleConnection w).2 (some next)).2.srv.conn
          = some next ∧
        (Server.acceptConnections (Server.handleConnection w).2 (some next)).2.srv.decoder
          = some next ∧
        (Server.acceptConnections (Server.handleConnection w).2 (some next)).2.srv.encoder
          = some next := by
  obtain ⟨srv, env⟩ := w
  obtain ⟨he, hd, hopen, hw⟩ := hrel
  simp only at hconn he hd hopen hw hin hbad
  by_cases hk : first.Kind = MessageTypeHello
  · have hs : first.SessionID ≠ srv.session.ID := by
      rcases hbad with h | h
      · exact absurd hk h
      · exact h
    refine ⟨"Session ID mismatch", by decide, ?_⟩
    by_cases hdis : srv.onDisconnect <;>
      simp [Server.handleConnection, Server.handleConnection.deferred, Server.performHandshake,
        Server.sendError, Server.acceptConnections, Env.Decode, Env.Encode, Env.Close,
        Env.emit, Conn.Close, hconn, he, hd, hopen, hw, hin, hdec, hk, hs, hdis]
  · refine ⟨"Expected HELLO message", by decide, ?_⟩
    by_cases hdis : srv.onDisconnect <;>
      simp [Server.handleConnection, Server.handleConnection.deferred, Server.performHandshake,
        Server.sendError, Server.acceptConnections, Env.Decode, Env.Encode, Env.Close,
        Env.emit, Conn.Close, hconn, he, hd, hopen, hw, hin, hdec, hk, hdis]

theorem Server.handshake_rejects_witness :
    (sampleListener "nova-42" (Conn.fresh [json.Encode
        (NewHandshakeMessage int64.zero MessageTypeHello "nova-41")] false)).srv.conn = some 0 ∧
    (Server.handleConnection (sampleListener "nova-42" (Conn.fresh [json.Encode
        (NewHandshakeMessage int64.zero MessageTypeHello "nova-41")] false))).2.srv.session.State
      = .StateWaiting := by
  obtain ⟨_, _, _, _, _, h, _⟩ :=
    Server.handshake_rejects
      (sampleListener "nova-42" (Conn.fresh [json.Encode
        (NewHandshakeMessage int64.zero MessageTypeHello "nova-41")] false))
      0 _ [] (NewHandshakeMessage int64.zero MessageTypeHello "nova-41")
      rfl ⟨rfl, rfl, rfl, rfl⟩ rfl (json.Decode_Encode _) (Or.inr (by decide))
  exact ⟨rfl, by rw [h]; rfl⟩

/-- C3. Listener handshake success: on a stream whose writes succeed,
`Server.performHandshake` returns a nil error exactly when the first frame
decodes to a Hello carrying the listener's session id and the second frame
decodes to a Ready; when it does, what it has written is exactly one Welcome
carrying the listener's id; and once the stream has ended, or two frames are
there to read, it does return (so that every other second frame, and the end
of the stream before it, makes it return an error). -/
theorem Server.handshake_succeeds_iff (w : ServerWorld) (id : ConnId) (hrel : w.reliableOn id) :
    ((Server.performHandshake w).1 = .ret none ↔
      ∃ f1 f2 rest hello ready, (w.env.conns id).incoming = f1 :: f2 :: rest ∧
        json.Decode f1 = some hello ∧ hello.Kind = MessageTypeHello ∧
        hello.SessionID = w.srv.session.ID ∧
        json.Decode f2 = some ready ∧ ready.Kind = MessageTypeReady) ∧
    ((Server.performHandshake w).1 = .ret none →
      ((Server.performHandshake w).2.env.conns id).written =
        (w.env.conns id).written
          ++ [NewHandshakeMessage (w.env.clock w.env.ticks) MessageTypeWelcome
                w.srv.session.ID]) ∧
    ((w.env.conns id).peerClosed = true ∨ 2 ≤ (w.env.conns id).incoming.length →
      ∃ r, (Server.performHandshake w).1 = .ret r) := by
  obtain ⟨srv, env⟩ := w
  obtain ⟨he, hd, hopen, hw⟩ := hrel
  simp only at he hd hopen hw
  rcases hin : (env.conns id).incoming with _ | ⟨f1, _ | ⟨f2, rest⟩⟩
  · by_cases hp : (env.conns id).peerClosed <;>
      simp [Server.performHandshake, Env.Decode, hd, he, hopen, hw, hin, hp]
  · cases h1 : json.Decode f1 with
    | none => simp [Server.performHandshake, Env.Decode, hd, he, hopen, hw, hin, h1]
    | some hello =>
      by_cases hk : hello.Kind = MessageTypeHello
      · by_cases hs : hello.SessionID = srv.session.ID
        · by_cases hp : (env.conns id).peerClosed <;>
            simp [Server.performHandshake, Env.Decode, Env.Encode, hd, he, hopen, hw, hin, h1,
              hk, hs, hp]
        · simp [Server.performHandshake, Server.sendError, Env.Decode, Env.Encode, hd, he,
            hopen, hw, hin, h1, hk, hs]
      · simp [Server.performHandshake, Server.sendError, Env.Decode, Env.Encode, hd, he, hopen,
          hw, hin, h1, hk]
  · cases h1 : json.Decode f1 with
    | none => simp [Server.performHandshake, Env.Decode, hd, he, hopen, hw, hin, h1]
    | some hello =>
      by_cases hk : hello.Kind = MessageTypeHello
      · by_cases hs : hello.SessionID = srv.session.ID
        · cases h2 : json.Decode f2 with
          | none =>
            simp [Server.performHandshake, Env.Decode, Env.Encode, hd, he, hopen, hw, hin, h1,
              h2, hk, hs]
          | some ready =>
            by_cases hr : ready.Kind = MessageTypeReady
            · simp [Server.performHandshake, Env.Decode, Env.Encode, hd, he, hopen, hw, hin, h1,
                h2, hk, hs, hr]
              exact ⟨f1, f2, ⟨rfl, rfl⟩, hello, h1, hk, hs, ready, h2, hr⟩
            · simp [Server.performHandshake, Env.Decode, Env.Encode, hd, he, hopen, hw, hin, h1,
                h2, hk, hs, hr]
        · simp [Server.performHandshake, Server.sendError, Env.Decode, Env.Encode, hd, he,
            hopen, hw, hin, h1, hk, hs]
      · simp [Server.performHandshake, Server.sendError, Env.Decode, Env.Encode, hd, he, hopen,
          hw, hin, h1, hk]

theorem Server.handshake_succeeds_iff_witness :
    (sampleListener "nova-42" (Conn.fresh
        [json.Encode (NewHandshakeMessage int64.zero MessageTypeHello "nova-42"),
         json.Encode (NewMessage int64.zero MessageTypeReady "")] false)).reliableOn 0 ∧
    (Server.performHandshake (sampleListener "nova-42" (Conn.fresh
        [json.Encode (NewHandshakeMessage int64.zero MessageTypeHello "nova-42"),
         json.Encode (NewMessage int64.zero MessageTypeReady "")] false))).1 = .ret none :=
  ⟨⟨rfl, rfl, rfl, rfl⟩,
   (Server.handshake_succeeds_iff
      (sampleListener "nova-42" (Conn.fresh
        [json.Encode (NewHandshakeMessage int64.zero MessageTypeHello "nova-42"),
         json.Encode (NewMessage int64.zero MessageTypeReady "")] false))
      0 ⟨rfl, rfl, rfl, rfl⟩).1.mpr
     ⟨_, _, [], _, _, rfl, json.Decode_Encode _, rfl, rfl, json.Decode_Encode _, rfl⟩⟩

/-! ## The joiner's handshake -/

/-- C4. Joiner handshake: on a stream whose writes succeed,
`Client.performHandshake` first writes one Hello carrying the joiner's target
id (it is all that is written while no reply is there); then, `r` being the
first reply: an Error makes it return the error `server error: ` followed by
the content of `r`, with nothing more written; a reply that is neither Error
nor Welcome makes it return the error `invalid handshake: expected WELCOME,
got ` followed by the kind of `r`, with nothing more written; a Welcome makes
it write exactly one Ready, which has no content and no sessionId (neither
member is on the wire), and return a nil error. -/
theorem Client.handshake_replies (w : ClientWorld) (id : ConnId) (hrel : w.reliableOn id) :
    ((w.env.conns id).incoming = [] → (w.env.conns id).peerClosed = false →
      (Client.performHandshake w).1 = .pending ∧
      ((Client.performHandshake w).2.env.conns id).written =
        (w.env.conns id).written
          ++ [NewHandshakeMessage (w.env.clock w.env.ticks) MessageTypeHello
                w.cli.session.ID]) ∧
    (∀ f rest r, (w.env.conns id).incoming = f :: rest → json.Decode f = some r →
      (r.Kind = MessageTypeError →
        (Client.performHandshake w).1 = .ret (some (.text ("server error: " ++ r.Content))) ∧
        ((Client.performHandshake w).2.env.conns id).written =
          (w.env.conns id).written
            ++ [NewHandshakeMessage (w.env.clock w.env.ticks) MessageTypeHello
                  w.cli.session.ID]) ∧
      (r.Kind ≠ MessageTypeError → r.Kind ≠ MessageTypeWelcome →
        (Client.performHandshake w).1 =
          .ret (some (.text ("invalid handshake: expected WELCOME, got " ++ r.Kind))) ∧
        ((Client.performHandshake w).2.env.conns id).written =
          (w.env.conns id).written
            ++ [NewHandshakeMessage (w.env.clock w.env.ticks) MessageTypeHello
                  w.cli.session.ID]) ∧
      (r.Kind = MessageTypeWelcome →
        (Client.performHandshake w).1 = .ret none ∧
        ((Client.performHandshake w).2.env.conns id).written =
          (w.env.conns id).written
            ++ [NewHandshakeMessage (w.env.clock w.env.ticks) MessageTypeHello
                  w.cli.session.ID,
                NewMessage (w.env.clock (w.env.ticks + 1)) MessageTypeReady ""] ∧
        json.Marshal (NewMessage (w.env.clock (w.env.ticks + 1)) MessageTypeReady "") =
          [("type", json.Value.str "ready"),
           ("timestamp", json.Value.int (w.env.clock (w.env.ticks + 1)).val)])) := by
  obtain ⟨cli, env⟩ := w
  obtain ⟨he, hd, hopen, hw⟩ := hrel
  simp only at he hd hopen hw
  refine ⟨?_, ?_⟩
  · intro hin hp
    simp only at hin hp
    simp [Client.performHandshake, Env.Decode, Env.Encode, hd, he, hopen, hw, hin, hp]
  · intro f rest r hin hdec
    simp only at hin
    refine ⟨?_, ?_, ?_⟩
    · intro hk
      simp [Client.performHandshake, Env.Decode, Env.Encode, hd, he, hopen, hw, hin, hdec, hk]
    · intro hk1 hk2
      simp [Client.performHandshake, Env.Decode, Env.Encode, hd, he, hopen, hw, hin, hdec, hk1,
        hk2]
    · intro hk
      have hne : ¬ MessageTypeWelcome = MessageTypeError := by decide
      simp [Client.performHandshake, Env.Decode, Env.Encode, hd, he, hopen, hw, hin, hdec, hk,
        hne, json.Marshal, NewMessage, MessageTypeReady]

theorem Client.handshake_replies_witness :
    (sampleJoiner "nova-42" (Conn.fresh [] false)).reliableOn 0 ∧
    (Client.performHandshake (sampleJoiner "nova-42" (Conn.fresh [] false))).1 = .pending :=
  ⟨⟨rfl, rfl, rfl, rfl⟩,
   ((Client.handshake_replies (sampleJoiner "nova-42" (Conn.fresh [] false)) 0
      ⟨rfl, rfl, rfl, rfl⟩).1 rfl rfl).1⟩

/-- C5, as the code has it: `Client.performHandshake` does not look at the
sessionId of the Welcome.  On a stream whose writes succeed it returns a nil
error for every first reply of kind Welcome, whatever sessionId the reply
carries, and leaves the joiner's own id as it was. -/
theorem Client.handshake_accepts_any_welcome (w : ClientWorld) (id : ConnId)
    (f : json.Frame) (rest : List json.Frame) (r : Message) (hrel : w.reliableOn id)
    (hin : (w.env.conns id).incoming = f :: rest) (hdec : json.Decode f = some r)
    (hk : r.Kind = MessageTypeWelcome) :
    (Client.performHandshake w).1 = .ret none ∧
    (Client.performHandshake w).2.cli.session.ID = w.cli.session.ID := by
  obtain ⟨cli, env⟩ := w
  obtain ⟨he, hd, hopen, hw⟩ := hrel
  simp only at he hd hopen hw hin
  have hne : ¬ MessageTypeWelcome = MessageTypeError := by decide
  simp [Client.performHandshake, Env.Decode, Env.Encode, hd, he, hopen, hw, hin, hdec, hk, hne]

theorem Client.handshake_accepts_any_welcome_witness :
    (sampleJoiner "nova-42" (Conn.fresh [json.Encode
        (NewHandshakeMessage int64.zero MessageTypeWelcome "nova-41")] false)).reliableOn 0 ∧
    (Client.performHandshake (sampleJoiner "nova-42" (Conn.fresh [json.Encode
        (NewHandshakeMessage int64.zero MessageTypeWelcome "nova-41")] false))).2.cli.session.ID
      = "nova-42" :=
  ⟨⟨rfl, rfl, rfl, rfl⟩,
   (Client.handshake_accepts_any_welcome
      (sampleJoiner "nova-42" (Conn.fresh [json.Encode
        (NewHandshakeMessage int64.zero MessageTypeWelcome "nova-41")] false))
      0 _ [] (NewHandshakeMessage int64.zero MessageTypeWelcome "nova-41")
      ⟨rfl, rfl, rfl, rfl⟩ rfl (json.Decode_Encode _) rfl).2⟩

/-- C5 fails as stated: a joiner whose id is `nova-42` that receives a Welcome
carrying `nova-41` completes its handshake with a nil error. -/
theorem Client.welcome_id_unchecked :
    json.Decode (json.Encode (NewHandshakeMessage int64.zero MessageTypeWelcome "nova-41")) =
      some (NewHandshakeMessage int64.zero MessageTypeWelcome "nova-41") ∧
    (NewHandshakeMessage int64.zero MessageTypeWelcome "nova-41").SessionID ≠
      (sampleJoiner "nova-42" (Conn.fresh [json.Encode
        (NewHandshakeMessage int64.zero MessageTypeWelcome "nova-41")] false)).cli.session.ID ∧
    (Client.performHandshake (sampleJoiner "nova-42" (Conn.fresh [json.Encode
        (NewHandshakeMessage int64.zero MessageTypeWelcome "nova-41")] false))).1 = .ret none := by
  decide

/-! ## The receive loop -/

/-- One turn of the listener's loop body on a stream whose writes succeed. -/
theorem server_body_spec (w : ServerWorld) (id : ConnId) (m : Message)
    (hrel : w.reliableOn id) :
    (Server.handleConnection.body w m).1 = !decide (m.Kind = MessageTypeLeave) ∧
    (Server.handleConnection.body w m).2.reliableOn id ∧
    (Server.handleConnection.body w m).2.srv.session.Messages =
      w.srv.session.Messages ++ [{ m with Timestamp := w.env.clock w.env.ticks }] ∧
    (Server.handleConnection.body w m).2.env.events =
      w.env.events ++ (if w.srv.onMessage then [Event.message m] else []) ∧
    ((Server.handleConnection.body w m).2.env.conns id).written =
      (w.env.conns id).written ++
        (if m.Kind = MessageTypePing then
          [NewMessage (w.env.clock (w.env.ticks + 1)) MessageTypePong ""] else []) ∧
    (Server.handleConnection.body w m).2.env.ticks =
      (if m.Kind = MessageTypePing then w.env.ticks + 2 else w.env.ticks + 1) ∧
    (Server.handleConnection.body w m).2.env.clock = w.env.clock ∧
    ((Server.handleConnection.body w m).2.env.conns id).incoming = (w.env.conns id).incoming ∧
    ((Server.handleConnection.body w m).2.env.conns id).peerClosed
      = (w.env.conns id).peerClosed ∧
    (Server.handleConnection.body w m).2.srv.onMessage = w.srv.onMessage := by
  obtain ⟨srv, env⟩ := w
  obtain ⟨he, hd, hopen, hw⟩ := hrel
  simp only at he hd hopen hw
  have hpl : ¬ MessageTypePing = MessageTypeLeave := by decide
  have hlp : ¬ MessageTypeLeave = MessageTypePing := by decide
  by_cases hp : m.Kind = MessageTypePing
  · by_cases hm : srv.onMessage <;>
      simp [Server.handleConnection.body, Server.SendMessage, ServerWorld.reliableOn,
        Session.AddMessage, Env.Encode, Env.emit, he, hd, hopen, hw, hp, hm, hpl]
  · by_cases hl : m.Kind = MessageTypeLeave <;> by_cases hm : srv.onMessage <;>
      simp [Server.handleConnection.body, ServerWorld.reliableOn, Session.AddMessage,
        Env.emit, he, hd, hopen, hw, hp, hl, hm, hlp]

/-- A turn of the listener's loop that decodes a frame runs the body on it. -/
theorem server_loop_step (fuel : Nat) (w : ServerWorld) (id : ConnId) (f : json.Frame)
    (rest : List json.Frame) (m : Message) (hd : w.srv.decoder = some id)
    (hopen : (w.env.conns id).closed = false) (hin : (w.env.conns id).incoming = f :: rest)
    (hdec : json.Decode f = some m) :
    Server.handleConnection.loop (fuel + 1) w =
      match Server.handleConnection.body
          { w with env := w.env.setConn id { w.env.conns id with incoming := rest } } m with
      | (true, w1) => Server.handleConnection.loop fuel w1
      | (false, w1) => (.ret (), w1) := by
  rw [Server.handleConnection.loop]
  simp only [Env.Decode, hd, hopen, hin, hdec]
  rfl

/-- What the listener's loop has done to the Session, to the callbacks and to
the stream when it stops, given fuel for all the frames there are to read. -/
theorem server_loop_spec : ∀ (fuel : Nat) (w : ServerWorld) (id : ConnId),
    w.reliableOn id → (w.env.conns id).incoming.length < fuel →
    (Server.handleConnection.loop fuel w).2.srv.session.Messages =
      w.srv.session.Messages
        ++ logged w.env.clock w.env.ticks (delivered (w.env.conns id).incoming) ∧
    (Server.handleConnection.loop fuel w).2.env.events =
      w.env.events ++ (if w.srv.onMessage then
        (delivered (w.env.conns id).incoming).map Event.message else []) ∧
    ((Server.handleConnection.loop fuel w).2.env.conns id).written =
      (w.env.conns id).written
        ++ pongs w.env.clock w.env.ticks (delivered (w.env.conns id).incoming)
  | 0, _, _, _, hlen => absurd hlen (Nat.not_lt_zero _)
  | fuel + 1, w, id, hrel, hlen => by
    obtain ⟨he, hd, hopen, hw⟩ := hrel
    rcases hin : (w.env.conns id).incoming with _ | ⟨f, rest⟩
    · by_cases hp : (w.env.conns id).peerClosed <;>
        simp [Server.handleConnection.loop, Env.Decode, delivered, logged, pongs, hd, hopen,
          hin, hp]
    · cases hdec : json.Decode f with
      | none =>
        simp [Server.handleConnection.loop, Env.Decode, delivered, logged, pongs, hd, hopen,
          hin, hdec]
      | some m =>
        have hrel1 : ServerWorld.reliableOn
            { w with env := w.env.setConn id { w.env.conns id with incoming := rest } } id := by
          simp [ServerWorld.reliableOn, he, hd, hopen, hw]
        obtain ⟨b1, b2, b3, b4, b5, b6, b7, b8, _, b10⟩ := server_body_spec _ id m hrel1
        rw [server_loop_step fuel w id f rest m hd hopen hin hdec]
        rcases hb : Server.handleConnection.body
            { w with env := w.env.setConn id { w.env.conns id with incoming := rest } } m
          with ⟨b, w1⟩
        rw [hb] at b1 b2 b3 b4 b5 b6 b7 b8 b10
        simp only [Env.setConn_conns_same, Env.setConn_clock, Env.setConn_ticks,
          Env.setConn_events] at b1 b2 b3 b4 b5 b6 b7 b8 b10
        have hlen1 : (w1.env.conns id).incoming.length < fuel := by
          rw [b8]; rw [hin] at hlen; simpa using hlen
        obtain ⟨i1, i2, i3⟩ := server_loop_spec fuel w1 id b2 hlen1
        by_cases hl : m.Kind = MessageTypeLeave
        · have hlp : ¬ MessageTypeLeave = MessageTypePing := by decide
          have hb1 : b = false := by simpa [hl] using b1
          subst hb1
          simp [delivered, logged, pongs, hdec, hl, hlp, b3, b4, b5]
        · have hpl : ¬ MessageTypePing = MessageTypeLeave := by decide
          have hb1 : b = true := by simpa [hl] using b1
          subst hb1
          by_cases hp : m.Kind = MessageTypePing <;> by_cases hm : w.srv.onMessage <;>
            simp [delivered, logged, pongs, hdec, hl, hp, hm, hpl, b3, b4, b5, b6, b7, b8, b10,
              i1, i2, i3]

/-- One turn of the joiner's loop body on a stream whose writes succeed. -/
theorem client_body_spec (w : ClientWorld) (id : ConnId) (m : Message)
    (hrel : w.reliableOn id) :
    (Client.handleConnection.body w m).1 = !decide (m.Kind = MessageTypeLeave) ∧
    (Client.handleConnection.body w m).2.reliableOn id ∧
    (Client.handleConnection.body w m).2.cli.session.Messages =
      w.cli.session.Messages ++ [{ m with Timestamp := w.env.clock w.env.ticks }] ∧
    (Client.handleConnection.body w m).2.env.events =
      w.env.events ++ (if w.cli.onMessage then [Event.message m] else []) ∧
    ((Client.handleConnection.body w m).2.env.conns id).written =
      (w.env.conns id).written ++
        (if m.Kind = MessageTypePing then
          [NewMessage (w.env.clock (w.env.ticks + 1)) MessageTypePong ""] else []) ∧
    (Client.handleConnection.body w m).2.env.ticks =
      (if m.Kind = MessageTypePing then w.env.ticks + 2 else w.env.ticks + 1) ∧
    (Client.handleConnection.body w m).2.env.clock = w.env.clock ∧
    ((Client.handleConnection.body w m).2.env.conns id).incoming = (w.env.conns id).incoming ∧
    ((Client.handleConnection.body w m).2.env.conns id).peerClosed
      = (w.env.conns id).peerClosed ∧
    (Client.handleConnection.body w m).2.cli.onMessage = w.cli.onMessage := by
  obtain ⟨cli, env⟩ := w
  obtain ⟨he, hd, hopen, hw⟩ := hrel
  simp only at he hd hopen hw
  have hpl : ¬ MessageTypePing = MessageTypeLeave := by decide
  have hlp : ¬ MessageTypeLeave = MessageTypePing := by decide
  by_cases hp : m.Kind = MessageTypePing
  · by_cases hm : cli.onMessage <;>
      simp [Client.handleConnection.body, Client.SendMessage, ClientWorld.reliableOn,
        Session.AddMessage, Env.Encode, Env.emit, he, hd, hopen, hw, hp, hm, hpl]
  · by_cases hl : m.Kind = MessageTypeLeave <;> by_cases hm : cli.onMessage <;>
      simp [Client.handleConnection.body, ClientWorld.reliableOn, Session.AddMessage,
        Env.emit, he, hd, hopen, hw, hp, hl, hm, hlp]

/-- A turn of the joiner's loop that decodes a frame runs the body on it. -/
theorem client_loop_step (fuel : Nat) (w : ClientWorld) (id : ConnId) (f : json.Frame)
    (rest : List json.Frame) (m : Message) (hd : w.cli.decoder = some id)
    (hopen : (w.env.conns id).closed = false) (hin : (w.env.conns id).incoming = f :: rest)
    (hdec : json.Decode f = some m) :
    Client.handleConnection.loop (fuel + 1) w =
      match Client.handleConnection.body
          { w with env := w.env.setConn id { w.env.conns id with incoming := rest } } m with
      | (true, w1) => Client.handleConnection.loop fuel w1
      | (false, w1) => (.ret (), w1) := by
  rw [Client.handleConnection.loop]
  simp only [Env.Decode, hd, hopen, hin, hdec]
  rfl

/-- What the joiner's loop has done to the Session, to the callbacks and to
the stream when it stops, given fuel for all the frames there are to read. -/
theorem client_loop_spec : ∀ (fuel : Nat) (w : ClientWorld) (id : ConnId),
    w.reliableOn id → (w.env.conns id).incoming.length < fuel →
    (Client.handleConnection.loop fuel w).2.cli.session.Messages =
      w.cli.session.Messages
        ++ logged w.env.clock w.env.ticks (delivered (w.env.conns id).incoming) ∧
    (Client.handleConnection.loop fuel w).2.env.events =
      w.env.events ++ (if w.cli.onMessage then
        (delivered (w.env.conns id).incoming).map Event.message else []) ∧
    ((Client.handleConnection.loop fuel w).2.env.conns id).written =
      (w.env.conns id).written
        ++ pongs w.env.clock w.env.ticks (delivered (w.env.conns id).incoming)
  | 0, _, _, _, hlen => absurd hlen (Nat.not_lt_zero _)
  | fuel + 1, w, id, hrel, hlen => by
    obtain ⟨he, hd, hopen, hw⟩ := hrel
    rcases hin : (w.env.conns id).incoming with _ | ⟨f, rest⟩
    · by_cases hp : (w.env.conns id).peerClosed <;>
        simp [Client.handleConnection.loop, Env.Decode, delivered, logged, pongs, hd, hopen,
          hin, hp]
    · cases hdec : json.Decode f with
      | none =>
        simp [Client.handleConnection.loop, Env.Decode, delivered, logged, pongs, hd, hopen,
          hin, hdec]
      | some m =>
        have hrel1 : ClientWorld.reliableOn
            { w with env := w.env.setConn id { w.env.conns id with incoming := rest } } id := by
          simp [ClientWorld.reliableOn, he, hd, hopen, hw]
        obtain ⟨b1, b2, b3, b4, b5, b6, b7, b8, _, b10⟩ := client_body_spec _ id m hrel1
        rw [client_loop_step fuel w id f rest m hd hopen hin hdec]
        rcases hb : Client.handleConnection.body
            { w with env := w.env.setConn id { w.env.conns id with incoming := rest } } m
          with ⟨b, w1⟩
        rw [hb] at b1 b2 b3 b4 b5 b6 b7 b8 b10
        simp only [Env.setConn_conns_same, Env.setConn_clock, Env.setConn_ticks,
          Env.setConn_events] at b1 b2 b3 b4 b5 b6 b7 b8 b10
        have hlen1 : (w1.env.conns id).incoming.length < fuel := by
          rw [b8]; rw [hin] at hlen; simpa using hlen
        obtain ⟨i1, i2, i3⟩ := client_loop_spec fuel w1 id b2 hlen1
        by_cases hl : m.Kind = MessageTypeLeave
        · have hlp : ¬ MessageTypeLeave = MessageTypePing := by decide
          have hb1 : b = false := by simpa [hl] using b1
          subst hb1
          simp [delivered, logged, pongs, hdec, hl, hlp, b3, b4, b5]
        · have hpl : ¬ MessageTypePing = MessageTypeLeave := by decide
          have hb1 : b = true := by simpa [hl] using b1
          subst hb1
          by_cases hp : m.Kind = MessageTypePing <;> by_cases hm : w.cli.onMessage <;>
            simp [delivered, logged, pongs, hdec, hl, hp, hm, hpl, b3, b4, b5, b6, b7, b8, b10,
              i1, i2, i3]


/-! ### What `delivered`, `logged` and `pongs` are -/

/-- The delivered frames are an initial part of the decoded stream, a Leave can
only be the last of them, and they stop only at the end of the frames, after a
Leave, or before a frame that does not decode. -/
theorem delivered_char (fs : List json.Frame) :
    ∃ tail, fs.map json.Decode = (delivered fs).map some ++ tail ∧
      (∀ m ∈ (delivered fs).dropLast, m.Kind ≠ MessageTypeLeave) ∧
      (tail = [] ∨ (∃ l, (delivered fs).getLast? = some l ∧ l.Kind = MessageTypeLeave) ∨
        tail.head? = some none) := by
  induction fs with
  | nil => exact ⟨[], by simp [delivered]⟩
  | cons f fs ih =>
    obtain ⟨tail, h1, h2, h3⟩ := ih
    cases hdec : json.Decode f with
    | none => exact ⟨none :: fs.map json.Decode, by simp [delivered, hdec]⟩
    | some m =>
      by_cases hl : m.Kind = MessageTypeLeave
      · exact ⟨fs.map json.Decode, by simp [delivered, hdec, hl]⟩
      · refine ⟨tail, by simp [delivered, hdec, hl, h1], ?_, ?_⟩
        · intro x hx
          simp only [delivered, hdec, hl, if_false] at hx
          cases hd : delivered fs with
          | nil => simp [hd] at hx
          | cons d ds =>
            rw [hd, List.dropLast_cons₂] at hx
            rcases List.mem_cons.mp hx with rfl | hx
            · exact hl
            · exact h2 x (by rw [hd]; exact hx)
        · rcases h3 with h | ⟨l, h, hk⟩ | h
          · exact Or.inl h
          · refine Or.inr (Or.inl ⟨l, ?_, hk⟩)
            simp only [delivered, hdec, hl, if_false]
            cases hd : delivered fs with
            | nil => simp [hd] at h
            | cons d ds => rw [hd] at h; simpa using h
          · exact Or.inr (Or.inr h)

/-- The logged copies differ from the delivered frames in the timestamp only. -/
theorem logged_fields (clock : Nat → int64) : ∀ (ms : List Message) (t : Nat),
    (logged clock t ms).map (fun m => (m.Kind, m.Content, m.SessionID)) =
      ms.map (fun m => (m.Kind, m.Content, m.SessionID))
  | [], _ => rfl
  | m :: ms, t => by
    simp [logged, logged_fields clock ms]

theorem pongs_length (clock : Nat → int64) : ∀ (ms : List Message) (t : Nat),
    (pongs clock t ms).length = ms.countP (fun m => m.Kind = MessageTypePing)
  | [], _ => rfl
  | m :: ms, t => by
    by_cases hp : m.Kind = MessageTypePing <;>
      simp [pongs, hp, pongs_length clock ms, List.countP_cons]

theorem pongs_mem (clock : Nat → int64) : ∀ (ms : List Message) (t : Nat),
    ∀ p ∈ pongs clock t ms,
      p.Kind = MessageTypePong ∧ p.Content = "" ∧ p.SessionID = ""
  | [], _ => by simp [pongs]
  | m :: ms, t => by
    intro p hp
    by_cases hk : m.Kind = MessageTypePing
    · simp only [pongs, hk, if_true, List.mem_cons] at hp
      rcases hp with rfl | hp
      · exact ⟨rfl, rfl, rfl⟩
      · exact pongs_mem clock ms _ p hp
    · simp only [pongs, hk, if_false] at hp
      exact pongs_mem clock ms _ p hp

/-- C6. Steady-state receive loop, of the listener (the loop of
`Server.handleConnection`, with the fuel it is run with) and of the joiner (the
loop of `Client.handleConnection`), on a stream whose writes succeed and with
`onMessage` set: for every sequence of readable frames, the Session gains, in
stream order, one copy of each delivered frame (same kind, content and
sessionId; the timestamp is the local one that `AddMessage` gives), `onMessage`
is called with exactly the delivered frames in that order, and what is written
is one Pong with no content for each Ping among them and nothing else.  The
delivered frames are the decoded frames up to and including the first Leave,
or all those before the first frame that does not decode or the end of the
frames: an initial part of the decoded stream that holds no Leave except as
its last frame and that stops only at the end, after a Leave, or before a
frame that does not decode. -/
theorem receive_loop_delivers (sw : ServerWorld) (cw : ClientWorld) (sid cid : ConnId)
    (hs : sw.reliableOn sid) (hc : cw.reliableOn cid)
    (hsm : sw.srv.onMessage = true) (hcm : cw.cli.onMessage = true) :
    (∃ log out,
      (Server.handleConnection.loop (sw.env.turns sw.srv.decoder) sw).2.srv.session.Messages =
        sw.srv.session.Messages ++ log ∧
      log.map (fun m => (m.Kind, m.Content, m.SessionID)) =
        (delivered (sw.env.conns sid).incoming).map (fun m => (m.Kind, m.Content, m.SessionID)) ∧
      (Server.handleConnection.loop (sw.env.turns sw.srv.decoder) sw).2.env.events =
        sw.env.events ++ (delivered (sw.env.conns sid).incoming).map Event.message ∧
      ((Server.handleConnection.loop (sw.env.turns sw.srv.decoder) sw).2.env.conns sid).written =
        (sw.env.conns sid).written ++ out ∧
      out.length =
        (delivered (sw.env.conns sid).incoming).countP (fun m => m.Kind = MessageTypePing) ∧
      ∀ p ∈ out, p.Kind = MessageTypePong ∧ p.Content = "" ∧ p.SessionID = "") ∧
    (∃ log out,
      (Client.handleConnection.loop (cw.env.turns cw.cli.decoder) cw).2.cli.session.Messages =
        cw.cli.session.Messages ++ log ∧
      log.map (fun m => (m.Kind, m.Content, m.SessionID)) =
        (delivered (cw.env.conns cid).incoming).map (fun m => (m.Kind, m.Content, m.SessionID)) ∧
      (Client.handleConnection.loop (cw.env.turns cw.cli.decoder) cw).2.env.events =
        cw.env.events ++ (delivered (cw.env.conns cid).incoming).map Event.message ∧
      ((Client.handleConnection.loop (cw.env.turns cw.cli.decoder) cw).2.env.conns cid).written =
        (cw.env.conns cid).written ++ out ∧
      out.length =
        (delivered (cw.env.conns cid).incoming).countP (fun m => m.Kind = MessageTypePing) ∧
      ∀ p ∈ out, p.Kind = MessageTypePong ∧ p.Content = "" ∧ p.SessionID = "") ∧
    (∀ fs : List json.Frame, ∃ tail,
      fs.map json.Decode = (delivered fs).map some ++ tail ∧
      (∀ m ∈ (delivered fs).dropLast, m.Kind ≠ MessageTypeLeave) ∧
      (tail = [] ∨ (∃ l, (delivered fs).getLast? = some l ∧ l.Kind = MessageTypeLeave) ∨
        tail.head? = some none)) := by
  refine ⟨?_, ?_, delivered_char⟩
  · obtain ⟨h1, h2, h3⟩ := server_loop_spec (sw.env.turns sw.srv.decoder) sw sid hs
      (by rw [hs.2.1]; exact Nat.lt_succ_self _)
    rw [hsm] at h2
    exact ⟨_, _, h1, logged_fields _ _ _, h2, h3, pongs_length _ _ _, pongs_mem _ _ _⟩
  · obtain ⟨h1, h2, h3⟩ := client_loop_spec (cw.env.turns cw.cli.decoder) cw cid hc
      (by rw [hc.2.1]; exact Nat.lt_succ_self _)
    rw [hcm] at h2
    exact ⟨_, _, h1, logged_fields _ _ _, h2, h3, pongs_length _ _ _, pongs_mem _ _ _⟩

theorem receive_loop_delivers_witness :
    (sampleListener "nova-42" (Conn.fresh sampleFrames false)).reliableOn 0 ∧
    (sampleJoiner "nova-42" (Conn.fresh sampleFrames false)).reliableOn 0 ∧
    (Server.handleConnection.loop 5
        (sampleListener "nova-42" (Conn.fresh sampleFrames false))).2.env.events =
      [Event.message (NewMessage int64.zero MessageTypePing ""),
       Event.message (NewMessage int64.zero MessageTypeText "hi"),
       Event.message (NewMessage int64.zero MessageTypeLeave "bye")] := by
  obtain ⟨⟨_, _, _, _, h, _⟩, _⟩ :=
    receive_loop_delivers (sampleListener "nova-42" (Conn.fresh sampleFrames false))
      (sampleJoiner "nova-42" (Conn.fresh sampleFrames false)) 0 0
      ⟨rfl, rfl, rfl, rfl⟩ ⟨rfl, rfl, rfl, rfl⟩ rfl rfl
  exact ⟨⟨rfl, rfl, rfl, rfl⟩, ⟨rfl, rfl, rfl, rfl⟩, h.trans (by decide)⟩

/-! ## The Session log -/

/-- C7, as the code has it: the Session log of an endpoint holds the frames its
receive loop has taken in, in the order taken in, and nothing it has sent.
`SendMessage` leaves the Session as it is, on either endpoint; on a stream
whose writes succeed the loop appends exactly the logged copies of the
delivered frames; so a listener that reads a Ping logs the Ping and writes a
Pong that it does not log, and a joiner that reads the Pong logs the Pong. -/
theorem session_log_holds_received (sw : ServerWorld) (cw : ClientWorld) (sid cid : ConnId)
    (ping pong : Message) (hs : sw.reliableOn sid) (hc : cw.reliableOn cid)
    (hping : ping.Kind = MessageTypePing) (hpong : pong.Kind = MessageTypePong)
    (hsin : (sw.env.conns sid).incoming = [json.Encode ping])
    (hcin : (cw.env.conns cid).incoming = [json.Encode pong]) :
    (∀ (w : ServerWorld) (m : Message), (Server.SendMessage w m).2.srv = w.srv) ∧
    (∀ (w : ClientWorld) (m : Message), (Client.SendMessage w m).2.cli = w.cli) ∧
    (∀ (w : ServerWorld) (id : ConnId), w.reliableOn id →
      (Server.handleConnection.loop (w.env.turns w.srv.decoder) w).2.srv.session.Messages =
        w.srv.session.Messages
          ++ logged w.env.clock w.env.ticks (delivered (w.env.conns id).incoming)) ∧
    (∀ (w : ClientWorld) (id : ConnId), w.reliableOn id →
      (Client.handleConnection.loop (w.env.turns w.cli.decoder) w).2.cli.session.Messages =
        w.cli.session.Messages
          ++ logged w.env.clock w.env.ticks (delivered (w.env.conns id).incoming)) ∧
    (Server.handleConnection.loop (sw.env.turns sw.srv.decoder) sw).2.srv.session.Messages =
      sw.srv.session.Messages ++ [{ ping with Timestamp := sw.env.clock sw.env.ticks }] ∧
    ((Server.handleConnection.loop (sw.env.turns sw.srv.decoder) sw).2.env.conns sid).written =
      (sw.env.conns sid).written
        ++ [NewMessage (sw.env.clock (sw.env.ticks + 1)) MessageTypePong ""] ∧
    (Client.handleConnection.loop (cw.env.turns cw.cli.decoder) cw).2.cli.session.Messages =
      cw.cli.session.Messages ++ [{ pong with Timestamp := cw.env.clock cw.env.ticks }] := by
  have hfs : ∀ (w : ServerWorld) (id : ConnId), w.reliableOn id →
      (w.env.conns id).incoming.length < w.env.turns w.srv.decoder := by
    intro w id h; rw [h.2.1]; exact Nat.lt_succ_self _
  have hfc : ∀ (w : ClientWorld) (id : ConnId), w.reliableOn id →
      (w.env.conns id).incoming.length < w.env.turns w.cli.decoder := by
    intro w id h; rw [h.2.1]; exact Nat.lt_succ_self _
  have hpl : ¬ MessageTypePing = MessageTypeLeave := by decide
  have hol : ¬ MessageTypePong = MessageTypeLeave := by decide
  have hop : ¬ MessageTypePong = MessageTypePing := by decide
  refine ⟨?_, ?_, ?_, ?_, ?_, ?_, ?_⟩
  · intro w m
    unfold Server.SendMessage
    cases w.srv.encoder with
    | none => rfl
    | some id => dsimp only; split <;> rfl
  · intro w m
    unfold Client.SendMessage
    cases w.cli.encoder with
    | none => rfl
    | some id => dsimp only; split <;> rfl
  · intro w id h
    exact (server_loop_spec _ w id h (hfs w id h)).1
  · intro w id h
    exact (client_loop_spec _ w id h (hfc w id h)).1
  · rw [(server_loop_spec _ sw sid hs (hfs sw sid hs)).1, hsin]
    simp [delivered, logged, json.Decode_Encode, hping, hpl]
  · rw [(server_loop_spec _ sw sid hs (hfs sw sid hs)).2.2, hsin]
    simp [delivered, pongs, json.Decode_Encode, hping, hpl]
  · rw [(client_loop_spec _ cw cid hc (hfc cw cid hc)).1, hcin]
    simp [delivered, logged, json.Decode_Encode, hpong, hol, hop]

theorem session_log_holds_received_witness :
    (sampleListener "nova-42" (Conn.fresh
        [json.Encode (NewMessage int64.zero MessageTypePing "")] false)).reliableOn 0 ∧
    (sampleJoiner "nova-42" (Conn.fresh
        [json.Encode (NewMessage int64.zero MessageTypePong "")] false)).reliableOn 0 ∧
    (Server.handleConnection.loop 2 (sampleListener "nova-42" (Conn.fresh
        [json.Encode (NewMessage int64.zero MessageTypePing "")] false))).2.srv.session.Messages
      = [NewMessage int64.zero MessageTypePing ""] := by
  obtain ⟨_, _, _, _, h, _, _⟩ :=
    session_log_holds_received
      (sampleListener "nova-42" (Conn.fresh
        [json.Encode (NewMessage int64.zero MessageTypePing "")] false))
      (sampleJoiner "nova-42" (Conn.fresh
        [json.Encode (NewMessage int64.zero MessageTypePong "")] false))
      0 0 (NewMessage int64.zero MessageTypePing "") (NewMessage int64.zero MessageTypePong "")
      ⟨rfl, rfl, rfl, rfl⟩ ⟨rfl, rfl, rfl, rfl⟩ rfl rfl rfl rfl
  exact ⟨⟨rfl, rfl, rfl, rfl⟩, ⟨rfl, rfl, rfl, rfl⟩, h⟩

/-- C7 fails as stated: a listener with a stream attached sends a Text with
`SendMessage`, the write succeeds, and the Session log stays empty; and a
listener that reads a Ping writes a Pong while its log holds the Ping only. -/
theorem sent_message_not_logged :
    (Server.SendMessage (sampleListener "nova-42" (Conn.fresh [] false))
        (NewMessage int64.zero MessageTypeText "hi")).1 = none ∧
    ((Server.SendMessage (sampleListener "nova-42" (Conn.fresh [] false))
        (NewMessage int64.zero MessageTypeText "hi")).2.env.conns 0).written =
      [NewMessage int64.zero MessageTypeText "hi"] ∧
    (Server.SendMessage (sampleListener "nova-42" (Conn.fresh [] false))
        (NewMessage int64.zero MessageTypeText "hi")).2.srv.session.Messages = [] ∧
    ((Server.handleConnection.loop 2 (sampleListener "nova-42" (Conn.fresh
        [json.Encode (NewMessage int64.zero MessageTypePing "")] false))).2.env.conns 0).written
      = [NewMessage int64.zero MessageTypePong ""] ∧
    (Server.handleConnection.loop 2 (sampleListener "nova-42" (Conn.fresh
        [json.Encode (NewMessage int64.zero MessageTypePing "")] false))).2.srv.session.Messages
      = [NewMessage int64.zero MessageTypePing ""] := by
  decide

/-! ## Frames -/

/-- C9, as the code has it: decoding does not check the kind.  Every frame
that `Encode` makes decodes, whatever string its kind is, and an object with
no `type` member decodes to a message of empty kind; a frame that is not a
JSON object (or `null`) does not decode, and an object fails to decode exactly
when one of its members is mistyped for the field it names.  In the loop of either endpoint, on a
stream whose writes succeed, a frame that does not decode ends the loop with
nothing appended to the Session and no callback invoked, whereas a frame that
decodes to a kind outside the eight is appended to the Session and passed to
`onMessage`, nothing is written, and the loop goes on with the next frame. -/
theorem decode_accepts_every_kind (sw : ServerWorld) (cw : ClientWorld) (sid cid : ConnId)
    (fuel : Nat) (hs : sw.reliableOn sid) (hc : cw.reliableOn cid) :
    (∀ m : Message, json.Decode (json.Encode m) = some m) ∧
    json.Decode (json.Frame.object []) = some json.zeroMessage ∧
    json.Decode json.Frame.nonObject = none ∧ json.Decode json.Frame.malformed = none ∧
    (∀ members : List (String × json.Value), json.Decode (json.Frame.object members) = none ↔
      ∃ kv ∈ members, json.mistyped kv.1 kv.2 = true) ∧
    (∀ f rest, (sw.env.conns sid).incoming = f :: rest → json.Decode f = none →
      (Server.handleConnection.loop (fuel + 1) sw).1 = .ret () ∧
      (Server.handleConnection.loop (fuel + 1) sw).2.srv = sw.srv ∧
      (Server.handleConnection.loop (fuel + 1) sw).2.env.events = sw.env.events) ∧
    (∀ f rest, (cw.env.conns cid).incoming = f :: rest → json.Decode f = none →
      (Client.handleConnection.loop (fuel + 1) cw).1 = .ret () ∧
      (Client.handleConnection.loop (fuel + 1) cw).2.cli = cw.cli ∧
      (Client.handleConnection.loop (fuel + 1) cw).2.env.events = cw.env.events) ∧
    (∀ f rest m, (sw.env.conns sid).incoming = f :: rest → json.Decode f = some m →
      m.Kind ∉ knownKinds →
      ∃ w1, Server.handleConnection.loop (fuel + 1) sw = Server.handleConnection.loop fuel w1 ∧
        w1.srv.session.Messages =
          sw.srv.session.Messages ++ [{ m with Timestamp := sw.env.clock sw.env.ticks }] ∧
        w1.env.events = sw.env.events ++ (if sw.srv.onMessage then [Event.message m] else []) ∧
        (w1.env.conns sid).written = (sw.env.conns sid).written ∧
        (w1.env.conns sid).incoming = rest) ∧
    (∀ f rest m, (cw.env.conns cid).incoming = f :: rest → json.Decode f = some m →
      m.Kind ∉ knownKinds →
      ∃ w1, Client.handleConnection.loop (fuel + 1) cw = Client.handleConnection.loop fuel w1 ∧
        w1.cli.session.Messages =
          cw.cli.session.Messages ++ [{ m with Timestamp := cw.env.clock cw.env.ticks }] ∧
        w1.env.events = cw.env.events ++ (if cw.cli.onMessage then [Event.message m] else []) ∧
        (w1.env.conns cid).written = (cw.env.conns cid).written ∧
        (w1.env.conns cid).incoming = rest) := by
  refine ⟨json.Decode_Encode, rfl, rfl, rfl, json.Decode_object_eq_none, ?_, ?_, ?_, ?_⟩
  · intro f rest hin hdec
    simp [Server.handleConnection.loop, Env.Decode, hs.2.1, hs.2.2.1, hin, hdec]
  · intro f rest hin hdec
    simp [Client.handleConnection.loop, Env.Decode, hc.2.1, hc.2.2.1, hin, hdec]
  · intro f rest m hin hdec hk
    have hl : m.Kind ≠ MessageTypeLeave := fun h => hk (by rw [h]; decide)
    have hp : m.Kind ≠ MessageTypePing := fun h => hk (by rw [h]; decide)
    have hrel1 : ServerWorld.reliableOn
        { sw with env := sw.env.setConn sid { sw.env.conns sid with incoming := rest } } sid := by
      simp [ServerWorld.reliableOn, hs.1, hs.2.1, hs.2.2.1, hs.2.2.2]
    obtain ⟨b1, _, b3, b4, b5, _, _, b8, _, _⟩ := server_body_spec _ sid m hrel1
    rw [server_loop_step fuel sw sid f rest m hs.2.1 hs.2.2.1 hin hdec]
    rcases hb : Server.handleConnection.body
        { sw with env := sw.env.setConn sid { sw.env.conns sid with incoming := rest } } m
      with ⟨b, w1⟩
    rw [hb] at b1 b3 b4 b5 b8
    have hb1 : b = true := by simpa [hl] using b1
    subst hb1
    refine ⟨w1, rfl, b3, b4, ?_, ?_⟩
    · simpa [hp] using b5
    · simpa using b8
  · intro f rest m hin hdec hk
    have hl : m.Kind ≠ MessageTypeLeave := fun h => hk (by rw [h]; decide)
    have hp : m.Kind ≠ MessageTypePing := fun h => hk (by rw [h]; decide)
    have hrel1 : ClientWorld.reliableOn
        { cw with env := cw.env.setConn cid { cw.env.conns cid with incoming := rest } } cid := by
      simp [ClientWorld.reliableOn, hc.1, hc.2.1, hc.2.2.1, hc.2.2.2]
    obtain ⟨b1, _, b3, b4, b5, _, _, b8, _, _⟩ := client_body_spec _ cid m hrel1
    rw [client_loop_step fuel cw cid f rest m hc.2.1 hc.2.2.1 hin hdec]
    rcases hb : Client.handleConnection.body
        { cw with env := cw.env.setConn cid { cw.env.conns cid with incoming := rest } } m
      with ⟨b, w1⟩
    rw [hb] at b1 b3 b4 b5 b8
    have hb1 : b = true := by simpa [hl] using b1
    subst hb1
    refine ⟨w1, rfl, b3, b4, ?_, ?_⟩
    · simpa [hp] using b5
    · simpa using b8

theorem decode_accepts_every_kind_witness :
    (sampleListener "nova-42" (Conn.fresh
        [json.Frame.object [("type", json.Value.str "bogus")]] false)).reliableOn 0 ∧
    (sampleJoiner "nova-42" (Conn.fresh
        [json.Frame.object [("type", json.Value.str "bogus")]] false)).reliableOn 0 ∧
    json.Decode (json.Encode (NewMessage int64.zero "bogus" "")) =
      some (NewMessage int64.zero "bogus" "") :=
  ⟨⟨rfl, rfl, rfl, rfl⟩, ⟨rfl, rfl, rfl, rfl⟩,
   (decode_accepts_every_kind
      (sampleListener "nova-42" (Conn.fresh
        [json.Frame.object [("type", json.Value.str "bogus")]] false))
      (sampleJoiner "nova-42" (Conn.fresh
        [json.Frame.object [("type", json.Value.str "bogus")]] false))
      0 0 1 ⟨rfl, rfl, rfl, rfl⟩ ⟨rfl, rfl, rfl, rfl⟩).1 _⟩

/-- C9 fails as stated: a frame whose kind is `bogus`, and a frame with no kind
at all, decode without error; in the listener's loop the `bogus` frame is
appended to the Session and passed to `onMessage`, and the loop is still
running after it, blocked in the next read. -/
theorem unknown_kind_is_decoded :
    "bogus" ∉ knownKinds ∧
    json.Decode (json.Frame.object [("type", json.Value.str "bogus")]) =
      some { json.zeroMessage with Kind := "bogus" } ∧
    "" ∉ knownKinds ∧
    json.Decode (json.Frame.object [("content", json.Value.str "hi")]) =
      some { json.zeroMessage with Content := "hi" } ∧
    (Server.handleConnection.loop 2 (sampleListener "nova-42" (Conn.fresh
        [json.Frame.object [("type", json.Value.str "bogus")]] false))).1 = .pending ∧
    (Server.handleConnection.loop 2 (sampleListener "nova-42" (Conn.fresh
        [json.Frame.object [("type", json.Value.str "bogus")]] false))).2.srv.session.Messages
      = [{ json.zeroMessage with Kind := "bogus" }] ∧
    (Server.handleConnection.loop 2 (sampleListener "nova-42" (Conn.fresh
        [json.Frame.object [("type", json.Value.str "bogus")]] false))).2.env.events
      = [Event.message { json.zeroMessage with Kind := "bogus" }] := by
  decide

/-! ## The accept loop -/

/-- C10. Single-peer exclusivity: when a stream is attached to the listener
(`conn` is not nil, whatever the Session state), the turn of the accept loop
that gets a further stream closes that stream, does not start
`handleConnection`, writes nothing on it, and leaves the listener (its `conn`,
encoder, decoder and Session), every other stream (the attached one among
them), the clock and the callbacks as they were. -/
theorem Server.accept_rejects_second (w : ServerWorld) (cur next : ConnId)
    (hconn : w.srv.conn = some cur) (hne : next ≠ cur) :
    (Server.acceptConnections w (some next)).1 = false ∧
    ((Server.acceptConnections w (some next)).2.env.conns next).closed = true ∧
    ((Server.acceptConnections w (some next)).2.env.conns next).written =
      (w.env.conns next).written ∧
    (Server.acceptConnections w (some next)).2.srv = w.srv ∧
    (Server.acceptConnections w (some next)).2.env.conns cur = w.env.conns cur ∧
    (∀ id, id ≠ next →
      (Server.acceptConnections w (some next)).2.env.conns id = w.env.conns id) ∧
    (Server.acceptConnections w (some next)).2.env.events = w.env.events ∧
    (Server.acceptConnections w (some next)).2.env.ticks = w.env.ticks := by
  have hcur : cur ≠ next := fun h => hne h.symm
  refine ⟨?_, ?_, ?_, ?_, ?_, ?_, ?_, ?_⟩ <;>
    simp [Server.acceptConnections, Env.Close, Env.setConn, Conn.Close, hconn, hcur]
  intro id hid
  simp [Function.update, hid]

theorem Server.accept_rejects_second_witness :
    (sampleListener "nova-42" (Conn.fresh sampleFrames false)).srv.conn = some 0 ∧
    (1 : ConnId) ≠ 0 ∧
    (Server.acceptConnections (sampleListener "nova-42" (Conn.fresh sampleFrames false))
      (some 1)).1 = false :=
  ⟨rfl, by decide,
   (Server.accept_rejects_second (sampleListener "nova-42" (Conn.fresh sampleFrames false))
      0 1 rfl (by decide)).1⟩

/-! ## The two handshakes composed -/

/-- The first step of the exchange when the ids agree: the listener has
answered the Hello with its Welcome and waits for the Ready. -/
theorem step_first_eq (J : ClientWorld) (L : ServerWorld) (jid : String)
    (hL : L.srv.conn = none) (hid : jid = L.srv.session.ID) :
    ((Link.step J jid L [] false).listener.2.env.conns 0).written =
      [NewHandshakeMessage (L.env.clock L.env.ticks) MessageTypeWelcome L.srv.session.ID] ∧
    ((Link.step J jid L [] false).listener.2.env.conns 0).closed = false := by
  subst hid
  simp [Link.step, join, listen, Client.ConnectLocal, Client.performHandshake,
    Server.acceptConnections, Server.handleConnection, Server.performHandshake,
    Env.Decode, Env.Encode, Conn.fresh, Conn.wire, json.Decode_Encode, hL,
    NewHandshakeMessage]

/-- The first step of the exchange when the ids differ: the listener has
answered the Hello with an Error and closed the stream. -/
theorem step_first_ne (J : ClientWorld) (L : ServerWorld) (jid : String)
    (hL : L.srv.conn = none) (hid : jid ≠ L.srv.session.ID) :
    ((Link.step J jid L [] false).listener.2.env.conns 0).written =
      [NewMessage (L.env.clock L.env.ticks) MessageTypeError "Session ID mismatch"] ∧
    ((Link.step J jid L [] false).listener.2.env.conns 0).closed = true := by
  by_cases hdis : L.srv.onDisconnect <;>
    simp [Link.step, join, listen, Client.ConnectLocal, Client.performHandshake,
      Server.acceptConnections, Server.handleConnection, Server.handleConnection.deferred,
      Server.performHandshake, Server.sendError, Env.Decode, Env.Encode, Env.Close, Env.emit,
      Conn.Close, Conn.fresh, Conn.wire, json.Decode_Encode, hL, hid, hdis,
      NewHandshakeMessage, NewMessage]

/-- A later step of the exchange when the ids agree, the listener having
written its Welcome. -/
theorem step_next_eq (J : ClientWorld) (L : ServerWorld) (jid : String)
    (hL : L.srv.conn = none) (hLc : L.srv.onConnect = true) (hJc : J.cli.onConnect = true)
    (hid : jid = L.srv.session.ID) :
    (Link.step J jid L
      [NewHandshakeMessage (L.env.clock L.env.ticks) MessageTypeWelcome L.srv.session.ID]
      false).joiner.1 = .ret none ∧
    (Link.step J jid L
      [NewHandshakeMessage (L.env.clock L.env.ticks) MessageTypeWelcome L.srv.session.ID]
      false).joiner.2.cli.session.State = .StateActive ∧
    (Link.step J jid L
      [NewHandshakeMessage (L.env.clock L.env.ticks) MessageTypeWelcome L.srv.session.ID]
      false).joiner.2.env.events = J.env.events ++ [Event.connect] ∧
    ((Link.step J jid L
      [NewHandshakeMessage (L.env.clock L.env.ticks) MessageTypeWelcome L.srv.session.ID]
      false).joiner.2.env.conns 0).written =
        [NewHandshakeMessage (J.env.clock J.env.ticks) MessageTypeHello jid,
         NewMessage (J.env.clock (J.env.ticks + 1)) MessageTypeReady ""] ∧
    (Link.step J jid L
      [NewHandshakeMessage (L.env.clock L.env.ticks) MessageTypeWelcome L.srv.session.ID]
      false).listener.1 = .pending ∧
    (Link.step J jid L
      [NewHandshakeMessage (L.env.clock L.env.ticks) MessageTypeWelcome L.srv.session.ID]
      false).listener.2.srv.session.State = .StateActive ∧
    (Link.step J jid L
      [NewHandshakeMessage (L.env.clock L.env.ticks) MessageTypeWelcome L.srv.session.ID]
      false).listener.2.env.events = L.env.events ++ [Event.connect] ∧
    ((Link.step J jid L
      [NewHandshakeMessage (L.env.clock L.env.ticks) MessageTypeWelcome L.srv.session.ID]
      false).listener.2.env.conns 0).written =
        [NewHandshakeMessage (L.env.clock L.env.ticks) MessageTypeWelcome L.srv.session.ID] ∧
    ((Link.step J jid L
      [NewHandshakeMessage (L.env.clock L.env.ticks) MessageTypeWelcome L.srv.session.ID]
      false).listener.2.env.conns 0).closed = false := by
  subst hid
  simp [Link.step, join, listen, Client.ConnectLocal, Client.performHandshake,
    Server.acceptConnections, Server.handleConnection, Server.handleConnection.loop,
    Server.performHandshake, Env.Decode, Env.Encode, Env.emit, Env.turns, Conn.fresh,
    Conn.wire, Session.SetState, json.Decode_Encode, hL, hLc, hJc, NewHandshakeMessage,
    NewMessage, MessageTypeWelcome, MessageTypeError, MessageTypeHello, MessageTypeReady]

/-- A later step of the exchange when the ids differ, the listener having
written its Error and closed the stream. -/
theorem step_next_ne (J : ClientWorld) (L : ServerWorld) (jid : String)
    (hL : L.srv.conn = none) (hid : jid ≠ L.srv.session.ID) :
    (Link.step J jid L
      [NewMessage (L.env.clock L.env.ticks) MessageTypeError "Session ID mismatch"]
      true).joiner.1 = .ret (some (.text "server error: Session ID mismatch")) ∧
    (Link.step J jid L
      [NewMessage (L.env.clock L.env.ticks) MessageTypeError "Session ID mismatch"]
      true).joiner.2.cli.session.State = J.cli.session.State ∧
    (Link.step J jid L
      [NewMessage (L.env.clock L.env.ticks) MessageTypeError "Session ID mismatch"]
      true).joiner.2.env.events = J.env.events ∧
    (Link.step J jid L
      [NewMessage (L.env.clock L.env.ticks) MessageTypeError "Session ID mismatch"]
      true).listener.1 = .ret () ∧
    (Link.step J jid L
      [NewMessage (L.env.clock L.env.ticks) MessageTypeError "Session ID mismatch"]
      true).listener.2.srv.session = L.srv.session ∧
    (Link.step J jid L
      [NewMessage (L.env.clock L.env.ticks) MessageTypeError "Session ID mismatch"]
      true).listener.2.env.events =
        L.env.events ++ (if L.srv.onDisconnect then [Event.disconnect] else []) ∧
    ((Link.step J jid L
      [NewMessage (L.env.clock L.env.ticks) MessageTypeError "Session ID mismatch"]
      true).listener.2.env.conns 0).written =
        [NewMessage (L.env.clock L.env.ticks) MessageTypeError "Session ID mismatch"] ∧
    ((Link.step J jid L
      [NewMessage (L.env.clock L.env.ticks) MessageTypeError "Session ID mismatch"]
      true).listener.2.env.conns 0).closed = true := by
  by_cases hdis : L.srv.onDisconnect <;>
    simp [Link.step, join, listen, Client.ConnectLocal, Client.performHandshake,
      Server.acceptConnections, Server.handleConnection, Server.handleConnection.deferred,
      Server.performHandshake, Server.sendError, Env.Decode, Env.Encode, Env.Close, Env.emit,
      Conn.Close, Conn.fresh, Conn.wire, json.Decode_Encode, hL, hid, hdis,
      NewHandshakeMessage, NewMessage, MessageTypeWelcome, MessageTypeError, MessageTypeHello]

/-- What the listener has written, and whether it has closed the stream, is
the same after every step of the exchange when the ids agree. -/
theorem exchange_view_eq (J : ClientWorld) (L : ServerWorld) (jid : String)
    (hL : L.srv.conn = none) (hLc : L.srv.onConnect = true) (hJc : J.cli.onConnect = true)
    (hid : jid = L.srv.session.ID) : ∀ n : Nat,
    ((exchange J jid L n).listener.2.env.conns 0).written =
      [NewHandshakeMessage (L.env.clock L.env.ticks) MessageTypeWelcome L.srv.session.ID] ∧
    ((exchange J jid L n).listener.2.env.conns 0).closed = false
  | 0 => step_first_eq J L jid hL hid
  | n + 1 => by
    obtain ⟨h1, h2⟩ := exchange_view_eq J L jid hL hLc hJc hid n
    rw [exchange, h1, h2]
    obtain ⟨_, _, _, _, _, _, _, h8, h9⟩ := step_next_eq J L jid hL hLc hJc hid
    exact ⟨h8, h9⟩

/-- What the listener has written, and whether it has closed the stream, is
the same after every step of the exchange when the ids differ. -/
theorem exchange_view_ne (J : ClientWorld) (L : ServerWorld) (jid : String)
    (hL : L.srv.conn = none) (hid : jid ≠ L.srv.session.ID) : ∀ n : Nat,
    ((exchange J jid L n).listener.2.env.conns 0).written =
      [NewMessage (L.env.clock L.env.ticks) MessageTypeError "Session ID mismatch"] ∧
    ((exchange J jid L n).listener.2.env.conns 0).closed = true
  | 0 => step_first_ne J L jid hL hid
  | n + 1 => by
    obtain ⟨h1, h2⟩ := exchange_view_ne J L jid hL hid n
    rw [exchange, h1, h2]
    obtain ⟨_, _, _, _, _, _, h7, h8⟩ := step_next_ne J L jid hL hid
    exact ⟨h7, h8⟩

/-- C1. The joiner's `ConnectLocal` composed with the listener's accept and
`handleConnection` over a reliable ordered stream, both with `onConnect` set,
the listener started (Waiting) and with no stream attached: from the second
step of the exchange on the outcome no longer changes, and it is, for every
pair of ids: when the ids are equal, `ConnectLocal` returns a nil error having
written Hello and Ready, both Sessions are Active, each side has invoked
`onConnect` exactly once, and the listener is in its receive loop having
written its Welcome; when they differ, `ConnectLocal` returns the error
`server error: Session ID mismatch`, the joiner has invoked no callback and
its Session state is unchanged, the listener has invoked no `onConnect` (only
`onDisconnect`, when set), its `handleConnection` has returned, and its
Session is unchanged, so still Waiting. -/
theorem handshake_exchange (J : ClientWorld) (L : ServerWorld) (jid : String) (n : Nat)
    (hL : L.srv.conn = none) (hW : L.srv.session.State = .StateWaiting)
    (hLc : L.srv.onConnect = true) (hJc : J.cli.onConnect = true) :
    (jid = L.srv.session.ID →
      (exchange J jid L (n + 1)).joiner.1 = .ret none ∧
      (exchange J jid L (n + 1)).joiner.2.cli.session.State = .StateActive ∧
      (exchange J jid L (n + 1)).joiner.2.env.events = J.env.events ++ [Event.connect] ∧
      ((exchange J jid L (n + 1)).joiner.2.env.conns 0).written =
        [NewHandshakeMessage (J.env.clock J.env.ticks) MessageTypeHello jid,
         NewMessage (J.env.clock (J.env.ticks + 1)) MessageTypeReady ""] ∧
      (exchange J jid L (n + 1)).listener.1 = .pending ∧
      (exchange J jid L (n + 1)).listener.2.srv.session.State = .StateActive ∧
      (exchange J jid L (n + 1)).listener.2.env.events = L.env.events ++ [Event.connect] ∧
      ((exchange J jid L (n + 1)).listener.2.env.conns 0).written =
        [NewHandshakeMessage (L.env.clock L.env.ticks) MessageTypeWelcome L.srv.session.ID]) ∧
    (jid ≠ L.srv.session.ID →
      (exchange J jid L (n + 1)).joiner.1 =
        .ret (some (.text "server error: Session ID mismatch")) ∧
      (exchange J jid L (n + 1)).joiner.2.cli.session.State = J.cli.session.State ∧
      (exchange J jid L (n + 1)).joiner.2.env.events = J.env.events ∧
      (exchange J jid L (n + 1)).listener.1 = .ret () ∧
      (exchange J jid L (n + 1)).listener.2.srv.session.State = .StateWaiting ∧
      (exchange J jid L (n + 1)).listener.2.env.events =
        L.env.events ++ (if L.srv.onDisconnect then [Event.disconnect] else [])) := by
  constructor
  · intro hid
    obtain ⟨h1, h2⟩ := exchange_view_eq J L jid hL hLc hJc hid n
    rw [exchange, h1, h2]
    obtain ⟨a1, a2, a3, a4, a5, a6, a7, a8, _⟩ := step_next_eq J L jid hL hLc hJc hid
    exact ⟨a1, a2, a3, a4, a5, a6, a7, a8⟩
  · intro hid
    obtain ⟨h1, h2⟩ := exchange_view_ne J L jid hL hid n
    rw [exchange, h1, h2]
    obtain ⟨a1, a2, a3, a4, a5, a6, _, _⟩ := step_next_ne J L jid hL hid
    exact ⟨a1, a2, a3, a4, by rw [a5]; exact hW, a6⟩

theorem handshake_exchange_witness :
    (sampleServer "nova-42" (Conn.fresh [] false)).srv.conn = none ∧
    (sampleServer "nova-42" (Conn.fresh [] false)).srv.session.State = .StateWaiting ∧
    (exchange (sampleClient "" (Conn.fresh [] false)) "nova-42"
      (sampleServer "nova-42" (Conn.fresh [] false)) 1).joiner.1 = .ret none ∧
    (exchange (sampleClient "" (Conn.fresh [] false)) "nova-41"
      (sampleServer "nova-42" (Conn.fresh [] false)) 1).listener.2.srv.session.State
        = .StateWaiting :=
  ⟨rfl, rfl,
   ((handshake_exchange (sampleClient "" (Conn.fresh [] false))
      (sampleServer "nova-42" (Conn.fresh [] false)) "nova-42" 0 rfl rfl rfl rfl).1 rfl).1,
   ((handshake_exchange (sampleClient "" (Conn.fresh [] false))
      (sampleServer "nova-42" (Conn.fresh [] false)) "nova-41" 0 rfl rfl rfl rfl).2
      (by decide)).2.2.2.2.1⟩

end network

/-! ## The Session record -/

namespace network

open protocol session

theorem addAll_messages : ∀ (calls : List (int64 × Message)) (s : Session),
    (addAll s calls).Messages =
      s.Messages ++ calls.map (fun c => { c.2 with Timestamp := c.1 })
  | [], s => by simp [addAll]
  | c :: rest, s => by
    simp [addAll, addAll_messages rest, Session.AddMessage]

/-- C16. `AddMessage` appends with a fresh timestamp: for every session,
message and clock reading `t`, `GetMessages` after `AddMessage` is
`GetMessages` before it followed by the message with its Timestamp replaced by
`t`; so after the calls `calls` on a new session `GetMessages` holds, in call
order, one message for each call, with the kind, content and sessionId passed
(and the timestamp of the call), and its length is the number of calls. -/
theorem AddMessage_appends (s : Session) (m : Message) (t : int64)
    (calls : List (int64 × Message)) (a b : Fin 16) (n : Fin 10000) (now : int64) :
    (s.AddMessage t m).GetMessages = s.GetMessages ++ [{ m with Timestamp := t }] ∧
    (addAll (New a b n now) calls).GetMessages =
      calls.map (fun c => { c.2 with Timestamp := c.1 }) ∧
    (addAll (New a b n now) calls).GetMessages.length = calls.length ∧
    (addAll (New a b n now) calls).GetMessages.map
        (fun x => (x.Kind, x.Content, x.SessionID)) =
      calls.map (fun c => (c.2.Kind, c.2.Content, c.2.SessionID)) := by
  have h : (addAll (New a b n now) calls).GetMessages =
      calls.map (fun c => { c.2 with Timestamp := c.1 }) := by
    simp [Session.GetMessages, addAll_messages, New]
  refine ⟨by simp [Session.GetMessages, Session.AddMessage], h, ?_, ?_⟩
  · rw [h, List.length_map]
  · rw [h, List.map_map]
    rfl

/-! ## Optional members on the wire -/

/-- C19. Empty optional fields are omitted on the wire: the frame that
`Encode` makes for a Message is the object of the members `Marshal` lists;
among their names there is no `content` when Content is empty and no
`session_id` when SessionID is empty, `type` and `timestamp` are there for
every Message, and a Content or SessionID that is not empty is there as a
string member. -/
theorem empty_fields_omitted (m : Message) :
    json.Encode m = json.Frame.object (json.Marshal m) ∧
    (m.Content = "" → "content" ∉ (json.Marshal m).map Prod.fst) ∧
    (m.SessionID = "" → "session_id" ∉ (json.Marshal m).map Prod.fst) ∧
    "type" ∈ (json.Marshal m).map Prod.fst ∧
    "timestamp" ∈ (json.Marshal m).map Prod.fst ∧
    (m.Content ≠ "" → ("content", json.Value.str m.Content) ∈ json.Marshal m) ∧
    (m.SessionID ≠ "" → ("session_id", json.Value.str m.SessionID) ∈ json.Marshal m) := by
  refine ⟨rfl, ?_, ?_, ?_, ?_, ?_, ?_⟩
  · intro h
    by_cases hs : m.SessionID = "" <;> simp [json.Marshal, h, hs]
  · intro h
    by_cases hc : m.Content = "" <;> simp [json.Marshal, h, hc]
  · simp [json.Marshal]
  · simp [json.Marshal]
  · intro h
    simp [json.Marshal, h]
  · intro h
    simp [json.Marshal, h]

end network

/-! ## Stop -/

namespace network

open protocol session

/-- `Server.Stop` on a listener with no stream and no `net.Listener` whose
Session is Ended changes nothing. -/
theorem server_stop_fixed (w : ServerWorld) (hc : w.srv.conn = none)
    (hl : w.srv.listener = false) (hs : w.srv.session.State = .StateEnded) :
    Server.Stop w = w := by
  obtain ⟨⟨⟨i, st, ms, state⟩, l, c, e, d, om, oc, od⟩, env⟩ := w
  simp only at hc hl hs
  subst hc hl hs
  rfl

/-- `Client.Stop` on a joiner with no stream and no SSH client whose Session
is Ended changes nothing. -/
theorem client_stop_fixed (w : ClientWorld) (hc : w.cli.conn = none)
    (hl : w.cli.sshClient = false) (hs : w.cli.session.State = .StateEnded) :
    Client.Stop w = w := by
  obtain ⟨⟨⟨i, st, ms, state⟩, c, e, d, l, om, oc, od⟩, env⟩ := w
  simp only at hc hl hs
  subst hc hl hs
  rfl

theorem server_stop_srv (w : ServerWorld) :
    (Server.Stop w).srv =
      { w.srv with conn := none, listener := false,
                   session := w.srv.session.SetState .StateEnded } := by
  obtain ⟨⟨sess, l, c, e, d, om, oc, od⟩, env⟩ := w
  cases c <;> cases e <;> cases l <;> rfl

theorem client_stop_cli (w : ClientWorld) :
    (Client.Stop w).cli =
      { w.cli with conn := none, sshClient := false,
                   session := w.cli.session.SetState .StateEnded } := by
  obtain ⟨⟨sess, c, e, d, l, om, oc, od⟩, env⟩ := w
  cases c <;> cases e <;> cases l <;> rfl

/-- C12. Stop, on a listener and on a joiner with a stream attached (`conn`
and the encoder on the same stream): the listener or joiner struct that Stop
leaves has `conn` nil, the listener or SSH client nil and the Session Ended,
and is the same whatever the stream does with the write; the stream is closed
(and so is the `net.Listener` or SSH client that was there); when the write
succeeds exactly one frame is written, a Leave, and when it fails none is;
and a second Stop changes nothing at all, so it writes no frame. -/
theorem stop_leaves_and_ends (sw : ServerWorld) (cw : ClientWorld) (sid cid : ConnId)
    (hsc : sw.srv.conn = some sid) (hse : sw.srv.encoder = some sid)
    (hcc : cw.cli.conn = some cid) (hce : cw.cli.encoder = some cid) :
    ((Server.Stop sw).srv =
        { sw.srv with conn := none, listener := false,
                      session := sw.srv.session.SetState .StateEnded } ∧
      (Server.Stop sw).srv.session.State = .StateEnded ∧
      ((Server.Stop sw).env.conns sid).closed = true ∧
      (sw.srv.listener = true → (Server.Stop sw).env.listenerClosed = true) ∧
      ((sw.env.conns sid).closed = false → (sw.env.conns sid).writeFail.head? ≠ some true →
        ((Server.Stop sw).env.conns sid).written =
          (sw.env.conns sid).written
            ++ [NewMessage (sw.env.clock sw.env.ticks) MessageTypeLeave "Host disconnected"]) ∧
      ((sw.env.conns sid).closed = true ∨ (sw.env.conns sid).writeFail.head? = some true →
        ((Server.Stop sw).env.conns sid).written = (sw.env.conns sid).written) ∧
      Server.Stop (Server.Stop sw) = Server.Stop sw) ∧
    ((Client.Stop cw).cli =
        { cw.cli with conn := none, sshClient := false,
                      session := cw.cli.session.SetState .StateEnded } ∧
      (Client.Stop cw).cli.session.State = .StateEnded ∧
      ((Client.Stop cw).env.conns cid).closed = true ∧
      (cw.cli.sshClient = true → (Client.Stop cw).env.sshClosed = true) ∧
      ((cw.env.conns cid).closed = false → (cw.env.conns cid).writeFail.head? ≠ some true →
        ((Client.Stop cw).env.conns cid).written =
          (cw.env.conns cid).written
            ++ [NewMessage (cw.env.clock cw.env.ticks) MessageTypeLeave "Peer disconnected"]) ∧
      ((cw.env.conns cid).closed = true ∨ (cw.env.conns cid).writeFail.head? = some true →
        ((Client.Stop cw).env.conns cid).written = (cw.env.conns cid).written) ∧
      Client.Stop (Client.Stop cw) = Client.Stop cw) := by
  constructor
  · have hsrv := server_stop_srv sw
    refine ⟨hsrv, by rw [hsrv]; rfl, ?_, ?_, ?_, ?_, ?_⟩
    · by_cases hl : sw.srv.listener <;>
        simp [Server.Stop, Env.Close, Conn.Close, hsc, hse, hl]
    · intro hl
      simp [Server.Stop, hsc, hse, hl]
    · intro hopen hw
      rcases hwf : (sw.env.conns sid).writeFail with _ | ⟨b, rest⟩
      · by_cases hl : sw.srv.listener <;>
          simp [Server.Stop, Env.Close, Env.Encode, Conn.Close, hsc, hse, hl, hopen, hwf]
      · have hb : b = false := by
          cases b
          · rfl
          · simp [hwf] at hw
        subst hb
        by_cases hl : sw.srv.listener <;>
          simp [Server.Stop, Env.Close, Env.Encode, Conn.Close, hsc, hse, hl, hopen, hwf]
    · intro h
      rcases h with hclosed | hw
      · by_cases hl : sw.srv.listener <;>
          simp [Server.Stop, Env.Close, Env.Encode, Conn.Close, hsc, hse, hl, hclosed]
      · rcases hwf : (sw.env.conns sid).writeFail with _ | ⟨b, rest⟩
        · simp [hwf] at hw
        · have hb : b = true := by simpa [hwf] using hw
          subst hb
          by_cases hclosed : (sw.env.conns sid).closed <;> by_cases hl : sw.srv.listener <;>
            simp [Server.Stop, Env.Close, Env.Encode, Conn.Close, hsc, hse, hl, hclosed, hwf]
    · exact server_stop_fixed _ (by rw [hsrv]) (by rw [hsrv]) (by rw [hsrv]; rfl)
  · have hcli := client_stop_cli cw
    refine ⟨hcli, by rw [hcli]; rfl, ?_, ?_, ?_, ?_, ?_⟩
    · by_cases hl : cw.cli.sshClient <;>
        simp [Client.Stop, Env.Close, Conn.Close, hcc, hce, hl]
    · intro hl
      simp [Client.Stop, hcc, hce, hl]
    · intro hopen hw
      rcases hwf : (cw.env.conns cid).writeFail with _ | ⟨b, rest⟩
      · by_cases hl : cw.cli.sshClient <;>
          simp [Client.Stop, Env.Close, Env.Encode, Conn.Close, hcc, hce, hl, hopen, hwf]
      · have hb : b = false := by
          cases b
          · rfl
          · simp [hwf] at hw
        subst hb
        by_cases hl : cw.cli.sshClient <;>
          simp [Client.Stop, Env.Close, Env.Encode, Conn.Close, hcc, hce, hl, hopen, hwf]
    · intro h
      rcases h with hclosed | hw
      · by_cases hl : cw.cli.sshClient <;>
          simp [Client.Stop, Env.Close, Env.Encode, Conn.Close, hcc, hce, hl, hclosed]
      · rcases hwf : (cw.env.conns cid).writeFail with _ | ⟨b, rest⟩
        · simp [hwf] at hw
        · have hb : b = true := by simpa [hwf] using hw
          subst hb
          by_cases hclosed : (cw.env.conns cid).closed <;> by_cases hl : cw.cli.sshClient <;>
            simp [Client.Stop, Env.Close, Env.Encode, Conn.Close, hcc, hce, hl, hclosed, hwf]
    · exact client_stop_fixed _ (by rw [hcli]) (by rw [hcli]) (by rw [hcli]; rfl)

theorem stop_leaves_and_ends_witness :
    (sampleListener "nova-42" (Conn.fresh [] false)).srv.conn = some 0 ∧
    (sampleJoiner "nova-42" (Conn.fresh [] false)).cli.conn = some 0 ∧
    ((Server.Stop (sampleListener "nova-42" (Conn.fresh [] false))).env.conns 0).closed
      = true :=
  ⟨rfl, rfl,
   (stop_leaves_and_ends (sampleListener "nova-42" (Conn.fresh [] false))
      (sampleJoiner "nova-42" (Conn.fresh [] false)) 0 0 rfl rfl rfl rfl).1.2.2.1⟩

end network

/-! ## SendMessage -/

namespace network

open protocol session

theorem server_send_closed (w : ServerWorld) (id : ConnId) (m : Message)
    (he : w.srv.encoder = some id) (hc : (w.env.conns id).closed = true) :
    Server.SendMessage w m = (some .io, w) := by
  simp [Server.SendMessage, Env.Encode, he, hc]

theorem client_send_closed (w : ClientWorld) (id : ConnId) (m : Message)
    (he : w.cli.encoder = some id) (hc : (w.env.conns id).closed = true) :
    Client.SendMessage w m = (some .io, w) := by
  simp [Client.SendMessage, Env.Encode, he, hc]

theorem server_send_open (w : ServerWorld) (id : ConnId) (m : Message)
    (he : w.srv.encoder = some id) (hopen : (w.env.conns id).closed = false)
    (hw : (w.env.conns id).writeFail.head? ≠ some true) :
    (Server.SendMessage w m).1 = none ∧
    ((Server.SendMessage w m).2.env.conns id).written = (w.env.conns id).written ++ [m] := by
  rcases hwf : (w.env.conns id).writeFail with _ | ⟨b, rest⟩
  · simp [Server.SendMessage, Env.Encode, he, hopen, hwf]
  · have hb : b = false := by
      cases b
      · rfl
      · simp [hwf] at hw
    subst hb
    simp [Server.SendMessage, Env.Encode, he, hopen, hwf]

theorem client_send_open (w : ClientWorld) (id : ConnId) (m : Message)
    (he : w.cli.encoder = some id) (hopen : (w.env.conns id).closed = false)
    (hw : (w.env.conns id).writeFail.head? ≠ some true) :
    (Client.SendMessage w m).1 = none ∧
    ((Client.SendMessage w m).2.env.conns id).written = (w.env.conns id).written ++ [m] := by
  rcases hwf : (w.env.conns id).writeFail with _ | ⟨b, rest⟩
  · simp [Client.SendMessage, Env.Encode, he, hopen, hwf]
  · have hb : b = false := by
      cases b
      · rfl
      · simp [hwf] at hw
    subst hb
    simp [Client.SendMessage, Env.Encode, he, hopen, hwf]

/-- After `Server.Stop` the slot is nil and the encoder is on the closed
stream. -/
theorem stop_closes_server (w : ServerWorld) (id : ConnId) (hc : w.srv.conn = some id)
    (he : w.srv.encoder = some id) :
    (Server.Stop w).srv.conn = none ∧ (Server.Stop w).srv.encoder = some id ∧
    ((Server.Stop w).env.conns id).closed = true := by
  by_cases hl : w.srv.listener <;>
    simp [Server.Stop, Env.Close, Conn.Close, Session.SetState, hc, he, hl]

theorem stop_closes_client (w : ClientWorld) (id : ConnId) (hc : w.cli.conn = some id)
    (he : w.cli.encoder = some id) :
    (Client.Stop w).cli.conn = none ∧ (Client.Stop w).cli.encoder = some id ∧
    ((Client.Stop w).env.conns id).closed = true := by
  by_cases hl : w.cli.sshClient <;>
    simp [Client.Stop, Env.Close, Conn.Close, Session.SetState, hc, he, hl]

/-- After the deferred function of `Server.handleConnection` the slot is nil
and the encoder is on the closed stream. -/
theorem deferred_closes_server (w : ServerWorld) (id : ConnId) (hc : w.srv.conn = some id)
    (he : w.srv.encoder = some id) :
    (Server.handleConnection.deferred w).srv.conn = none ∧
    (Server.handleConnection.deferred w).srv.encoder = some id ∧
    ((Server.handleConnection.deferred w).env.conns id).closed = true := by
  by_cases hd : w.srv.onDisconnect <;>
    simp [Server.handleConnection.deferred, Env.Close, Env.emit, Conn.Close, hc, he, hd]

theorem deferred_closes_client (w : ClientWorld) (id : ConnId) (hc : w.cli.conn = some id)
    (he : w.cli.encoder = some id) :
    (Client.handleConnection.deferred w).cli.conn = none ∧
    (Client.handleConnection.deferred w).cli.encoder = some id ∧
    ((Client.handleConnection.deferred w).env.conns id).closed = true := by
  by_cases hd : w.cli.onDisconnect <;> by_cases hl : w.cli.sshClient <;>
    simp [Client.handleConnection.deferred, Env.Close, Env.emit, Conn.Close, hc, he, hd, hl]

/-- C14. `SendMessage` fails when no stream is attached.  On an endpoint that
was never connected (the encoder is nil, as `NewServer` and `NewClient` leave
it) it returns the error `not connected`; after Stop, and after the deferred
function of `handleConnection` has released the stream at the exit of the
receive loop, `conn` is nil, the encoder is still on the stream that was
closed, and it returns the error of the write; in the three cases the endpoint
and every stream are left as they were, so no frame is written.  With a
stream attached and open whose next write does not fail it returns a nil error
and what it has written is exactly the message given. -/
theorem SendMessage_needs_stream (sw : ServerWorld) (cw : ClientWorld) (sid cid : ConnId)
    (m : Message) (sess : Session)
    (hsc : sw.srv.conn = some sid) (hse : sw.srv.encoder = some sid)
    (hcc : cw.cli.conn = some cid) (hce : cw.cli.encoder = some cid) :
    ((NewServer sess).encoder = none ∧
      (∀ w : ServerWorld, w.srv.encoder = none →
        Server.SendMessage w m = (some (.text "not connected"), w)) ∧
      (Server.Stop sw).srv.conn = none ∧
      Server.SendMessage (Server.Stop sw) m = (some .io, Server.Stop sw) ∧
      (Server.handleConnection.deferred sw).srv.conn = none ∧
      Server.SendMessage (Server.handleConnection.deferred sw) m =
        (some .io, Server.handleConnection.deferred sw) ∧
      ((sw.env.conns sid).closed = false → (sw.env.conns sid).writeFail.head? ≠ some true →
        (Server.SendMessage sw m).1 = none ∧
        ((Server.SendMessage sw m).2.env.conns sid).written =
          (sw.env.conns sid).written ++ [m])) ∧
    ((NewClient sess).encoder = none ∧
      (∀ w : ClientWorld, w.cli.encoder = none →
        Client.SendMessage w m = (some (.text "not connected"), w)) ∧
      (Client.Stop cw).cli.conn = none ∧
      Client.SendMessage (Client.Stop cw) m = (some .io, Client.Stop cw) ∧
      (Client.handleConnection.deferred cw).cli.conn = none ∧
      Client.SendMessage (Client.handleConnection.deferred cw) m =
        (some .io, Client.handleConnection.deferred cw) ∧
      ((cw.env.conns cid).closed = false → (cw.env.conns cid).writeFail.head? ≠ some true →
        (Client.SendMessage cw m).1 = none ∧
        ((Client.SendMessage cw m).2.env.conns cid).written =
          (cw.env.conns cid).written ++ [m])) := by
  have hs := (stop_closes_server sw sid hsc hse)
  have hc := (stop_closes_client cw cid hcc hce)
  have hds := (deferred_closes_server sw sid hsc hse)
  have hdc := (deferred_closes_client cw cid hcc hce)
  refine ⟨⟨rfl, ?_, hs.1, server_send_closed _ sid m hs.2.1 hs.2.2, hds.1,
      server_send_closed _ sid m hds.2.1 hds.2.2, server_send_open sw sid m hse⟩,
    ⟨rfl, ?_, hc.1, client_send_closed _ cid m hc.2.1 hc.2.2, hdc.1,
      client_send_closed _ cid m hdc.2.1 hdc.2.2, client_send_open cw cid m hce⟩⟩
  · intro w hw
    simp [Server.SendMessage, hw]
  · intro w hw
    simp [Client.SendMessage, hw]

theorem SendMessage_needs_stream_witness :
    (sampleListener "nova-42" (Conn.fresh [] false)).srv.conn = some 0 ∧
    (sampleJoiner "nova-42" (Conn.fresh [] false)).cli.conn = some 0 ∧
    (Server.SendMessage (Server.Stop (sampleListener "nova-42" (Conn.fresh [] false)))
      (NewMessage int64.zero MessageTypeText "hi")).1 = some .io := by
  have h := (SendMessage_needs_stream (sampleListener "nova-42" (Conn.fresh [] false))
    (sampleJoiner "nova-42" (Conn.fresh [] false)) 0 0
    (NewMessage int64.zero MessageTypeText "hi") (sampleSession "nova-42")
    rfl rfl rfl rfl).1.2.2.2.1
  exact ⟨rfl, rfl, by rw [h]⟩

end network

/-! ## Leaving the steady state -/

namespace network

open protocol session

/-- After a handshake that returned a nil error, `Server.handleConnection` is
the change to Active, `onConnect`, and then `steady`. -/
theorem server_handleConnection_steady (w w1 : ServerWorld)
    (h : Server.performHandshake w = (.ret none, w1)) :
    Server.handleConnection w =
      Server.handleConnection.steady
        (if w1.srv.onConnect then
          { srv := { w1.srv with session := w1.srv.session.SetState .StateActive },
            env := w1.env.emit .connect }
         else { w1 with srv := { w1.srv with session := w1.srv.session.SetState .StateActive } })
    := by
  unfold Server.handleConnection Server.handleConnection.steady
  rw [h]

/-- C11 fails on the listener: with a first frame that is a Hello for another
session the handshake returns an error, `handleConnection` returns without
`onConnect` and without entering the receive loop (nothing is appended, the
Session is still Waiting), and its deferred function invokes `onDisconnect`;
the joiner's `ConnectLocal`, when its handshake fails, invokes no callback. -/
theorem server_disconnect_without_loop :
    (Server.performHandshake (sampleListener "nova-42" (Conn.fresh [json.Encode
        (NewHandshakeMessage int64.zero MessageTypeHello "nova-41")] false))).1 =
      .ret (some (.text "session ID mismatch: expected nova-42, got nova-41")) ∧
    (Server.handleConnection (sampleListener "nova-42" (Conn.fresh [json.Encode
        (NewHandshakeMessage int64.zero MessageTypeHello "nova-41")] false))).1 = .ret () ∧
    (Server.handleConnection (sampleListener "nova-42" (Conn.fresh [json.Encode
        (NewHandshakeMessage int64.zero MessageTypeHello "nova-41")] false))).2.env.events =
      [Event.disconnect] ∧
    (Server.handleConnection (sampleListener "nova-42" (Conn.fresh [json.Encode
        (NewHandshakeMessage int64.zero MessageTypeHello "nova-41")] false))).2.srv.session.State =
      .StateWaiting ∧
    (Client.ConnectLocal (sampleClient "" (Conn.fresh [json.Encode
        (NewMessage int64.zero MessageTypeError "Session ID mismatch")] true)) (some 0)
        "nova-41").1 = .ret (some (.text "server error: Session ID mismatch")) ∧
    (Client.ConnectLocal (sampleClient "" (Conn.fresh [json.Encode
        (NewMessage int64.zero MessageTypeError "Session ID mismatch")] true)) (some 0)
        "nova-41").2.env.events = [] := by
  decide

/-- The joiner's `Stop` has written its Leave; the frame arrives at a
listener that is idle in its receive loop. -/
theorem server_takes_leave (sw : ServerWorld) (sid : ConnId) (leave : Message)
    (hs : sw.reliableOn sid) (hsc : sw.srv.conn = some sid)
    (hsin : (sw.env.conns sid).incoming = []) (hsd : sw.srv.onDisconnect = true)
    (hk : leave.Kind = MessageTypeLeave) :
    (Server.handleConnection.steady (sw.receive sid [json.Encode leave] true)).1 = .ret () ∧
    (Server.handleConnection.steady (sw.receive sid [json.Encode leave] true)).2.env.events =
      sw.env.events ++ (if sw.srv.onMessage then [Event.message leave] else [])
        ++ [Event.disconnect] ∧
    (Server.handleConnection.steady
        (sw.receive sid [json.Encode leave] true)).2.srv.session.Messages =
      sw.srv.session.Messages ++ [{ leave with Timestamp := sw.env.clock sw.env.ticks }] ∧
    (Server.handleConnection.steady
        (sw.receive sid [json.Encode leave] true)).2.srv.session.State =
      sw.srv.session.State ∧
    (Server.handleConnection.steady (sw.receive sid [json.Encode leave] true)).2.srv.conn =
      none ∧
    (Server.Stop (Server.handleConnection.steady
        (sw.receive sid [json.Encode leave] true)).2).srv.session.State = .StateEnded := by
  obtain ⟨srv, env⟩ := sw
  obtain ⟨he, hd, hopen, hw⟩ := hs
  simp only at he hd hopen hw hsc hsin hsd
  have hlp : ¬ MessageTypeLeave = MessageTypePing := by decide
  by_cases hm : srv.onMessage <;>
    simp [Server.handleConnection.steady, Server.handleConnection.loop,
      Server.handleConnection.body, Server.handleConnection.deferred, Server.Stop,
      ServerWorld.receive, Env.turns, Env.Decode, Env.Close, Env.emit, Conn.Close,
      Session.AddMessage, Session.SetState, json.Decode_Encode, he, hd, hopen, hw, hsc, hsin,
      hsd, hk, hm, hlp]

/-- The listener's `Stop` has written its Leave; the frame arrives at a
joiner that is idle in its receive loop. -/
theorem client_takes_leave (cw : ClientWorld) (cid : ConnId) (leave : Message)
    (hc : cw.reliableOn cid) (hcc : cw.cli.conn = some cid)
    (hcin : (cw.env.conns cid).incoming = []) (hcd : cw.cli.onDisconnect = true)
    (hk : leave.Kind = MessageTypeLeave) :
    (Client.handleConnection (cw.receive cid [json.Encode leave] true)).1 = .ret () ∧
    (Client.handleConnection (cw.receive cid [json.Encode leave] true)).2.env.events =
      cw.env.events ++ (if cw.cli.onMessage then [Event.message leave] else [])
        ++ [Event.disconnect] ∧
    (Client.handleConnection (cw.receive cid [json.Encode leave] true)).2.cli.session.Messages =
      cw.cli.session.Messages ++ [{ leave with Timestamp := cw.env.clock cw.env.ticks }] ∧
    (Client.handleConnection (cw.receive cid [json.Encode leave] true)).2.cli.session.State =
      cw.cli.session.State ∧
    (Client.handleConnection (cw.receive cid [json.Encode leave] true)).2.cli.conn = none ∧
    (Client.Stop (Client.handleConnection
        (cw.receive cid [json.Encode leave] true)).2).cli.session.State = .StateEnded := by
  obtain ⟨cli, env⟩ := cw
  obtain ⟨he, hd, hopen, hw⟩ := hc
  simp only at he hd hopen hw hcc hcin hcd
  have hlp : ¬ MessageTypeLeave = MessageTypePing := by decide
  by_cases hm : cli.onMessage <;> by_cases hssh : cli.sshClient <;>
    simp [Client.handleConnection, Client.handleConnection.loop,
      Client.handleConnection.body, Client.handleConnection.deferred, Client.Stop,
      ClientWorld.receive, Env.turns, Env.Decode, Env.Close, Env.emit, Conn.Close,
      Session.AddMessage, Session.SetState, json.Decode_Encode, he, hd, hopen, hw, hcc, hcin,
      hcd, hk, hm, hssh, hlp]

theorem server_stop_writes (w : ServerWorld) (id : ConnId) (hc : w.srv.conn = some id)
    (hrel : w.reliableOn id) :
    ((Server.Stop w).env.conns id).written =
      (w.env.conns id).written
        ++ [NewMessage (w.env.clock w.env.ticks) MessageTypeLeave "Host disconnected"] := by
  obtain ⟨he, _, hopen, hw⟩ := hrel
  by_cases hl : w.srv.listener <;>
    simp [Server.Stop, Env.Close, Env.Encode, Conn.Close, hc, he, hl, hopen, hw]

theorem client_stop_writes (w : ClientWorld) (id : ConnId) (hc : w.cli.conn = some id)
    (hrel : w.reliableOn id) :
    ((Client.Stop w).env.conns id).written =
      (w.env.conns id).written
        ++ [NewMessage (w.env.clock w.env.ticks) MessageTypeLeave "Peer disconnected"] := by
  obtain ⟨he, _, hopen, hw⟩ := hrel
  by_cases hl : w.cli.sshClient <;>
    simp [Client.Stop, Env.Close, Env.Encode, Conn.Close, hc, he, hl, hopen, hw]

theorem server_leave_releases (sw : ServerWorld) (sid : ConnId) (leave : Message)
    (hs : sw.reliableOn sid) (hsc : sw.srv.conn = some sid)
    (hsin : (sw.env.conns sid).incoming = []) (hsd : sw.srv.onDisconnect = true)
    (hk : leave.Kind = MessageTypeLeave) :
    ((Server.handleConnection.steady
        (sw.receive sid [json.Encode leave] true)).2.env.conns sid).closed = true ∧
    ((Server.handleConnection.steady
        (sw.receive sid [json.Encode leave] true)).2.env.conns sid).written =
      (sw.env.conns sid).written := by
  obtain ⟨srv, env⟩ := sw
  obtain ⟨he, hd, hopen, hw⟩ := hs
  simp only at he hd hopen hw hsc hsin hsd
  have hlp : ¬ MessageTypeLeave = MessageTypePing := by decide
  by_cases hm : srv.onMessage <;>
    simp [Server.handleConnection.steady, Server.handleConnection.loop,
      Server.handleConnection.body, Server.handleConnection.deferred, Server.Stop,
      ServerWorld.receive, Env.turns, Env.Decode, Env.Close, Env.emit, Conn.Close,
      Session.AddMessage, Session.SetState, json.Decode_Encode, he, hd, hopen, hw, hsc, hsin,
      hsd, hk, hm, hlp]

theorem client_leave_releases (cw : ClientWorld) (cid : ConnId) (leave : Message)
    (hc : cw.reliableOn cid) (hcc : cw.cli.conn = some cid)
    (hcin : (cw.env.conns cid).incoming = []) (hcd : cw.cli.onDisconnect = true)
    (hk : leave.Kind = MessageTypeLeave) :
    ((Client.handleConnection
        (cw.receive cid [json.Encode leave] true)).2.env.conns cid).closed = true ∧
    ((Client.handleConnection
        (cw.receive cid [json.Encode leave] true)).2.env.conns cid).written =
      (cw.env.conns cid).written ∧
    (Client.handleConnection (cw.receive cid [json.Encode leave] true)).2.cli.sshClient =
      false := by
  obtain ⟨cli, env⟩ := cw
  obtain ⟨he, hd, hopen, hw⟩ := hc
  simp only at he hd hopen hw hcc hcin hcd
  have hlp : ¬ MessageTypeLeave = MessageTypePing := by decide
  by_cases hm : cli.onMessage <;> by_cases hssh : cli.sshClient <;>
    simp [Client.handleConnection, Client.handleConnection.loop,
      Client.handleConnection.body, Client.handleConnection.deferred, Client.Stop,
      ClientWorld.receive, Env.turns, Env.Decode, Env.Close, Env.emit, Conn.Close,
      Session.AddMessage, Session.SetState, json.Decode_Encode, he, hd, hopen, hw, hcc, hcin,
      hcd, hk, hm, hssh, hlp]

/-- C13, as the code has it.  Two endpoints are in their steady state on a
stream whose writes succeed, each with its stream attached, `onDisconnect` set
and nothing left to read.  When the joiner calls Stop, its Leave is written
and its own Session is Ended; the listener's loop takes the Leave in (appends
it to the Session with the time of arrival, passes it to `onMessage` when
set), stops, and the deferred function releases the stream (`conn` is nil, the
stream is closed, nothing was written on it) and invokes `onDisconnect`, once;
the listener's Session state is what it was, and it is Ended once Stop is
called on the listener too.  The same holds with the listener calling Stop and
the joiner taking the Leave, the joiner releasing its SSH client as well. -/
theorem graceful_leave (sw : ServerWorld) (cw : ClientWorld) (sid cid : ConnId)
    (hs : sw.reliableOn sid) (hc : cw.reliableOn cid)
    (hsc : sw.srv.conn = some sid) (hcc : cw.cli.conn = some cid)
    (hsin : (sw.env.conns sid).incoming = []) (hcin : (cw.env.conns cid).incoming = [])
    (hsd : sw.srv.onDisconnect = true) (hcd : cw.cli.onDisconnect = true) :
    (((Client.Stop cw).env.conns cid).written =
        (cw.env.conns cid).written
          ++ [NewMessage (cw.env.clock cw.env.ticks) MessageTypeLeave "Peer disconnected"] ∧
      (Client.Stop cw).cli.session.State = .StateEnded ∧
      (Server.handleConnection.steady (sw.receive sid [json.Encode
          (NewMessage (cw.env.clock cw.env.ticks) MessageTypeLeave "Peer disconnected")]
          true)).1 = .ret () ∧
      (Server.handleConnection.steady (sw.receive sid [json.Encode
          (NewMessage (cw.env.clock cw.env.ticks) MessageTypeLeave "Peer disconnected")]
          true)).2.env.events =
        sw.env.events
          ++ (if sw.srv.onMessage then
                [Event.message (NewMessage (cw.env.clock cw.env.ticks) MessageTypeLeave
                  "Peer disconnected")]
              else [])
          ++ [Event.disconnect] ∧
      (Server.handleConnection.steady (sw.receive sid [json.Encode
          (NewMessage (cw.env.clock cw.env.ticks) MessageTypeLeave "Peer disconnected")]
          true)).2.srv.session.Messages =
        sw.srv.session.Messages
          ++ [{ NewMessage (cw.env.clock cw.env.ticks) MessageTypeLeave "Peer disconnected" with
                Timestamp := sw.env.clock sw.env.ticks }] ∧
      (Server.handleConnection.steady (sw.receive sid [json.Encode
          (NewMessage (cw.env.clock cw.env.ticks) MessageTypeLeave "Peer disconnected")]
          true)).2.srv.conn = none ∧
      ((Server.handleConnection.steady (sw.receive sid [json.Encode
          (NewMessage (cw.env.clock cw.env.ticks) MessageTypeLeave "Peer disconnected")]
          true)).2.env.conns sid).closed = true ∧
      ((Server.handleConnection.steady (sw.receive sid [json.Encode
          (NewMessage (cw.env.clock cw.env.ticks) MessageTypeLeave "Peer disconnected")]
          true)).2.env.conns sid).written = (sw.env.conns sid).written ∧
      (Server.handleConnection.steady (sw.receive sid [json.Encode
          (NewMessage (cw.env.clock cw.env.ticks) MessageTypeLeave "Peer disconnected")]
          true)).2.srv.session.State = sw.srv.session.State ∧
      (Server.Stop (Server.handleConnection.steady (sw.receive sid [json.Encode
          (NewMessage (cw.env.clock cw.env.ticks) MessageTypeLeave "Peer disconnected")]
          true)).2).srv.session.State = .StateEnded) ∧
    (((Server.Stop sw).env.conns sid).written =
        (sw.env.conns sid).written
          ++ [NewMessage (sw.env.clock sw.env.ticks) MessageTypeLeave "Host disconnected"] ∧
      (Server.Stop sw).srv.session.State = .StateEnded ∧
      (Client.handleConnection (cw.receive cid [json.Encode
          (NewMessage (sw.env.clock sw.env.ticks) MessageTypeLeave "Host disconnected")]
          true)).1 = .ret () ∧
      (Client.handleConnection (cw.receive cid [json.Encode
          (NewMessage (sw.env.clock sw.env.ticks) MessageTypeLeave "Host disconnected")]
          true)).2.env.events =
        cw.env.events
          ++ (if cw.cli.onMessage then
                [Event.message (NewMessage (sw.env.clock sw.env.ticks) MessageTypeLeave
                  "Host disconnected")]
              else [])
          ++ [Event.disconnect] ∧
      (Client.handleConnection (cw.receive cid [json.Encode
          (NewMessage (sw.env.clock sw.env.ticks) MessageTypeLeave "Host disconnected")]
          true)).2.cli.session.Messages =
        cw.cli.session.Messages
          ++ [{ NewMessage (sw.env.clock sw.env.ticks) MessageTypeLeave "Host disconnected" with
                Timestamp := cw.env.clock cw.env.ticks }] ∧
      (Client.handleConnection (cw.receive cid [json.Encode
          (NewMessage (sw.env.clock sw.env.ticks) MessageTypeLeave "Host disconnected")]
          true)).2.cli.conn = none ∧
      ((Client.handleConnection (cw.receive cid [json.Encode
          (NewMessage (sw.env.clock sw.env.ticks) MessageTypeLeave "Host disconnected")]
          true)).2.env.conns cid).closed = true ∧
      ((Client.handleConnection (cw.receive cid [json.Encode
          (NewMessage (sw.env.clock sw.env.ticks) MessageTypeLeave "Host disconnected")]
          true)).2.env.conns cid).written = (cw.env.conns cid).written ∧
      (Client.handleConnection (cw.receive cid [json.Encode
          (NewMessage (sw.env.clock sw.env.ticks) MessageTypeLeave "Host disconnected")]
          true)).2.cli.sshClient = false ∧
      (Client.handleConnection (cw.receive cid [json.Encode
          (NewMessage (sw.env.clock sw.env.ticks) MessageTypeLeave "Host disconnected")]
          true)).2.cli.session.State = cw.cli.session.State ∧
      (Client.Stop (Client.handleConnection (cw.receive cid [json.Encode
          (NewMessage (sw.env.clock sw.env.ticks) MessageTypeLeave "Host disconnected")]
          true)).2).cli.session.State = .StateEnded) := by
  constructor
  · obtain ⟨a1, a2, a3, a4, a5, a6⟩ := server_takes_leave sw sid
      (NewMessage (cw.env.clock cw.env.ticks) MessageTypeLeave "Peer disconnected")
      hs hsc hsin hsd rfl
    obtain ⟨b1, b2⟩ := server_leave_releases sw sid
      (NewMessage (cw.env.clock cw.env.ticks) MessageTypeLeave "Peer disconnected")
      hs hsc hsin hsd rfl
    exact ⟨client_stop_writes cw cid hcc hc, by rw [client_stop_cli]; rfl, a1, a2, a3, a5,
      b1, b2, a4, a6⟩
  · obtain ⟨a1, a2, a3, a4, a5, a6⟩ := client_takes_leave cw cid
      (NewMessage (sw.env.clock sw.env.ticks) MessageTypeLeave "Host disconnected")
      hc hcc hcin hcd rfl
    obtain ⟨b1, b2, b3⟩ := client_leave_releases cw cid
      (NewMessage (sw.env.clock sw.env.ticks) MessageTypeLeave "Host disconnected")
      hc hcc hcin hcd rfl
    exact ⟨server_stop_writes sw sid hsc hs, by rw [server_stop_srv]; rfl, a1, a2, a3, a5,
      b1, b2, b3, a4, a6⟩

theorem graceful_leave_witness :
    sampleLink.listener.2.reliableOn 0 ∧ sampleLink.joiner.2.reliableOn 0 ∧
    sampleLink.listener.2.srv.session.State = .StateActive ∧
    sampleLink.joiner.2.cli.session.State = .StateActive ∧
    (Server.handleConnection.steady (sampleLink.listener.2.receive 0 [json.Encode
        (NewMessage int64.zero MessageTypeLeave "Peer disconnected")] true)).1 = .ret () :=
  ⟨⟨rfl, rfl, rfl, rfl⟩, ⟨rfl, rfl, rfl, rfl⟩, rfl, rfl,
   (graceful_leave sampleLink.listener.2 sampleLink.joiner.2 0 0
      ⟨rfl, rfl, rfl, rfl⟩ ⟨rfl, rfl, rfl, rfl⟩ rfl rfl rfl rfl rfl rfl).1.2.2.1⟩

/-- C13 fails as stated: the joiner and the listener of `sampleLink` are both
Active; the joiner calls Stop, the Leave it has written reaches the listener,
whose handler returns having invoked `onDisconnect` once, and the listener's
Session is still Active, not Ended. -/
theorem peer_session_stays_active :
    sampleLink.joiner.2.cli.session.State = .StateActive ∧
    sampleLink.listener.2.srv.session.State = .StateActive ∧
    ((Client.Stop sampleLink.joiner.2).env.conns 0).wire.drop 2 =
      [json.Encode (NewMessage int64.zero MessageTypeLeave "Peer disconnected")] ∧
    (Server.handleConnection.steady (sampleLink.listener.2.receive 0
        (((Client.Stop sampleLink.joiner.2).env.conns 0).wire.drop 2) true)).1 = .ret () ∧
    (Server.handleConnection.steady (sampleLink.listener.2.receive 0
        (((Client.Stop sampleLink.joiner.2).env.conns 0).wire.drop 2) true)).2.env.events =
      [Event.connect,
       Event.message (NewMessage int64.zero MessageTypeLeave "Peer disconnected"),
       Event.disconnect] ∧
    (Server.handleConnection.steady (sampleLink.listener.2.receive 0
        (((Client.Stop sampleLink.joiner.2).env.conns 0).wire.drop 2) true)).2.srv.session.State =
      .StateActive := by
  decide

end network

/-! ## The lifecycle of the Session -/

namespace network

open protocol session

theorem server_sendError_srv (w : ServerWorld) (errMsg : String) :
    (Server.sendError w errMsg).2.srv = w.srv := by
  unfold Server.sendError
  dsimp only
  split <;> rfl

theorem server_performHandshake_srv (w : ServerWorld) :
    (Server.performHandshake w).2.srv = w.srv := by
  unfold Server.performHandshake
  split
  · rfl
  · rfl
  · rfl
  · dsimp only
    split_ifs
    · split
      · rename_i h; exact (congrArg (fun p => p.2.srv) h).symm.trans (server_sendError_srv _ _)
      · rename_i h; exact (congrArg (fun p => p.2.srv) h).symm.trans (server_sendError_srv _ _)
    · split
      · rename_i h; exact (congrArg (fun p => p.2.srv) h).symm.trans (server_sendError_srv _ _)
      · rename_i h; exact (congrArg (fun p => p.2.srv) h).symm.trans (server_sendError_srv _ _)
    · split
      · rfl
      · rfl
      · split <;> first | rfl | (split_ifs <;> rfl)

theorem server_send_srv (w : ServerWorld) (m : Message) :
    (Server.SendMessage w m).2.srv = w.srv := by
  unfold Server.SendMessage
  split
  · rfl
  · split <;> rfl

theorem server_body_state (w : ServerWorld) (m : Message) :
    (Server.handleConnection.body w m).2.srv.session.State = w.srv.session.State := by
  unfold Server.handleConnection.body
  dsimp only
  split_ifs <;> simp [server_send_srv, Session.AddMessage]

theorem server_loop_state : ∀ (fuel : Nat) (w : ServerWorld),
    (Server.handleConnection.loop fuel w).2.srv.session.State = w.srv.session.State
  | 0, _ => rfl
  | fuel + 1, w => by
    unfold Server.handleConnection.loop
    split
    · rfl
    · rfl
    · rfl
    · rename_i msg e h
      split
      · rename_i w1 hb
        rw [server_loop_state fuel w1]
        exact (congrArg (fun p => p.2.srv.session.State) hb).symm.trans
          (server_body_state _ _)
      · rename_i w1 hb
        exact (congrArg (fun p => p.2.srv.session.State) hb).symm.trans
          (server_body_state _ _)

theorem server_deferred_session (w : ServerWorld) :
    (Server.handleConnection.deferred w).srv.session = w.srv.session := by
  unfold Server.handleConnection.deferred
  cases w.srv.conn <;> dsimp only <;> split_ifs <;> rfl


theorem server_handleConnection_state (w : ServerWorld) :
    (Server.handleConnection w).2.srv.session.State = w.srv.session.State ∨
    (Server.handleConnection w).2.srv.session.State = .StateActive := by
  have hs := server_performHandshake_srv w
  unfold Server.handleConnection
  split
  · rename_i w1 h
    left
    rw [server_deferred_session]
    rw [← hs, h]
  · rename_i w1 h
    left
    rw [← hs, h]
  · rename_i e w1 h
    left
    rw [server_deferred_session]
    rw [← hs, h]
  · rename_i w1 h
    right
    dsimp only
    split
    · rename_i w4 hl
      have h4 := congrArg (fun p : Call Unit × ServerWorld => p.2.srv.session.State) hl
      simp only [server_loop_state] at h4
      rw [← h4]
      split_ifs <;> rfl
    · rename_i r w4 hne hl
      rw [server_deferred_session]
      have h4 := congrArg (fun p : Call Unit × ServerWorld => p.2.srv.session.State) hl
      simp only [server_loop_state] at h4
      rw [← h4]
      split_ifs <;> rfl


theorem server_steady_state (w : ServerWorld) :
    (Server.handleConnection.steady w).2.srv.session.State = w.srv.session.State := by
  unfold Server.handleConnection.steady
  split
  · rename_i w4 hl
    have h4 := congrArg (fun p : Call Unit × ServerWorld => p.2.srv.session.State) hl
    simp only [server_loop_state] at h4
    exact h4.symm
  · rename_i r w4 hne hl
    rw [server_deferred_session]
    have h4 := congrArg (fun p : Call Unit × ServerWorld => p.2.srv.session.State) hl
    simp only [server_loop_state] at h4
    exact h4.symm

theorem server_accept_session (w : ServerWorld) (accepted : Option ConnId) :
    (Server.acceptConnections w accepted).2.srv.session = w.srv.session := by
  unfold Server.acceptConnections
  cases accepted with
  | none => rfl
  | some c => dsimp only; split_ifs <;> rfl

/-- The state a listener operation leaves: `Start` gives Waiting when it
listens, `Stop` gives Ended, a served stream gives Active or nothing, the
others nothing. -/
theorem server_op_state (op : ServerOp) (w : ServerWorld) :
    match op with
    | .start listenOk =>
      (op.run w).srv.session.State = if listenOk then .StateWaiting else w.srv.session.State
    | .stop => (op.run w).srv.session.State = .StateEnded
    | .serve _ =>
      (op.run w).srv.session.State = w.srv.session.State ∨
      (op.run w).srv.session.State = .StateActive
    | _ => (op.run w).srv.session.State = w.srv.session.State := by
  cases op with
  | start ok => cases ok <;> rfl
  | serve accepted =>
    dsimp only [ServerOp.run]
    split_ifs with h1
    · rcases server_handleConnection_state (Server.acceptConnections w accepted).2 with h | h
      · rw [server_accept_session] at h
        exact Or.inl h
      · exact Or.inr h
    · exact Or.inl (congrArg Session.State (server_accept_session w accepted))
  | steady => exact server_steady_state w
  | send m => exact congrArg (fun s => s.session.State) (server_send_srv w m)
  | receive id frames closed => rfl
  | stop => dsimp only; rw [ServerOp.run, server_stop_srv]; rfl

theorem rank_le_ended (st : session.State) : st.rank ≤ session.State.StateEnded.rank := by
  cases st <;> decide

theorem rank_ended (st : session.State) (h : session.State.StateEnded.rank ≤ st.rank) :
    st = .StateEnded := by
  cases st <;> first | rfl | exact absurd h (by decide)

theorem server_op_mono (op : ServerOp) (w : ServerWorld)
    (h : op.allowed w.srv.session.State) :
    w.srv.session.State.rank ≤ (op.run w).srv.session.State.rank := by
  have hs := server_op_state op w
  cases op with
  | start ok =>
    dsimp only at hs
    rw [hs]
    cases ok
    · exact Nat.le_refl _
    · rcases h with h | h <;> rw [h] <;> decide
  | serve accepted =>
    dsimp only at hs
    rcases hs with hs | hs
    · rw [hs]
    · rw [hs]
      have h2 : w.srv.session.State ≠ .StateEnded := h
      revert h2
      cases w.srv.session.State <;> intro h2 <;> first | decide | exact absurd rfl h2
  | steady => dsimp only at hs; rw [hs]
  | send m => dsimp only at hs; rw [hs]
  | receive id frames closed => dsimp only at hs; rw [hs]
  | stop => dsimp only at hs; rw [hs]; exact rank_le_ended _

theorem server_runAll_append : ∀ (pre post : List ServerOp) (w : ServerWorld),
    ServerOp.runAll (pre ++ post) w = ServerOp.runAll post (ServerOp.runAll pre w)
  | [], _, _ => rfl
  | op :: pre, post, w => server_runAll_append pre post (op.run w)

theorem server_allowedAll_append : ∀ (pre post : List ServerOp) (w : ServerWorld),
    ServerOp.allowedAll (pre ++ post) w → ServerOp.allowedAll post (ServerOp.runAll pre w)
  | [], _, _, h => h
  | op :: pre, post, w, h => server_allowedAll_append pre post (op.run w) h.2

theorem server_runAll_mono : ∀ (ops : List ServerOp) (w : ServerWorld),
    ServerOp.allowedAll ops w →
    w.srv.session.State.rank ≤ (ServerOp.runAll ops w).srv.session.State.rank
  | [], _, _ => Nat.le_refl _
  | op :: ops, w, h =>
    Nat.le_trans (server_op_mono op w h.1) (server_runAll_mono ops (op.run w) h.2)

theorem client_performHandshake_cli (w : ClientWorld) :
    (Client.performHandshake w).2.cli = w.cli := by
  unfold Client.performHandshake
  dsimp only
  split
  · rfl
  · rfl
  · split
    · rfl
    · rfl
    · rfl
    · split_ifs
      · rfl
      · rfl
      · split <;> rfl

theorem client_send_cli (w : ClientWorld) (m : Message) :
    (Client.SendMessage w m).2.cli = w.cli := by
  unfold Client.SendMessage
  split
  · rfl
  · split <;> rfl

theorem client_body_state (w : ClientWorld) (m : Message) :
    (Client.handleConnection.body w m).2.cli.session.State = w.cli.session.State := by
  unfold Client.handleConnection.body
  dsimp only
  split_ifs <;> simp [client_send_cli, Session.AddMessage]

theorem client_loop_state : ∀ (fuel : Nat) (w : ClientWorld),
    (Client.handleConnection.loop fuel w).2.cli.session.State = w.cli.session.State
  | 0, _ => rfl
  | fuel + 1, w => by
    unfold Client.handleConnection.loop
    split
    · rfl
    · rfl
    · rfl
    · rename_i msg e h
      split
      · rename_i w1 hb
        rw [client_loop_state fuel w1]
        exact (congrArg (fun p => p.2.cli.session.State) hb).symm.trans
          (client_body_state _ _)
      · rename_i w1 hb
        exact (congrArg (fun p => p.2.cli.session.State) hb).symm.trans
          (client_body_state _ _)

theorem client_deferred_session (w : ClientWorld) :
    (Client.handleConnection.deferred w).cli.session = w.cli.session := by
  unfold Client.handleConnection.deferred
  cases w.cli.conn <;> dsimp only <;> split_ifs <;> rfl

theorem client_handleConnection_state (w : ClientWorld) :
    (Client.handleConnection w).2.cli.session.State = w.cli.session.State := by
  unfold Client.handleConnection
  split
  · rename_i w4 hl
    have h4 := congrArg (fun p : Call Unit × ClientWorld => p.2.cli.session.State) hl
    simp only [client_loop_state] at h4
    exact h4.symm
  · rename_i r w4 hne hl
    rw [client_deferred_session]
    have h4 := congrArg (fun p : Call Unit × ClientWorld => p.2.cli.session.State) hl
    simp only [client_loop_state] at h4
    exact h4.symm

theorem client_ConnectLocal_state (w : ClientWorld) (dialed : Option ConnId)
    (sessionID : String) :
    (Client.ConnectLocal w dialed sessionID).2.cli.session.State = w.cli.session.State ∨
    (Client.ConnectLocal w dialed sessionID).2.cli.session.State = .StateActive := by
  unfold Client.ConnectLocal
  cases dialed with
  | none => exact Or.inl rfl
  | some conn =>
    dsimp only
    split
    · rename_i w2 h
      have h2 := congrArg (fun p : Call (Option Error) × ClientWorld => p.2.cli) h
      simp only [client_performHandshake_cli] at h2
      left; rw [← h2]
    · rename_i w2 h
      have h2 := congrArg (fun p : Call (Option Error) × ClientWorld => p.2.cli) h
      simp only [client_performHandshake_cli] at h2
      left; rw [← h2]
    · rename_i err w2 h
      have h2 := congrArg (fun p : Call (Option Error) × ClientWorld => p.2.cli) h
      simp only [client_performHandshake_cli] at h2
      left; dsimp only; rw [← h2]
    · right
      split_ifs <;> rfl

theorem client_ConnectViaSSH_state (w : ClientWorld) (sshDialed : Bool)
    (dialed : Option ConnId) (sessionID : String) :
    (Client.ConnectViaSSH w sshDialed dialed sessionID).2.cli.session.State
      = w.cli.session.State ∨
    (Client.ConnectViaSSH w sshDialed dialed sessionID).2.cli.session.State
      = .StateActive := by
  unfold Client.ConnectViaSSH
  cases sshDialed with
  | false => exact Or.inl rfl
  | true =>
    simp only [Bool.not_true, Bool.false_eq_true, if_false]
    cases dialed with
    | none => exact Or.inl rfl
    | some conn =>
      dsimp only
      split
      · rename_i w2 h
        have h2 := congrArg (fun p : Call (Option Error) × ClientWorld => p.2.cli) h
        simp only [client_performHandshake_cli] at h2
        left; rw [← h2]
      · rename_i w2 h
        have h2 := congrArg (fun p : Call (Option Error) × ClientWorld => p.2.cli) h
        simp only [client_performHandshake_cli] at h2
        left; rw [← h2]
      · rename_i err w2 h
        have h2 := congrArg (fun p : Call (Option Error) × ClientWorld => p.2.cli) h
        simp only [client_performHandshake_cli] at h2
        left; dsimp only; rw [← h2]
      · right
        split_ifs <;> rfl

/-- The state a joiner operation leaves: `Stop` gives Ended, a connect gives
Active or nothing, the others nothing. -/
theorem client_op_state (op : ClientOp) (w : ClientWorld) :
    match op with
    | .stop => (op.run w).cli.session.State = .StateEnded
    | .connectLocal _ _ =>
      (op.run w).cli.session.State = w.cli.session.State ∨
      (op.run w).cli.session.State = .StateActive
    | .connectViaSSH _ _ _ =>
      (op.run w).cli.session.State = w.cli.session.State ∨
      (op.run w).cli.session.State = .StateActive
    | _ => (op.run w).cli.session.State = w.cli.session.State := by
  cases op with
  | connectLocal dialed sessionID => exact client_ConnectLocal_state w dialed sessionID
  | connectViaSSH sshDialed dialed sessionID =>
    exact client_ConnectViaSSH_state w sshDialed dialed sessionID
  | handle => exact client_handleConnection_state w
  | send m => exact congrArg (fun s => s.session.State) (client_send_cli w m)
  | receive id frames closed => rfl
  | stop => dsimp only; rw [ClientOp.run, client_stop_cli]; rfl

theorem active_of_not_ended (st : session.State) (h : st ≠ .StateEnded) :
    st.rank ≤ session.State.StateActive.rank := by
  cases st <;> first | decide | exact absurd rfl h

theorem client_op_mono (op : ClientOp) (w : ClientWorld)
    (h : op.allowed w.cli.session.State) :
    w.cli.session.State.rank ≤ (op.run w).cli.session.State.rank := by
  have hs := client_op_state op w
  cases op with
  | connectLocal dialed sessionID =>
    dsimp only at hs
    rcases hs with hs | hs
    · rw [hs]
    · rw [hs]; exact active_of_not_ended _ h
  | connectViaSSH sshDialed dialed sessionID =>
    dsimp only at hs
    rcases hs with hs | hs
    · rw [hs]
    · rw [hs]; exact active_of_not_ended _ h
  | handle => dsimp only at hs; rw [hs]
  | send m => dsimp only at hs; rw [hs]
  | receive id frames closed => dsimp only at hs; rw [hs]
  | stop => dsimp only at hs; rw [hs]; exact rank_le_ended _

theorem client_runAll_append : ∀ (pre post : List ClientOp) (w : ClientWorld),
    ClientOp.runAll (pre ++ post) w = ClientOp.runAll post (ClientOp.runAll pre w)
  | [], _, _ => rfl
  | op :: pre, post, w => client_runAll_append pre post (op.run w)

theorem client_allowedAll_append : ∀ (pre post : List ClientOp) (w : ClientWorld),
    ClientOp.allowedAll (pre ++ post) w → ClientOp.allowedAll post (ClientOp.runAll pre w)
  | [], _, _, h => h
  | op :: pre, post, w, h => client_allowedAll_append pre post (op.run w) h.2

theorem client_runAll_mono : ∀ (ops : List ClientOp) (w : ClientWorld),
    ClientOp.allowedAll ops w →
    w.cli.session.State.rank ≤ (ClientOp.runAll ops w).cli.session.State.rank
  | [], _, _ => Nat.le_refl _
  | op :: ops, w, h =>
    Nat.le_trans (client_op_mono op w h.1) (client_runAll_mono ops (op.run w) h.2)

/-- C15, as the code has it.  No operation looks at the state it replaces:
`Start` sets Waiting when it listens, a served stream whose handshake
completes and a connect that succeeds set Active, `Stop` sets Ended, and every
other operation and every failure leaves the state as it is.  So over every
sequence of operations that keeps the caller's discipline (`Start` only on a
Session that is Created or Waiting, nothing served or dialled once it is
Ended) the state after any initial part of the sequence is not later in the
order Created < Waiting < Active < Ended than the state after the whole of it,
and a state that is Ended stays Ended. -/
theorem lifecycle_monotone (sops : List ServerOp) (cops : List ClientOp) (sw : ServerWorld)
    (cw : ClientWorld) (hs : ServerOp.allowedAll sops sw) (hc : ClientOp.allowedAll cops cw) :
    (∀ pre post, sops = pre ++ post →
      (ServerOp.runAll pre sw).srv.session.State.rank ≤
        (ServerOp.runAll sops sw).srv.session.State.rank) ∧
    (∀ pre post, sops = pre ++ post →
      (ServerOp.runAll pre sw).srv.session.State = .StateEnded →
      (ServerOp.runAll sops sw).srv.session.State = .StateEnded) ∧
    (∀ pre post, cops = pre ++ post →
      (ClientOp.runAll pre cw).cli.session.State.rank ≤
        (ClientOp.runAll cops cw).cli.session.State.rank) ∧
    (∀ pre post, cops = pre ++ post →
      (ClientOp.runAll pre cw).cli.session.State = .StateEnded →
      (ClientOp.runAll cops cw).cli.session.State = .StateEnded) ∧
    (∀ (op : ServerOp) (w : ServerWorld),
      match op with
      | .start listenOk =>
        (op.run w).srv.session.State =
          if listenOk then .StateWaiting else w.srv.session.State
      | .stop => (op.run w).srv.session.State = .StateEnded
      | .serve _ =>
        (op.run w).srv.session.State = w.srv.session.State ∨
        (op.run w).srv.session.State = .StateActive
      | _ => (op.run w).srv.session.State = w.srv.session.State) ∧
    (∀ (op : ClientOp) (w : ClientWorld),
      match op with
      | .stop => (op.run w).cli.session.State = .StateEnded
      | .connectLocal _ _ =>
        (op.run w).cli.session.State = w.cli.session.State ∨
        (op.run w).cli.session.State = .StateActive
      | .connectViaSSH _ _ _ =>
        (op.run w).cli.session.State = w.cli.session.State ∨
        (op.run w).cli.session.State = .StateActive
      | _ => (op.run w).cli.session.State = w.cli.session.State) := by
  have hsm : ∀ pre post, sops = pre ++ post →
      (ServerOp.runAll pre sw).srv.session.State.rank ≤
        (ServerOp.runAll sops sw).srv.session.State.rank := by
    intro pre post h
    subst h
    rw [server_runAll_append]
    exact server_runAll_mono post _ (server_allowedAll_append pre post sw hs)
  have hcm : ∀ pre post, cops = pre ++ post →
      (ClientOp.runAll pre cw).cli.session.State.rank ≤
        (ClientOp.runAll cops cw).cli.session.State.rank := by
    intro pre post h
    subst h
    rw [client_runAll_append]
    exact client_runAll_mono post _ (client_allowedAll_append pre post cw hc)
  refine ⟨hsm, ?_, hcm, ?_, server_op_state, client_op_state⟩
  · intro pre post h he
    have := hsm pre post h
    rw [he] at this
    exact rank_ended _ this
  · intro pre post h he
    have := hcm pre post h
    rw [he] at this
    exact rank_ended _ this

theorem lifecycle_monotone_witness :
    ServerOp.allowedAll [ServerOp.start true, ServerOp.serve (some 0), ServerOp.stop]
      { srv := NewServer (sampleSession "nova-42"), env := sampleEnv (Conn.fresh [] true) } ∧
    ClientOp.allowedAll [ClientOp.connectLocal (some 0) "nova-42", ClientOp.stop]
      (sampleClient "" (Conn.fresh [] true)) ∧
    (ServerOp.runAll [ServerOp.start true, ServerOp.serve (some 0), ServerOp.stop]
      { srv := NewServer (sampleSession "nova-42"),
        env := sampleEnv (Conn.fresh [] true) }).srv.session.State = .StateEnded :=
  ⟨⟨Or.inl rfl, (by decide : session.State.StateWaiting ≠ session.State.StateEnded), trivial, trivial⟩, ⟨(by decide : session.State.StateCreated ≠ session.State.StateEnded), trivial, trivial⟩,
   (lifecycle_monotone [ServerOp.start true, ServerOp.serve (some 0), ServerOp.stop]
      [ClientOp.connectLocal (some 0) "nova-42", ClientOp.stop]
      { srv := NewServer (sampleSession "nova-42"), env := sampleEnv (Conn.fresh [] true) }
      (sampleClient "" (Conn.fresh [] true))
      ⟨Or.inl rfl, (by decide : session.State.StateWaiting ≠ session.State.StateEnded), trivial, trivial⟩ ⟨(by decide : session.State.StateCreated ≠ session.State.StateEnded), trivial, trivial⟩).2.1
     [ServerOp.start true, ServerOp.serve (some 0), ServerOp.stop] [] rfl rfl⟩

/-- C15 fails as stated: `Start` after `Stop` moves the listener's Session
from Ended back to Waiting, and a `ConnectLocal` that succeeds after `Stop`
moves the joiner's Session from Ended back to Active. -/
theorem ended_is_not_terminal :
    (Server.Stop (sampleListener "nova-42" (Conn.fresh [] false))).srv.session.State
      = .StateEnded ∧
    (Server.Start (Server.Stop (sampleListener "nova-42" (Conn.fresh [] false)))
      true).2.srv.session.State = .StateWaiting ∧
    (Client.Stop (sampleJoiner "nova-42" (Conn.fresh [json.Encode
      (NewHandshakeMessage int64.zero MessageTypeWelcome "nova-42")] false))).cli.session.State
      = .StateEnded ∧
    (Client.ConnectLocal (Client.Stop (sampleJoiner "nova-42" (Conn.fresh [json.Encode
      (NewHandshakeMessage int64.zero MessageTypeWelcome "nova-42")] false))) (some 1)
      "nova-42").1 = .ret none ∧
    (Client.ConnectLocal (Client.Stop (sampleJoiner "nova-42" (Conn.fresh [json.Encode
      (NewHandshakeMessage int64.zero MessageTypeWelcome "nova-42")] false))) (some 1)
      "nova-42").2.cli.session.State = .StateActive := by
  decide

end network

/-! ## The connection string -/

namespace strings

theorem splitList_ne_nil (sep : Char) : ∀ cs : List Char, splitList sep cs ≠ []
  | [] => by simp [splitList]
  | c :: cs => by
    unfold splitList
    split_ifs
    · simp
    · split <;> simp

theorem splitList_of_not_mem (sep : Char) : ∀ cs : List Char, sep ∉ cs → splitList sep cs = [cs]
  | [], _ => rfl
  | c :: cs, h => by
    have hc : ¬ c = sep := fun e => h (by simp [e])
    have hcs : sep ∉ cs := fun e => h (List.mem_cons_of_mem _ e)
    simp [splitList, hc, splitList_of_not_mem sep cs hcs]

theorem splitList_append (sep : Char) : ∀ (a b : List Char), sep ∉ a →
    splitList sep (a ++ sep :: b) = a :: splitList sep b
  | [], b, _ => by simp [splitList]
  | c :: a, b, h => by
    have hc : ¬ c = sep := fun e => h (by simp [e])
    have ha : sep ∉ a := fun e => h (List.mem_cons_of_mem _ e)
    simp [splitList, hc, splitList_append sep a b ha]

theorem splitList_length (sep : Char) : ∀ cs : List Char,
    (splitList sep cs).length = cs.count sep + 1
  | [] => rfl
  | c :: cs => by
    unfold splitList
    by_cases hc : c = sep
    · subst hc
      simp [splitList_length c cs]
    · have hne := splitList_ne_nil sep cs
      have ih := splitList_length sep cs
      rcases hs : splitList sep cs with _ | ⟨p, ps⟩
      · exact absurd hs hne
      · rw [hs] at ih
        have hc2 : (c == sep) = false := by simpa using hc
        simp [hc, List.count_cons, hc2] at ih ⊢
        omega

end strings

namespace strconv

theorem digitChar_isDigit (d : Nat) (h : d < 10) :
    (Nat.digitChar d).isDigit = true ∧ (Nat.digitChar d).toNat - 48 = d := by
  interval_cases d <;> decide

end strconv

namespace strconv

theorem toDigitsCore_parse : ∀ (fuel n : Nat) (ds : List Char), n < fuel →
    ∃ pre, Nat.toDigitsCore 10 fuel n ds = pre ++ ds ∧ pre ≠ [] ∧
      (∀ c ∈ pre, c.isDigit = true) ∧
      ∀ (acc : Nat) (rest : List Char),
        parseDigits (pre ++ rest) acc = parseDigits rest (acc * 10 ^ pre.length + n)
  | 0, _, _, h => absurd h (Nat.not_lt_zero _)
  | fuel + 1, n, ds, h => by
    have hd := digitChar_isDigit (n % 10) (Nat.mod_lt _ (by decide))
    unfold Nat.toDigitsCore
    dsimp only
    by_cases h0 : n / 10 = 0
    · rw [if_pos h0]
      refine ⟨[Nat.digitChar (n % 10)], rfl, by simp, ?_, ?_⟩
      · intro c hc
        rw [List.mem_singleton.mp hc]
        exact hd.1
      · intro acc rest
        have hn : n % 10 = n := Nat.mod_eq_of_lt (by omega)
        simp only [List.singleton_append, List.length_singleton, pow_one, parseDigits, hd.1,
          hd.2, if_true]
        rw [hn]
        rfl
    · rw [if_neg h0]
      have hlt : n / 10 < fuel := by omega
      obtain ⟨pre, h1, h2, h3, h4⟩ :=
        toDigitsCore_parse fuel (n / 10) (Nat.digitChar (n % 10) :: ds) hlt
      refine ⟨pre ++ [Nat.digitChar (n % 10)], by simp [h1], by simp, ?_, ?_⟩
      · intro c hc
        rcases List.mem_append.mp hc with hc | hc
        · exact h3 c hc
        · rw [List.mem_singleton.mp hc]
          exact hd.1
      · intro acc rest
        rw [List.append_assoc, h4]
        simp only [List.singleton_append, parseDigits, hd.1, hd.2, if_true, List.length_append,
          List.length_singleton]
        congr 1
        have := Nat.div_add_mod n 10
        rw [pow_succ]
        nlinarith [this]

theorem Atoi_toString (p : Nat) (hp : (p : Int) ≤ maxInt64) :
    Atoi (toString p) = some (p : Int) := by
  obtain ⟨pre, h1, h2, h3, h4⟩ := toDigitsCore_parse (p + 1) p [] (Nat.lt_succ_self p)
  have hdata : (toString p).data = pre := by
    show (Nat.toDigits 10 p) = pre
    rw [Nat.toDigits, h1, List.append_nil]
  rcases hpre : pre with _ | ⟨c, rest⟩
  · exact absurd hpre h2
  · have hc : c.isDigit = true := h3 c (by rw [hpre]; exact List.mem_cons_self _ _)
    have hm : ¬ c = '-' := by
      intro e; rw [e] at hc; exact absurd hc (by decide)
    have hpl : ¬ c = '+' := by
      intro e; rw [e] at hc; exact absurd hc (by decide)
    have hparse := h4 0 []
    rw [List.append_nil, hpre] at hparse
    unfold Atoi
    rw [hdata, hpre]
    simp only [hm, hpl, if_false, parseUint]
    rw [hparse]
    simp [parseDigits, hp]

end strconv

namespace strconv

theorem toString_digits (p : Nat) : ∀ c ∈ (toString p).data, c.isDigit = true := by
  obtain ⟨pre, h1, _, h3, _⟩ := toDigitsCore_parse (p + 1) p [] (Nat.lt_succ_self p)
  have hdata : (toString p).data = pre := by
    show (Nat.toDigits 10 p) = pre
    rw [Nat.toDigits, h1, List.append_nil]
  rw [hdata]
  exact h3

end strconv

namespace network

theorem Split_two (sep : Char) (a b : String) (ha : sep ∉ a.data) (hb : sep ∉ b.data)
    (s : String) (hs : s.data = a.data ++ sep :: b.data) :
    strings.Split s sep = [a, b] := by
  simp [strings.Split, hs, strings.splitList_append sep _ _ ha,
    strings.splitList_of_not_mem sep _ hb]

theorem Split_three (sep : Char) (a b c : String) (ha : sep ∉ a.data) (hb : sep ∉ b.data)
    (hc : sep ∉ c.data) (s : String)
    (hs : s.data = a.data ++ sep :: (b.data ++ sep :: c.data)) :
    strings.Split s sep = [a, b, c] := by
  simp [strings.Split, hs, strings.splitList_append sep _ _ ha,
    strings.splitList_append sep _ _ hb, strings.splitList_of_not_mem sep _ hc]

/-- C17. `ParseConnectionString` inverts the documented format: for every
user and host that are not empty and hold neither `:` nor `@`, and every
session id that holds no `:`, the text user `@` host `:` session parses to
exactly that User, Host and SessionID with Port 9999; and for every `p` from 1
to 65535 the same text followed by `:` and the decimal rendering of `p` parses
to the same User, Host and SessionID with Port `p`. -/
theorem ParseConnectionString_inverts (user host sess : String) (p : Nat)
    (hu : user ≠ "") (hh : host ≠ "")
    (hu1 : ':' ∉ user.data) (hu2 : '@' ∉ user.data)
    (hh1 : ':' ∉ host.data) (hh2 : '@' ∉ host.data) (hs : ':' ∉ sess.data)
    (hp1 : 1 ≤ p) (hp2 : p ≤ 65535) :
    ParseConnectionString (user ++ "@" ++ host ++ ":" ++ sess) =
      .ok { User := user, Host := host, SessionID := sess, Port := 9999 } ∧
    ParseConnectionString (user ++ "@" ++ host ++ ":" ++ sess ++ ":" ++ toString p) =
      .ok { User := user, Host := host, SessionID := sess, Port := (p : Int) } := by
  have huh : ':' ∉ (user ++ "@" ++ host).data := by
    simp [String.data_append, hu1, hh1]
  have hsplit_uh : strings.Split (user ++ "@" ++ host) '@' = [user, host] :=
    Split_two '@' user host hu2 hh2 _ (by simp [String.data_append])
  have hp : ':' ∉ (toString p).data := by
    intro h
    exact absurd (strconv.toString_digits p _ h) (by decide)
  have h2 : strings.Split (user ++ "@" ++ host ++ ":" ++ sess) ':' =
      [user ++ "@" ++ host, sess] :=
    Split_two ':' _ sess huh hs _ (by simp [String.data_append])
  have h3 : strings.Split (user ++ "@" ++ host ++ ":" ++ sess ++ ":" ++ toString p) ':' =
      [user ++ "@" ++ host, sess, toString p] :=
    Split_three ':' _ sess _ huh hs hp _ (by simp [String.data_append])
  have hatoi := strconv.Atoi_toString p (by simp only [maxInt64]; omega)
  constructor
  · simp [ParseConnectionString, ParseConnectionString.port, ParseConnectionString.userHost, h2,
      hsplit_uh, hu, hh]
  · have hlo : ¬ ((p : Int) < 1) := by omega
    have hhi : ¬ ((p : Int) > 65535) := by omega
    simp [ParseConnectionString, ParseConnectionString.port, ParseConnectionString.userHost, h3,
      hsplit_uh, hu, hh, hatoi, hlo, hhi]

end network

namespace strings

theorem before_not_mem (sep : Char) : ∀ cs : List Char, sep ∉ before sep cs
  | [] => by simp [before]
  | c :: cs => by
    by_cases hc : c = sep
    · simp [before, List.takeWhile_cons, hc]
    · have ih := before_not_mem sep cs
      have hc2 : ¬ sep = c := fun e => hc e.symm
      have hb : (c != sep) = true := by simpa using hc
      simp only [before] at ih
      simp [before, List.takeWhile_cons, hb, hc2, ih]

theorem before_after (sep : Char) : ∀ cs : List Char, sep ∈ cs →
    cs = before sep cs ++ sep :: after sep cs
  | [], h => by simp at h
  | c :: cs, h => by
    by_cases hc : c = sep
    · subst hc
      simp [before, after, List.takeWhile_cons, List.dropWhile_cons]
    · have hmem : sep ∈ cs := by
        rcases List.mem_cons.mp h with e | e
        · exact absurd e.symm hc
        · exact e
      have ih := before_after sep cs hmem
      have hb : (c != sep) = true := by simpa using hc
      simp only [before, after] at ih
      simp only [before, after, List.takeWhile_cons, List.dropWhile_cons, hb, if_true,
        List.cons_append, List.cons.injEq, true_and]
      exact ih

theorem before_of_not_mem (sep : Char) (cs : List Char) (h : sep ∉ cs) : before sep cs = cs := by
  simp only [before]
  rw [List.takeWhile_eq_self_iff]
  intro c hc
  have : c ≠ sep := fun e => h (e ▸ hc)
  simpa using this

theorem splitList_mem (sep : Char) (cs : List Char) (h : sep ∈ cs) :
    splitList sep cs = before sep cs :: splitList sep (after sep cs) := by
  conv_lhs => rw [before_after sep cs h]
  exact splitList_append sep _ _ (before_not_mem sep cs)

theorem count_mem (sep : Char) (cs : List Char) (h : sep ∈ cs) :
    cs.count sep = (after sep cs).count sep + 1 := by
  conv_lhs => rw [before_after sep cs h]
  rw [List.count_append, List.count_cons_self, List.count_eq_zero_of_not_mem
    (before_not_mem sep cs)]
  omega

end strings

namespace network

theorem mk_eq_empty (cs : List Char) : (String.mk cs = "") ↔ cs = [] := by
  constructor
  · intro h
    exact congrArg String.data h
  · intro h
    rw [h]

/-- `ParseConnectionString.userHost` in terms of the text before and after
the first `@`. -/
theorem userHost_eq (uh sid : String) (port : Int) :
    ParseConnectionString.userHost uh sid port =
      if uh.data.count '@' ≠ 1 then .error (.text "invalid user@host format")
      else if strings.before '@' uh.data = [] then .error (.text "user cannot be empty")
      else if strings.after '@' uh.data = [] then .error (.text "host cannot be empty")
      else .ok { User := String.mk (strings.before '@' uh.data),
                 Host := String.mk (strings.after '@' uh.data),
                 SessionID := sid, Port := port } := by
  by_cases hm : '@' ∈ uh.data
  · have hs := strings.splitList_mem '@' uh.data hm
    have hc := strings.count_mem '@' uh.data hm
    by_cases hm2 : '@' ∈ strings.after '@' uh.data
    · have hs2 := strings.splitList_mem '@' _ hm2
      have hc2 := strings.count_mem '@' _ hm2
      have hne := strings.splitList_ne_nil '@'
        (strings.after '@' (strings.after '@' uh.data))
      have hcount : uh.data.count '@' ≠ 1 := by omega
      have hlen : (strings.Split uh '@').length ≠ 2 := by
        simp only [strings.Split, List.length_map, hs, hs2, List.length_cons]
        have : (strings.splitList '@'
            (strings.after '@' (strings.after '@' uh.data))).length ≠ 0 := by
          intro h0
          exact hne (List.length_eq_zero.mp h0)
        omega
      simp only [ParseConnectionString.userHost, hlen, hcount, ne_eq, not_false_eq_true, if_true]
    · have hs2 := strings.splitList_of_not_mem '@' _ hm2
      have hcount : uh.data.count '@' = 1 := by
        rw [hc, List.count_eq_zero_of_not_mem hm2]
      have hsplit : strings.Split uh '@' =
          [String.mk (strings.before '@' uh.data), String.mk (strings.after '@' uh.data)] := by
        simp [strings.Split, hs, hs2]
      simp [ParseConnectionString.userHost, hsplit, hcount, mk_eq_empty]
  · have hs := strings.splitList_of_not_mem '@' _ hm
    have hcount : uh.data.count '@' ≠ 1 := by
      rw [List.count_eq_zero_of_not_mem hm]
      decide
    have hlen : (strings.Split uh '@').length ≠ 2 := by
      simp [strings.Split, hs]
    simp only [ParseConnectionString.userHost, hlen, hcount, ne_eq, not_false_eq_true, if_true]

end network

namespace network

theorem userHost_error_iff (uh sid : String) (port : Int) :
    (∃ e, ParseConnectionString.userHost uh sid port = .error e) ↔
      (uh.data.count '@' ≠ 1 ∨ strings.before '@' uh.data = [] ∨
        strings.after '@' uh.data = []) := by
  rw [userHost_eq]
  by_cases h1 : uh.data.count '@' ≠ 1
  · simp [h1]
  · by_cases h2 : strings.before '@' uh.data = []
    · simp [h1, h2]
    · by_cases h3 : strings.after '@' uh.data = []
      · simp [h1, h2, h3]
      · simp [h1, h2, h3]

theorem parse_error_iff (s : String) :
    (∃ e, ParseConnectionString s = .error e) ↔ malformedConnString s := by
  unfold malformedConnString
  by_cases h1 : ':' ∈ s.data
  · have hs1 := strings.splitList_mem ':' s.data h1
    have hc1 := strings.count_mem ':' s.data h1
    by_cases h2 : ':' ∈ strings.after ':' s.data
    · have hs2 := strings.splitList_mem ':' _ h2
      have hc2 := strings.count_mem ':' _ h2
      by_cases h3 : ':' ∈ strings.after ':' (strings.after ':' s.data)
      · have hs3 := strings.splitList_mem ':' _ h3
        have hc3 := strings.count_mem ':' _ h3
        have hcount : 2 < s.data.count ':' := by omega
        have hlen : (strings.Split s ':').length > 3 := by
          simp only [strings.Split, List.length_map, hs1, hs2, hs3, List.length_cons]
          have hne := strings.splitList_ne_nil ':'
            (strings.after ':' (strings.after ':' (strings.after ':' s.data)))
          have : (strings.splitList ':'
              (strings.after ':' (strings.after ':' (strings.after ':' s.data)))).length ≠ 0 :=
            fun h0 => hne (List.length_eq_zero.mp h0)
          omega
        constructor
        · intro _
          exact Or.inr (Or.inl hcount)
        · intro _
          exact ⟨.text
            "invalid format, expected user@host:session-id or user@host:session-id:port",
            by simp only [ParseConnectionString, hlen, or_true, if_true]⟩
      · have hs3 := strings.splitList_of_not_mem ':' _ h3
        have hcount : s.data.count ':' = 2 := by
          rw [hc1, hc2, List.count_eq_zero_of_not_mem h3]
        have hsplit : strings.Split s ':' =
            [String.mk (strings.before ':' s.data),
             String.mk (strings.before ':' (strings.after ':' s.data)),
             String.mk (strings.after ':' (strings.after ':' s.data))] := by
          simp [strings.Split, hs1, hs2, hs3]
        cases hA : strconv.Atoi (String.mk (strings.after ':' (strings.after ':' s.data))) with
        | none =>
          have hport : ¬ isPort (String.mk (strings.after ':' (strings.after ':' s.data))) := by
            rintro ⟨p, hp, _⟩
            rw [hA] at hp
            exact absurd hp (by simp)
          constructor
          · intro _
            exact Or.inr (Or.inr (Or.inr (Or.inr (Or.inr ⟨hcount, hport⟩))))
          · intro _
            exact ⟨.text ("invalid port number: "
                ++ String.mk (strings.after ':' (strings.after ':' s.data))), by
              simp [ParseConnectionString, ParseConnectionString.port, hsplit, hA]⟩
        | some p =>
          by_cases hr : p < 1 ∨ p > 65535
          · have hport :
                ¬ isPort (String.mk (strings.after ':' (strings.after ':' s.data))) := by
              rintro ⟨q, hq, hq1, hq2⟩
              rw [hA] at hq
              have : p = q := by simpa using hq
              subst this
              omega
            constructor
            · intro _
              exact Or.inr (Or.inr (Or.inr (Or.inr (Or.inr ⟨hcount, hport⟩))))
            · intro _
              exact ⟨.text "port must be between 1 and 65535", by
                simp [ParseConnectionString, ParseConnectionString.port, hsplit, hA, hr]⟩
          · have hport : isPort (String.mk (strings.after ':' (strings.after ':' s.data))) :=
              ⟨p, hA, by omega, by omega⟩
            have hparse : ParseConnectionString s =
                ParseConnectionString.userHost (String.mk (strings.before ':' s.data))
                  (String.mk (strings.before ':' (strings.after ':' s.data))) p := by
              simp [ParseConnectionString, ParseConnectionString.port, hsplit, hA, hr]
            rw [hparse, userHost_error_iff]
            simp [hcount, hport]
    · have hs2 := strings.splitList_of_not_mem ':' _ h2
      have hcount : s.data.count ':' = 1 := by
        rw [hc1, List.count_eq_zero_of_not_mem h2]
      have hsplit : strings.Split s ':' =
          [String.mk (strings.before ':' s.data), String.mk (strings.after ':' s.data)] := by
        simp [strings.Split, hs1, hs2]
      have hparse : ParseConnectionString s =
          ParseConnectionString.userHost (String.mk (strings.before ':' s.data))
            (String.mk (strings.after ':' s.data)) 9999 := by
        simp [ParseConnectionString, ParseConnectionString.port, hsplit]
      rw [hparse, userHost_error_iff]
      simp [hcount]
  · have hs1 := strings.splitList_of_not_mem ':' _ h1
    have hcount : s.data.count ':' = 0 := List.count_eq_zero_of_not_mem h1
    constructor
    · intro _
      exact Or.inl hcount
    · intro _
      exact ⟨.text
        "invalid format, expected user@host:session-id or user@host:session-id:port",
        by simp [ParseConnectionString, strings.Split, hs1]⟩

/-- C18. `ParseConnectionString` rejects malformed input and nothing else: it
returns an error exactly for the inputs that have no `:` or more than two of
them, whose part before the first `:` does not hold exactly one `@`, whose
user (the text before that `@`) or host (the text after it) is empty, or, when
there are two `:`, whose third part `strconv.Atoi` does not read as a number
from 1 to 65535; it returns a ConnectionInfo for every other input.  The
parts the code splits the input into are one more than the `:` in it, and the
decimal rendering of every number from 1 to 65535 is such a third part. -/
theorem ParseConnectionString_rejects (s : String) :
    ((∃ e, ParseConnectionString s = .error e) ↔ malformedConnString s) ∧
    ((∃ info, ParseConnectionString s = .ok info) ↔ ¬ malformedConnString s) ∧
    (strings.Split s ':').length = s.data.count ':' + 1 ∧
    (∀ p : Nat, 1 ≤ p → p ≤ 65535 → isPort (toString p)) := by
  have h := parse_error_iff s
  refine ⟨h, ?_, ?_, ?_⟩
  · rw [← h]
    cases hp : ParseConnectionString s with
    | error e => simp
    | ok info => simp
  · simp [strings.Split, strings.splitList_length]
  · intro p h1 h2
    exact ⟨(p : Int), strconv.Atoi_toString p (by simp only [maxInt64]; omega),
      by omega, by omega⟩

theorem ParseConnectionString_inverts_witness :
    ("alice" : String) ≠ "" ∧ ':' ∉ ("alice" : String).data ∧
    ParseConnectionString "alice@localhost:cosmic-turtle-123:8080" =
      .ok { User := "alice", Host := "localhost", SessionID := "cosmic-turtle-123",
            Port := 8080 } :=
  ⟨by decide, by decide,
   (ParseConnectionString_inverts "alice" "localhost" "cosmic-turtle-123" 8080
      (by decide) (by decide) (by decide) (by decide) (by decide) (by decide) (by decide)
      (by decide) (by decide)).2⟩

end network

/-! ## The frames an endpoint writes by itself -/

namespace network
open protocol session

theorem Grows.refl (P : Message → Prop) (c : ConnId → Conn) : Grows P c c :=
  fun _ => ⟨[], by simp⟩

theorem Grows.trans {P : Message → Prop} {a b c : ConnId → Conn} (h1 : Grows P a b)
    (h2 : Grows P b c) : Grows P a c := by
  intro id
  obtain ⟨l1, e1, p1⟩ := h1 id
  obtain ⟨l2, e2, p2⟩ := h2 id
  refine ⟨l1 ++ l2, by rw [e2, e1, List.append_assoc], ?_⟩
  intro m hm
  rcases List.mem_append.mp hm with h | h
  · exact p1 m h
  · exact p2 m h

theorem Grows.of_written {P : Message → Prop} {a b : ConnId → Conn}
    (h : ∀ id, (b id).written = (a id).written) : Grows P a b :=
  fun id => ⟨[], by simp [h id]⟩

theorem update_written (c : ConnId → Conn) (id : ConnId) (x : Conn)
    (h : x.written = (c id).written) : ∀ j, (Function.update c id x j).written = (c j).written := by
  intro j
  by_cases hj : j = id
  · subst hj; simp [h]
  · simp [Function.update, hj]

theorem grows_Decode (P : Message → Prop) (e : Env) (d : Option ConnId) :
    Grows P e.conns (e.Decode d).2.conns := by
  apply Grows.of_written
  unfold Env.Decode
  cases d with
  | none => intro id; rfl
  | some i =>
    dsimp only
    by_cases hc : (e.conns i).closed = true
    · rw [if_pos hc]
      intro id; rfl
    · rw [if_neg hc]
      cases (e.conns i).incoming with
      | nil => intro id; rfl
      | cons f rest => exact update_written _ _ _ rfl

theorem grows_Close (P : Message → Prop) (e : Env) (i : ConnId) :
    Grows P e.conns (e.Close i).conns :=
  Grows.of_written (update_written _ _ _ rfl)

theorem grows_Encode (P : Message → Prop) (e : Env) (enc : Option ConnId) (m : Message)
    (hm : P m) : Grows P e.conns (e.Encode enc m).2.conns := by
  unfold Env.Encode
  cases enc with
  | none => exact Grows.refl _ _
  | some i =>
    dsimp only
    split_ifs
    · exact Grows.refl _ _
    · split
      · exact Grows.of_written (update_written _ _ _ rfl)
      · intro j
        by_cases hj : j = i
        · subst hj
          exact ⟨[m], by simp [Env.setConn], by simpa using hm⟩
        · exact ⟨[], by simp [Env.setConn, Function.update, hj], by simp⟩
      · intro j
        by_cases hj : j = i
        · subst hj
          exact ⟨[m], by simp [Env.setConn], by simpa using hm⟩
        · exact ⟨[], by simp [Env.setConn, Function.update, hj], by simp⟩

theorem ownFrame_error (t : int64) (errMsg : String) (h : errMsg ≠ "") :
    ownFrame (NewMessage t MessageTypeError errMsg) :=
  Or.inr (Or.inr (Or.inr (Or.inr (Or.inl ⟨rfl, h⟩))))

theorem ownFrame_welcome (t : int64) (sid : String) :
    ownFrame (NewHandshakeMessage t MessageTypeWelcome sid) :=
  Or.inr (Or.inl ⟨rfl, rfl⟩)

theorem ownFrame_hello (t : int64) (sid : String) :
    ownFrame (NewHandshakeMessage t MessageTypeHello sid) :=
  Or.inl ⟨rfl, rfl⟩

theorem ownFrame_ready (t : int64) : ownFrame (NewMessage t MessageTypeReady "") :=
  Or.inr (Or.inr (Or.inl ⟨rfl, rfl⟩))

theorem ownFrame_pong (t : int64) : ownFrame (NewMessage t MessageTypePong "") :=
  Or.inr (Or.inr (Or.inr (Or.inl ⟨rfl, rfl⟩)))

theorem ownFrame_leave_host (t : int64) :
    ownFrame (NewMessage t MessageTypeLeave "Host disconnected") :=
  Or.inr (Or.inr (Or.inr (Or.inr (Or.inr ⟨rfl, Or.inl rfl⟩))))

theorem ownFrame_leave_peer (t : int64) :
    ownFrame (NewMessage t MessageTypeLeave "Peer disconnected") :=
  Or.inr (Or.inr (Or.inr (Or.inr (Or.inr ⟨rfl, Or.inr rfl⟩))))

theorem grows_sendError (w : ServerWorld) (errMsg : String) (h : errMsg ≠ "") :
    Grows ownFrame w.env.conns (Server.sendError w errMsg).2.env.conns := by
  have hE := grows_Encode ownFrame w.env.now.2 w.srv.encoder
    (NewMessage w.env.now.1 MessageTypeError errMsg) (ownFrame_error _ _ h)
  unfold Server.sendError
  dsimp only
  split
  · rename_i e he
    rw [he] at hE
    exact hE
  · rename_i r e hne he
    rw [he] at hE
    exact hE

theorem grows_server_performHandshake (w : ServerWorld) :
    Grows ownFrame w.env.conns (Server.performHandshake w).2.env.conns := by
  have hD := grows_Decode ownFrame w.env w.srv.decoder
  unfold Server.performHandshake
  split
  · rename_i e h; rw [h] at hD; exact hD
  · rename_i e h; rw [h] at hD; exact hD
  · rename_i e h; rw [h] at hD; exact hD
  · rename_i hello e h
    rw [h] at hD
    dsimp only
    split_ifs
    · have hS := grows_sendError { w with env := e } "Expected HELLO message" (by decide)
      split
      · rename_i w2 h2; rw [h2] at hS; exact hD.trans hS
      · rename_i w2 h2; rw [h2] at hS; exact hD.trans hS
    · have hS := grows_sendError { w with env := e } "Session ID mismatch" (by decide)
      split
      · rename_i w2 h2; rw [h2] at hS; exact hD.trans hS
      · rename_i w2 h2; rw [h2] at hS; exact hD.trans hS
    · have hE := grows_Encode ownFrame e.now.2 w.srv.encoder
        (NewHandshakeMessage e.now.1 MessageTypeWelcome w.srv.session.ID)
        (ownFrame_welcome _ _)
      split
      · rename_i e2 h2; rw [h2] at hE; exact hD.trans hE
      · rename_i e2 h2; rw [h2] at hE; exact hD.trans hE
      · rename_i e2 h2
        rw [h2] at hE
        have hD2 := grows_Decode ownFrame e2 w.srv.decoder
        split
        · rename_i e3 h3; rw [h3] at hD2; exact (hD.trans hE).trans hD2
        · rename_i e3 h3; rw [h3] at hD2; exact (hD.trans hE).trans hD2
        · rename_i e3 h3; rw [h3] at hD2; exact (hD.trans hE).trans hD2
        · rename_i ready e3 h3
          rw [h3] at hD2
          split_ifs <;> exact (hD.trans hE).trans hD2

theorem grows_server_send (w : ServerWorld) (m : Message) (hm : ownFrame m) :
    Grows ownFrame w.env.conns (Server.SendMessage w m).2.env.conns := by
  unfold Server.SendMessage
  split
  · exact Grows.refl _ _
  · rename_i i hi
    have hE := grows_Encode ownFrame w.env (some i) m hm
    split
    · rename_i e he; rw [he] at hE; exact hE
    · rename_i r e hne he; rw [he] at hE; exact hE

theorem grows_server_body (w : ServerWorld) (m : Message) :
    Grows ownFrame w.env.conns (Server.handleConnection.body w m).2.env.conns := by
  unfold Server.handleConnection.body
  dsimp only
  split_ifs <;>
    first
    | exact Grows.refl _ _
    | exact grows_server_send _ _ (ownFrame_pong _)

theorem grows_server_loop : ∀ (fuel : Nat) (w : ServerWorld),
    Grows ownFrame w.env.conns (Server.handleConnection.loop fuel w).2.env.conns
  | 0, _ => Grows.refl _ _
  | fuel + 1, w => by
    have hD := grows_Decode ownFrame w.env w.srv.decoder
    unfold Server.handleConnection.loop
    split
    · rename_i e h; rw [h] at hD; exact hD
    · rename_i e h; rw [h] at hD; exact hD
    · rename_i e h; rw [h] at hD; exact hD
    · rename_i msg e h
      rw [h] at hD
      have hB := grows_server_body { w with env := e } msg
      split
      · rename_i w1 hb
        rw [hb] at hB
        exact (hD.trans hB).trans (grows_server_loop fuel w1)
      · rename_i w1 hb
        rw [hb] at hB
        exact hD.trans hB

theorem grows_server_deferred (w : ServerWorld) :
    Grows ownFrame w.env.conns (Server.handleConnection.deferred w).env.conns := by
  unfold Server.handleConnection.deferred
  cases w.srv.conn with
  | none => dsimp only; split_ifs <;> exact Grows.refl _ _
  | some i => dsimp only; split_ifs <;> exact grows_Close _ _ _

theorem grows_of_server_loop {fuel : Nat} {w w4 : ServerWorld} {r : Call Unit}
    (h : Server.handleConnection.loop fuel w = (r, w4)) :
    Grows ownFrame w.env.conns w4.env.conns := by
  have hL := grows_server_loop fuel w
  rw [h] at hL
  exact hL

theorem grows_server_steady (w : ServerWorld) :
    Grows ownFrame w.env.conns (Server.handleConnection.steady w).2.env.conns := by
  unfold Server.handleConnection.steady
  split
  · rename_i w4 hl
    exact grows_of_server_loop hl
  · rename_i r w4 hne hl
    exact (grows_of_server_loop hl).trans (grows_server_deferred w4)

theorem grows_server_handleConnection (w : ServerWorld) :
    Grows ownFrame w.env.conns (Server.handleConnection w).2.env.conns := by
  have hH := grows_server_performHandshake w
  unfold Server.handleConnection
  split
  · rename_i w1 h; rw [h] at hH; exact hH.trans (grows_server_deferred w1)
  · rename_i w1 h; rw [h] at hH; exact hH
  · rename_i err w1 h; rw [h] at hH; exact hH.trans (grows_server_deferred w1)
  · rename_i w1 h
    rw [h] at hH
    dsimp only
    by_cases hc : w1.srv.onConnect = true
    · simp only [hc, if_true]
      split
      · rename_i w4 hl
        have hL := grows_of_server_loop hl
        exact hH.trans hL
      · rename_i r w4 hne hl
        have hL := grows_of_server_loop hl
        exact (hH.trans hL).trans (grows_server_deferred w4)
    · simp only [hc, Bool.false_eq_true, if_false]
      split
      · rename_i w4 hl
        have hL := grows_of_server_loop hl
        exact hH.trans hL
      · rename_i r w4 hne hl
        have hL := grows_of_server_loop hl
        exact (hH.trans hL).trans (grows_server_deferred w4)

theorem grows_server_Stop (w : ServerWorld) :
    Grows ownFrame w.env.conns (Server.Stop w).env.conns := by
  unfold Server.Stop
  cases hc : w.srv.conn with
  | none => dsimp only; split_ifs <;> exact Grows.refl _ _
  | some i =>
    cases he : w.srv.encoder with
    | none => dsimp only; split_ifs <;> exact grows_Close _ _ _
    | some enc =>
      have hE := grows_Encode ownFrame w.env.now.2 (some enc)
        (NewMessage w.env.now.1 MessageTypeLeave "Host disconnected") (ownFrame_leave_host _)
      dsimp only
      split_ifs <;> exact hE.trans (grows_Close _ _ _)

theorem grows_client_performHandshake (w : ClientWorld) :
    Grows ownFrame w.env.conns (Client.performHandshake w).2.env.conns := by
  have hE := grows_Encode ownFrame w.env.now.2 w.cli.encoder
    (NewHandshakeMessage w.env.now.1 MessageTypeHello w.cli.session.ID) (ownFrame_hello _ _)
  unfold Client.performHandshake
  dsimp only
  split
  · rename_i e h; rw [h] at hE; exact hE
  · rename_i e h; rw [h] at hE; exact hE
  · rename_i e h
    rw [h] at hE
    have hD := grows_Decode ownFrame e w.cli.decoder
    split
    · rename_i e1 h1; rw [h1] at hD; exact hE.trans hD
    · rename_i e1 h1; rw [h1] at hD; exact hE.trans hD
    · rename_i e1 h1; rw [h1] at hD; exact hE.trans hD
    · rename_i welcome e1 h1
      rw [h1] at hD
      split_ifs
      · exact hE.trans hD
      · exact hE.trans hD
      · have hR := grows_Encode ownFrame e1.now.2 w.cli.encoder
          (NewMessage e1.now.1 MessageTypeReady "") (ownFrame_ready _)
        split
        · rename_i e2 h2; rw [h2] at hR; exact (hE.trans hD).trans hR
        · rename_i e2 h2; rw [h2] at hR; exact (hE.trans hD).trans hR
        · rename_i e2 h2; rw [h2] at hR; exact (hE.trans hD).trans hR

theorem grows_client_send (w : ClientWorld) (m : Message) (hm : ownFrame m) :
    Grows ownFrame w.env.conns (Client.SendMessage w m).2.env.conns := by
  unfold Client.SendMessage
  split
  · exact Grows.refl _ _
  · rename_i i hi
    have hE := grows_Encode ownFrame w.env (some i) m hm
    split
    · rename_i e he; rw [he] at hE; exact hE
    · rename_i r e hne he; rw [he] at hE; exact hE

theorem grows_client_body (w : ClientWorld) (m : Message) :
    Grows ownFrame w.env.conns (Client.handleConnection.body w m).2.env.conns := by
  unfold Client.handleConnection.body
  dsimp only
  split_ifs <;>
    first
    | exact Grows.refl _ _
    | exact grows_client_send _ _ (ownFrame_pong _)

theorem grows_client_loop : ∀ (fuel : Nat) (w : ClientWorld),
    Grows ownFrame w.env.conns (Client.handleConnection.loop fuel w).2.env.conns
  | 0, _ => Grows.refl _ _
  | fuel + 1, w => by
    have hD := grows_Decode ownFrame w.env w.cli.decoder
    unfold Client.handleConnection.loop
    split
    · rename_i e h; rw [h] at hD; exact hD
    · rename_i e h; rw [h] at hD; exact hD
    · rename_i e h; rw [h] at hD; exact hD
    · rename_i msg e h
      rw [h] at hD
      have hB := grows_client_body { w with env := e } msg
      split
      · rename_i w1 hb
        rw [hb] at hB
        exact (hD.trans hB).trans (grows_client_loop fuel w1)
      · rename_i w1 hb
        rw [hb] at hB
        exact hD.trans hB

theorem grows_client_deferred (w : ClientWorld) :
    Grows ownFrame w.env.conns (Client.handleConnection.deferred w).env.conns := by
  unfold Client.handleConnection.deferred
  cases w.cli.conn with
  | none => dsimp only; split_ifs <;> exact Grows.refl _ _
  | some i => dsimp only; split_ifs <;> exact grows_Close _ _ _

theorem grows_client_handleConnection (w : ClientWorld) :
    Grows ownFrame w.env.conns (Client.handleConnection w).2.env.conns := by
  have hL := grows_client_loop (w.env.turns w.cli.decoder) w
  unfold Client.handleConnection
  split
  · rename_i w4 hl
    rw [hl] at hL
    exact hL
  · rename_i r w4 hne hl
    rw [hl] at hL
    exact hL.trans (grows_client_deferred w4)

theorem grows_client_ConnectLocal (w : ClientWorld) (dialed : Option ConnId)
    (sessionID : String) :
    Grows ownFrame w.env.conns (Client.ConnectLocal w dialed sessionID).2.env.conns := by
  unfold Client.ConnectLocal
  cases dialed with
  | none => exact Grows.refl _ _
  | some conn =>
    dsimp only
    have hH := grows_client_performHandshake
      { w with cli := { w.cli with conn := some conn, encoder := some conn,
                                   decoder := some conn,
                                   session := { w.cli.session with ID := sessionID } } }
    split
    · rename_i w2 h; rw [h] at hH; exact hH
    · rename_i w2 h; rw [h] at hH; exact hH
    · rename_i err w2 h; rw [h] at hH; exact hH.trans (grows_Close _ _ _)
    · rename_i w2 h
      rw [h] at hH
      split_ifs <;> exact hH

theorem grows_client_ConnectViaSSH (w : ClientWorld) (sshDialed : Bool)
    (dialed : Option ConnId) (sessionID : String) :
    Grows ownFrame w.env.conns
      (Client.ConnectViaSSH w sshDialed dialed sessionID).2.env.conns := by
  unfold Client.ConnectViaSSH
  cases sshDialed with
  | false => exact Grows.refl _ _
  | true =>
    simp only [Bool.not_true, Bool.false_eq_true, if_false]
    cases dialed with
    | none => exact Grows.refl _ _
    | some conn =>
      dsimp only
      have hH := grows_client_performHandshake
        { cli := { w.cli with sshClient := true, conn := some conn, encoder := some conn,
                              decoder := some conn,
                              session := { w.cli.session with ID := sessionID } },
          env := { w.env with sshClosed := false } }
      split
      · rename_i w2 h; rw [h] at hH; exact hH
      · rename_i w2 h; rw [h] at hH; exact hH
      · rename_i err w2 h; rw [h] at hH; exact hH.trans (grows_Close _ _ _)
      · rename_i w2 h
        rw [h] at hH
        split_ifs <;> exact hH

theorem grows_client_Stop (w : ClientWorld) :
    Grows ownFrame w.env.conns (Client.Stop w).env.conns := by
  unfold Client.Stop
  cases hc : w.cli.conn with
  | none => dsimp only; split_ifs <;> exact Grows.refl _ _
  | some i =>
    cases he : w.cli.encoder with
    | none => dsimp only; split_ifs <;> exact grows_Close _ _ _
    | some enc =>
      have hE := grows_Encode ownFrame w.env.now.2 (some enc)
        (NewMessage w.env.now.1 MessageTypeLeave "Peer disconnected") (ownFrame_leave_peer _)
      dsimp only
      split_ifs <;> exact hE.trans (grows_Close _ _ _)

/-- C20, as the code has it.  Whatever the state of the endpoint and of its
streams, the frames that the connection handlers, the connects and Stop write
are own frames: what was written before is unchanged and every frame added is
a Hello, Welcome, Ready or Pong with empty content, an Error with a content
that is not empty, or a Leave with the content `Host disconnected` or
`Peer disconnected`.  On the wire an own Hello, Welcome, Ready or Pong has no
`content` member, an own Error or Leave has one. -/
theorem own_frames_content :
    (∀ w : ServerWorld, Grows ownFrame w.env.conns (Server.handleConnection w).2.env.conns) ∧
    (∀ w : ServerWorld,
      Grows ownFrame w.env.conns (Server.handleConnection.steady w).2.env.conns) ∧
    (∀ w : ServerWorld, Grows ownFrame w.env.conns (Server.Stop w).env.conns) ∧
    (∀ (w : ClientWorld) (dialed : Option ConnId) (sessionID : String),
      Grows ownFrame w.env.conns (Client.ConnectLocal w dialed sessionID).2.env.conns) ∧
    (∀ (w : ClientWorld) (sshDialed : Bool) (dialed : Option ConnId) (sessionID : String),
      Grows ownFrame w.env.conns
        (Client.ConnectViaSSH w sshDialed dialed sessionID).2.env.conns) ∧
    (∀ w : ClientWorld, Grows ownFrame w.env.conns (Client.handleConnection w).2.env.conns) ∧
    (∀ w : ClientWorld, Grows ownFrame w.env.conns (Client.Stop w).env.conns) ∧
    (∀ m : Message, ownFrame m →
      (m.Kind = MessageTypeHello ∨ m.Kind = MessageTypeWelcome ∨ m.Kind = MessageTypeReady ∨
          m.Kind = MessageTypePong →
        m.Content = "" ∧ ∀ v, ("content", v) ∉ json.Marshal m) ∧
      (m.Kind = MessageTypeError ∨ m.Kind = MessageTypeLeave →
        m.Content ≠ "" ∧ ("content", json.Value.str m.Content) ∈ json.Marshal m)) := by
  refine ⟨grows_server_handleConnection, grows_server_steady, grows_server_Stop,
    grows_client_ConnectLocal, grows_client_ConnectViaSSH, grows_client_handleConnection,
    grows_client_Stop, ?_⟩
  intro m hm
  have absent : m.Content = "" → ∀ v, ("content", v) ∉ json.Marshal m := by
    intro h v
    by_cases hs : m.SessionID = "" <;> simp [json.Marshal, h, hs]
  have present : m.Content ≠ "" → ("content", json.Value.str m.Content) ∈ json.Marshal m := by
    intro h
    simp [json.Marshal, h]
  constructor
  · intro hk
    have hc : m.Content = "" := by
      rcases hm with h | h | h | h | h | h
      · exact h.2
      · exact h.2
      · exact h.2
      · exact h.2
      · rcases hk with k | k | k | k <;> rw [h.1] at k <;> exact absurd k (by decide)
      · rcases hk with k | k | k | k <;> rw [h.1] at k <;> exact absurd k (by decide)
    exact ⟨hc, absent hc⟩
  · intro hk
    have hc : m.Content ≠ "" := by
      rcases hm with h | h | h | h | h | h
      · rcases hk with k | k <;> rw [h.1] at k <;> exact absurd k (by decide)
      · rcases hk with k | k <;> rw [h.1] at k <;> exact absurd k (by decide)
      · rcases hk with k | k <;> rw [h.1] at k <;> exact absurd k (by decide)
      · rcases hk with k | k <;> rw [h.1] at k <;> exact absurd k (by decide)
      · exact h.2
      · rcases h.2 with c | c <;> rw [c] <;> decide
    exact ⟨hc, present hc⟩

/-- C20 fails as stated for Leave: the frame that the listener's Stop writes
is a Leave, neither Text nor Error, and it carries the content
`Host disconnected` on the wire. -/
theorem leave_carries_content :
    ((Server.Stop (sampleListener "nova-42" (Conn.fresh [] false))).env.conns 0).written =
      [NewMessage int64.zero MessageTypeLeave "Host disconnected"] ∧
    (NewMessage int64.zero MessageTypeLeave "Host disconnected").Kind ≠ MessageTypeText ∧
    (NewMessage int64.zero MessageTypeLeave "Host disconnected").Kind ≠ MessageTypeError ∧
    ("content", json.Value.str "Host disconnected") ∈
      json.Marshal (NewMessage int64.zero MessageTypeLeave "Host disconnected") := by
  decide

end network

/-! ## The session id -/

namespace session

theorem adjectives_getD_mem : ∀ a : Fin 16, adjectives.getD a.val "" ∈ adjectives := by
  decide

theorem nouns_getD_mem : ∀ b : Fin 16, nouns.getD b.val "" ∈ nouns := by
  decide

theorem adjectives_no_dash : ∀ a : Fin 16, '-' ∉ (adjectives.getD a.val "").data := by
  decide

theorem nouns_no_dash : ∀ b : Fin 16, '-' ∉ (nouns.getD b.val "").data := by
  decide

theorem number_no_dash (k : Nat) : '-' ∉ (toString k).data := by
  intro h
  exact absurd (strconv.toString_digits k _ h) (by decide)

theorem GenerateSessionID_data (a b : Fin 16) (n : Fin 10000) :
    (GenerateSessionID a b n).data =
      (adjectives.getD a.val "").data ++
        '-' :: ((nouns.getD b.val "").data ++ '-' :: (toString n.val).data) := by
  simp [GenerateSessionID, String.data_append]

end session

namespace network
open session

/-- C21. Session id format: for every outcome of the random source,
`GenerateSessionID` returns adjective `-` noun `-` number, where the adjective
and the noun are entries of the two lists of 16 words and the number is the
decimal rendering of an integer from 0 to 9999 (a run of ASCII digits that
`strconv.Atoi` reads back as that integer); the result is not empty and
`strings.Split` on `-` gives exactly these 3 parts; and a session made by `New`
has this id, which is not empty, with no messages and the state Created. -/
theorem GenerateSessionID_format (a b : Fin 16) (n : Fin 10000) (now : int64) :
    adjectives.length = 16 ∧ nouns.length = 16 ∧
    (∃ adj noun : String, ∃ k : Nat,
      adj ∈ adjectives ∧ noun ∈ nouns ∧ k ≤ 9999 ∧
      GenerateSessionID a b n = adj ++ "-" ++ noun ++ "-" ++ toString k ∧
      (toString k).data ≠ [] ∧ (∀ c ∈ (toString k).data, c.isDigit = true) ∧
      strconv.Atoi (toString k) = some (k : Int) ∧
      strings.Split (GenerateSessionID a b n) '-' = [adj, noun, toString k]) ∧
    GenerateSessionID a b n ≠ "" ∧
    (strings.Split (GenerateSessionID a b n) '-').length = 3 ∧
    (New a b n now).ID = GenerateSessionID a b n ∧
    (New a b n now).ID ≠ "" ∧
    (New a b n now).Messages = [] ∧
    (New a b n now).State = State.StateCreated := by
  have hsplit : strings.Split (GenerateSessionID a b n) '-' =
      [adjectives.getD a.val "", nouns.getD b.val "", toString n.val] :=
    Split_three '-' _ _ _ (adjectives_no_dash a) (nouns_no_dash b) (number_no_dash n.val) _
      (GenerateSessionID_data a b n)
  have hne : GenerateSessionID a b n ≠ "" := by
    intro h
    have hd := GenerateSessionID_data a b n
    rw [h] at hd
    have := congrArg List.length hd
    simp at this
    omega
  have hk : n.val ≤ 9999 := by have := n.isLt; omega
  have hatoi : strconv.Atoi (toString n.val) = some (n.val : Int) :=
    strconv.Atoi_toString n.val (by unfold maxInt64; omega)
  have hdig : (toString n.val).data ≠ [] := by
    intro h
    have := hatoi
    have he : toString n.val = "" := by
      apply String.ext; rw [h]
    have hnone : strconv.Atoi "" = none := by decide
    rw [he, hnone] at this
    cases this
  refine ⟨rfl, rfl, ⟨_, _, n.val, adjectives_getD_mem a, nouns_getD_mem b, hk, rfl, hdig,
    strconv.toString_digits n.val, hatoi, hsplit⟩, hne, ?_, rfl, hne, rfl, rfl⟩
  rw [hsplit]; rfl

end network

/-! ## Go strings on the wire -/

namespace utf8

theorem toByte_val (n : Nat) (h : n < 256) : (toByte n).val = n := Nat.mod_eq_of_lt h

theorem char_valid (c : Char) : c.toNat < 0xD800 ∨ (0xDFFF < c.toNat ∧ c.toNat < 0x110000) :=
  c.valid

theorem first_two (b : Nat) (h : 0xC2 ≤ b ∧ b ≤ 0xDF) : first b = some (2, 0x80, 0xBF) := by
  have a1 : ¬ b < 0xC2 := by omega
  simp only [first, a1, h.2, if_true, if_false]

theorem first_three (b : Nat) (h : 0xE0 ≤ b ∧ b ≤ 0xEF) :
    first b = some (3, if b = 0xE0 then 0xA0 else 0x80, if b = 0xED then 0x9F else 0xBF) := by
  have a1 : ¬ b < 0xC2 := by omega
  have a2 : ¬ b ≤ 0xDF := by omega
  simp only [first, a1, a2, if_false]
  split_ifs <;> first | rfl | omega

theorem first_four (b : Nat) (h : 0xF0 ≤ b ∧ b ≤ 0xF4) :
    first b = some (4, if b = 0xF0 then 0x90 else 0x80, if b = 0xF4 then 0x8F else 0xBF) := by
  have a1 : ¬ b < 0xC2 := by omega
  have a2 : ¬ b ≤ 0xDF := by omega
  have a3 : ¬ b = 0xE0 := by omega
  have a4 : ¬ b ≤ 0xEC := by omega
  have a5 : ¬ b = 0xED := by omega
  have a6 : ¬ b ≤ 0xEF := by omega
  simp only [first, a1, a2, a3, a4, a5, a6, if_false]
  split_ifs <;> first | rfl | omega

theorem decode1 (b0 : Fin 256) (rest : gostring) (h0 : b0.val < 0x80) :
    DecodeRuneInString (b0 :: rest) = (b0.val, 1) := by
  simp [DecodeRuneInString, h0]

theorem decode2 (b0 b1 : Fin 256) (rest : gostring) (h0 : 0xC2 ≤ b0.val ∧ b0.val ≤ 0xDF)
    (h1 : 0x80 ≤ b1.val ∧ b1.val ≤ 0xBF) :
    DecodeRuneInString (b0 :: b1 :: rest) = (b0.val % 32 * 64 + b1.val % 64, 2) := by
  have a1 : ¬ b0.val < 0x80 := by omega
  have a2 : ¬ (rest.length + 1 + 1 < 2) := by omega
  have a3 : ¬ (b1.val < 0x80 ∨ 0xBF < b1.val) := by omega
  simp only [DecodeRuneInString, first_two _ h0, List.length_cons, a1, a2, a3, if_false,
    le_refl, if_true]

theorem decode3 (b0 b1 b2 : Fin 256) (rest : gostring) (h0 : 0xE0 ≤ b0.val ∧ b0.val ≤ 0xEF)
    (h1 : 0x80 ≤ b1.val ∧ b1.val ≤ 0xBF) (ha : b0.val = 0xE0 → 0xA0 ≤ b1.val)
    (hb : b0.val = 0xED → b1.val ≤ 0x9F) (h2 : 0x80 ≤ b2.val ∧ b2.val ≤ 0xBF) :
    DecodeRuneInString (b0 :: b1 :: b2 :: rest) =
      (b0.val % 16 * 4096 + b1.val % 64 * 64 + b2.val % 64, 3) := by
  have a1 : ¬ b0.val < 0x80 := by omega
  have a2 : ¬ (rest.length + 1 + 1 + 1 < 3) := by omega
  have a3 : ¬ (b1.val < (if b0.val = 0xE0 then 0xA0 else 0x80) ∨
      (if b0.val = 0xED then 0x9F else 0xBF) < b1.val) := by
    split_ifs <;> omega
  have a4 : ¬ (b2.val < 0x80 ∨ 0xBF < b2.val) := by omega
  have a5 : ¬ (3 ≤ 2) := by omega
  simp only [DecodeRuneInString, first_three _ h0, List.length_cons, a1, a2, a3, a4, a5,
    if_false, le_refl, if_true]

theorem decode4 (b0 b1 b2 b3 : Fin 256) (rest : gostring)
    (h0 : 0xF0 ≤ b0.val ∧ b0.val ≤ 0xF4)
    (h1 : 0x80 ≤ b1.val ∧ b1.val ≤ 0xBF) (ha : b0.val = 0xF0 → 0x90 ≤ b1.val)
    (hb : b0.val = 0xF4 → b1.val ≤ 0x8F) (h2 : 0x80 ≤ b2.val ∧ b2.val ≤ 0xBF)
    (h3 : 0x80 ≤ b3.val ∧ b3.val ≤ 0xBF) :
    DecodeRuneInString (b0 :: b1 :: b2 :: b3 :: rest) =
      (b0.val % 8 * 262144 + b1.val % 64 * 4096 + b2.val % 64 * 64 + b3.val % 64, 4) := by
  have a1 : ¬ b0.val < 0x80 := by omega
  have a2 : ¬ (rest.length + 1 + 1 + 1 + 1 < 4) := by omega
  have a3 : ¬ (b1.val < (if b0.val = 0xF0 then 0x90 else 0x80) ∨
      (if b0.val = 0xF4 then 0x8F else 0xBF) < b1.val) := by
    split_ifs <;> omega
  have a4 : ¬ (b2.val < 0x80 ∨ 0xBF < b2.val) := by omega
  have a5 : ¬ (4 ≤ 2) := by omega
  have a6 : ¬ (4 ≤ 3) := by omega
  have a7 : ¬ (b3.val < 0x80 ∨ 0xBF < b3.val) := by omega
  simp only [DecodeRuneInString, first_four _ h0, List.length_cons, a1, a2, a3, a4, a5, a6, a7,
    if_false, le_refl, if_true]

theorem DecodeRuneInString_AppendRune (c : Char) (rest : gostring) :
    DecodeRuneInString (AppendRune c.toNat ++ rest) = (c.toNat, (AppendRune c.toNat).length) := by
  have hv := char_valid c
  generalize c.toNat = v at hv
  by_cases h1 : v ≤ 0x7F
  · simp only [AppendRune, h1, if_true, List.cons_append, List.nil_append]
    rw [decode1 _ _ (by rw [toByte_val _ (by omega)]; omega), toByte_val _ (by omega)]
    rfl
  · by_cases h2 : v ≤ 0x7FF
    · simp only [AppendRune, h1, h2, if_true, if_false, List.cons_append, List.nil_append]
      have e0 := toByte_val (0xC0 + v / 64) (by omega)
      have e1 := toByte_val (0x80 + v % 64) (by omega)
      rw [decode2 _ _ _ (by rw [e0]; omega) (by rw [e1]; omega), e0, e1]
      simp only [List.length_cons, List.length_nil, Prod.mk.injEq, and_true]
      omega
    · have h3 : ¬ (v > 0x10FFFF ∨ (0xD800 ≤ v ∧ v ≤ 0xDFFF)) := by omega
      by_cases h4 : v ≤ 0xFFFF
      · simp only [AppendRune, encode3, h1, h2, h3, h4, if_true, if_false, List.cons_append,
          List.nil_append]
        have e0 := toByte_val (0xE0 + v / 4096) (by omega)
        have e1 := toByte_val (0x80 + v / 64 % 64) (by omega)
        have e2 := toByte_val (0x80 + v % 64) (by omega)
        rw [decode3 _ _ _ _ (by rw [e0]; omega) (by rw [e1]; omega) (by rw [e0, e1]; omega)
          (by rw [e0, e1]; omega) (by rw [e2]; omega), e0, e1, e2]
        simp only [List.length_cons, List.length_nil, Prod.mk.injEq, and_true]
        omega
      · simp only [AppendRune, h1, h2, h3, h4, if_true, if_false, List.cons_append,
          List.nil_append]
        have e0 := toByte_val (0xF0 + v / 262144) (by omega)
        have e1 := toByte_val (0x80 + v / 4096 % 64) (by omega)
        have e2 := toByte_val (0x80 + v / 64 % 64) (by omega)
        have e3 := toByte_val (0x80 + v % 64) (by omega)
        rw [decode4 _ _ _ _ _ (by rw [e0]; omega) (by rw [e1]; omega) (by rw [e0, e1]; omega)
          (by rw [e0, e1]; omega) (by rw [e2]; omega) (by rw [e3]; omega), e0, e1, e2, e3]
        simp only [List.length_cons, List.length_nil, Prod.mk.injEq, and_true]
        omega

end utf8

namespace utf8

theorem AppendRune_cases (c : Char) :
    (∃ b : Fin 256, AppendRune c.toNat = [b] ∧ b.val < 0x80 ∧ b.val = c.toNat) ∨
    (∃ (b : Fin 256) (tail : gostring), AppendRune c.toNat = b :: tail ∧ ¬ b.val < 0x80 ∧
      1 ≤ tail.length ∧ tail.length ≤ 3) := by
  have hv := char_valid c
  generalize c.toNat = v at hv
  by_cases h1 : v ≤ 0x7F
  · left
    exact ⟨toByte v, by simp [AppendRune, h1], by rw [toByte_val _ (by omega)]; omega,
      toByte_val _ (by omega)⟩
  · right
    by_cases h2 : v ≤ 0x7FF
    · refine ⟨toByte (0xC0 + v / 64), [toByte (0x80 + v % 64)], by simp [AppendRune, h1, h2],
        ?_, by simp, by simp⟩
      rw [toByte_val _ (by omega)]; omega
    · have h3 : ¬ (v > 0x10FFFF ∨ (0xD800 ≤ v ∧ v ≤ 0xDFFF)) := by omega
      by_cases h4 : v ≤ 0xFFFF
      · refine ⟨toByte (0xE0 + v / 4096), [toByte (0x80 + v / 64 % 64), toByte (0x80 + v % 64)],
          by simp [AppendRune, encode3, h1, h2, h3, h4], ?_, by simp, by simp⟩
        rw [toByte_val _ (by omega)]; omega
      · refine ⟨toByte (0xF0 + v / 262144), [toByte (0x80 + v / 4096 % 64),
          toByte (0x80 + v / 64 % 64), toByte (0x80 + v % 64)],
          by simp [AppendRune, h1, h2, h3, h4], ?_, by simp, by simp⟩
        rw [toByte_val _ (by omega)]; omega

theorem ofString_cons (c : Char) (cs : List Char) :
    ofString (String.mk (c :: cs)) = AppendRune c.toNat ++ ofString (String.mk cs) := by
  simp [ofString]

theorem ofString_eq_nil (t : String) : ofString t = [] ↔ t = "" := by
  rcases t with ⟨cs⟩
  cases cs with
  | nil => exact ⟨fun _ => rfl, fun _ => rfl⟩
  | cons c cs =>
    rw [ofString_cons]
    constructor
    · intro h
      rcases AppendRune_cases c with ⟨b, hb, _⟩ | ⟨b, tail, hb, _⟩ <;> rw [hb] at h <;> simp at h
    · intro h
      exact absurd (congrArg String.data h) (by simp)

end utf8

namespace json

open protocol utf8

theorem appendString_go_ofString : ∀ (cs : List Char) (fuel : Nat),
    (ofString (String.mk cs)).length ≤ fuel →
    appendString.go fuel (ofString (String.mk cs)) = cs
  | [], fuel, _ => by
    cases fuel <;> rfl
  | c :: cs, fuel, h => by
    rw [ofString_cons] at h ⊢
    rcases AppendRune_cases c with ⟨b, hb, hlt, hval⟩ | ⟨b, tail, hb, hge, hl1, hl3⟩
    · rw [hb] at h ⊢
      cases fuel with
      | zero => simp at h
      | succ f =>
        simp only [List.cons_append, List.nil_append, List.length_cons] at h ⊢
        simp only [appendString.go, hlt, if_true]
        rw [appendString_go_ofString cs f (by omega), hval, Char.ofNat_toNat]
    · have hdec := DecodeRuneInString_AppendRune c ((ofString (String.mk cs)).take (3 - tail.length))
      rw [hb] at h hdec ⊢
      cases fuel with
      | zero => simp at h
      | succ f =>
        simp only [List.cons_append, List.length_cons, List.length_append] at h hdec ⊢
        have htake : (b :: (tail ++ ofString (String.mk cs))).take 4 =
            b :: (tail ++ (ofString (String.mk cs)).take (3 - tail.length)) := by
          simp only [List.take_succ_cons, List.take_append_eq_append_take]
          rw [List.take_of_length_le (by omega)]
        simp only [appendString.go, hge, if_false, htake, hdec]
        have hne : ¬ (c.toNat = RuneError ∧ tail.length + 1 = 1) := by omega
        simp only [hne, if_false, Char.ofNat_toNat, List.drop_succ_cons]
        rw [List.drop_append_of_le_length (le_refl _), List.drop_length, List.nil_append,
          appendString_go_ofString cs f (by omega)]

theorem appendString_ofString (t : String) : appendString (ofString t) = t := by
  rcases t with ⟨cs⟩
  simp only [appendString]
  rw [appendString_go_ofString cs _ (le_refl _)]

theorem appendString_eq_empty (s : gostring) : appendString s = "" ↔ s = [] := by
  constructor
  · intro h
    cases s with
    | nil => rfl
    | cons b rest =>
      have h2 := congrArg String.data h
      simp only [appendString, List.length_cons, appendString.go] at h2
      split_ifs at h2
  · intro h
    rw [h]; rfl

theorem MarshalRaw_raw (m : Message) : MarshalRaw m.raw = Marshal m := by
  simp only [MarshalRaw, Marshal, Message.raw, appendString_ofString, ofString_eq_nil]

theorem EncodeRaw_raw (m : Message) : EncodeRaw m.raw = Encode m := by
  simp only [EncodeRaw, Encode, MarshalRaw_raw]

/-- The encoder on any Go message writes what it writes for the message of the
texts that its strings are read as. -/
theorem EncodeRaw_eq (g : RawMessage) :
    EncodeRaw g = Encode (asText g) := by
  simp only [EncodeRaw, Encode, MarshalRaw, Marshal, asText, appendString_eq_empty]

theorem DecodeRaw_EncodeRaw (g : RawMessage) :
    DecodeRaw (EncodeRaw g) = some (asText g).raw := by
  rw [EncodeRaw_eq, DecodeRaw, Decode_Encode]
  rfl

theorem asText_raw (m : Message) : asText m.raw = m := by
  simp only [asText, Message.raw, appendString_ofString]

theorem not_mem_MarshalRaw_content (g : RawMessage) (h : g.Content = []) (v : Value) :
    ("content", v) ∉ MarshalRaw g := by
  by_cases hs : g.SessionID = [] <;> simp [MarshalRaw, h, hs]

theorem not_mem_MarshalRaw_session (g : RawMessage) (h : g.SessionID = []) (v : Value) :
    ("session_id", v) ∉ MarshalRaw g := by
  by_cases hc : g.Content = [] <;> simp [MarshalRaw, h, hc]

end json

namespace network
open protocol

/-- C8, as the code has it.  A Go string is a sequence of bytes and the encoder
writes each byte that is not part of a valid UTF-8 sequence as U+FFFD.  For
every Message whose kind, content and sessionId are texts (valid UTF-8) and
whatever its 64-bit timestamp, decoding the frame that encoding it gives
succeeds with a Message equal to it in Type, Content, SessionID and Timestamp,
a Content or SessionID that is empty being absent from the wire and empty
again after decoding.  For every Message at all, decoding the encoded frame
succeeds, the Timestamp is preserved, an empty Content or SessionID is absent
from the wire and empty after decoding, each string comes back as the UTF-8
encoding of the text that the encoder wrote for it, and the decoded Message is
equal to the encoded one exactly when its three strings are valid UTF-8. -/
theorem encode_decode_roundtrip (m : Message) (g : RawMessage) :
    (json.EncodeRaw m.raw = json.Encode m ∧
      json.DecodeRaw (json.EncodeRaw m.raw) = some m.raw ∧
      ∃ d, json.Decode (json.Encode m) = some d ∧
        d.Kind = m.Kind ∧ d.Content = m.Content ∧ d.SessionID = m.SessionID ∧
        d.Timestamp = m.Timestamp ∧
        (m.Content = "" → d.Content = "" ∧ m.raw.Content = [] ∧
          ∀ v, ("content", v) ∉ json.Marshal m) ∧
        (m.SessionID = "" → d.SessionID = "" ∧ m.raw.SessionID = [] ∧
          ∀ v, ("session_id", v) ∉ json.Marshal m)) ∧
    (∃ d, json.DecodeRaw (json.EncodeRaw g) = some d ∧
      d.Timestamp = g.Timestamp ∧
      d.Kind = utf8.ofString (json.appendString g.Kind) ∧
      d.Content = utf8.ofString (json.appendString g.Content) ∧
      d.SessionID = utf8.ofString (json.appendString g.SessionID) ∧
      (g.Content = [] → d.Content = [] ∧ ∀ v, ("content", v) ∉ json.MarshalRaw g) ∧
      (g.SessionID = [] → d.SessionID = [] ∧ ∀ v, ("session_id", v) ∉ json.MarshalRaw g)) ∧
    (json.DecodeRaw (json.EncodeRaw g) = some g ↔ ∃ t : Message, g = t.raw) := by
  refine ⟨⟨json.EncodeRaw_raw m, ?_, m, json.Decode_Encode m, rfl, rfl, rfl, rfl, ?_, ?_⟩,
    ⟨(json.asText g).raw, json.DecodeRaw_EncodeRaw g, rfl, rfl, rfl, rfl, ?_, ?_⟩, ?_⟩
  · rw [json.DecodeRaw_EncodeRaw, json.asText_raw]
  · intro h
    refine ⟨h, (utf8.ofString_eq_nil _).mpr h, fun v => ?_⟩
    by_cases hs : m.SessionID = "" <;> simp [json.Marshal, h, hs]
  · intro h
    refine ⟨h, (utf8.ofString_eq_nil _).mpr h, fun v => ?_⟩
    by_cases hc : m.Content = "" <;> simp [json.Marshal, h, hc]
  · intro h
    refine ⟨?_, json.not_mem_MarshalRaw_content g h⟩
    show utf8.ofString (json.appendString g.Content) = []
    rw [h]; rfl
  · intro h
    refine ⟨?_, json.not_mem_MarshalRaw_session g h⟩
    show utf8.ofString (json.appendString g.SessionID) = []
    rw [h]; rfl
  · constructor
    · intro h
      rw [json.DecodeRaw_EncodeRaw] at h
      exact ⟨json.asText g, (Option.some.inj h).symm⟩
    · rintro ⟨t, rfl⟩
      rw [json.DecodeRaw_EncodeRaw, json.asText_raw]

/-- C8 fails as stated: a Text message whose content is the two bytes FF FE
is encoded and decoded without error, and the content that comes back is
U+FFFD twice, the six bytes EF BF BD EF BF BD; kind, sessionId and timestamp
are preserved. -/
theorem invalid_utf8_not_preserved :
    sampleRaw.Content = [0xFF, 0xFE] ∧
    json.EncodeRaw sampleRaw =
      json.Frame.object [("type", json.Value.str "text"),
        ("content", json.Value.str (String.mk [Char.ofNat 0xFFFD, Char.ofNat 0xFFFD])),
        ("timestamp", json.Value.int 0)] ∧
    json.DecodeRaw (json.EncodeRaw sampleRaw) =
      some { sampleRaw with Content := [0xEF, 0xBF, 0xBD, 0xEF, 0xBF, 0xBD] } ∧
    json.DecodeRaw (json.EncodeRaw sampleRaw) ≠ some sampleRaw := by
  decide

end network
